import Mathlib

/-!
# Checkpointing core of eudico (`chain/checkpointing/sub.go`)

A shallow embedding of the checkpointing module: the coordinator state
(`CheckpointingSub`), the watcher (`match`, `matchNewConfig`, `matchCheckpoint`),
the handler (`triggerChange`), the two long operations (`GenerateNewKeys`,
`CreateCheckpoint`), the construction (`NewCheckpointSub`) and the start-up
(`BuildCheckpointingSub`).  Three smaller embeddings follow it, each in its own
namespace: `Submgr` (`AddSubnet` and `JoinSubnet` of the subnet manager),
`AtomicReplace` (the example actor `Replace`) and `Hierarchical` (the direction of a
cross-net message).  All definitions come first, the theorems after them.

Conventions of the embedding.

* Go `[]byte` is `Bytes = List Nat` (every element below 256); a Go `string` is a
  Lean `String` (`[]byte(s)` keeps the same content, so a string handed over as
  bytes is recorded as the string).
* Go `[]string` fields are slice headers: `StrSlice = Option Nat`, `none` for the
  nil slice and `some a` for a view of the whole backing array stored at address
  `a` of `Machine.mem`.  `sort.Strings` sorts the backing array in place, so every
  header that points to it sees the sorted content.
* `float64` amounts (in BTC) are represented exactly, as the integer number of
  units of `1e-8` BTC (`Amount`); floating-point rounding is not modelled.  The
  conversion `uint64(value*100000000)` truncates a floating-point product, so its
  result is not computed from that integer: it is the field `uint64OfValue` of `Env`.
* Everything the module calls but which is not part of these sources (taproot
  codec helpers, Bitcoin client, roster store, FROST rounds, host API) is a field
  of `Env`; the outbound calls are recorded, in order, in `Machine.trace`.
* A Go function that returns `error` and mutates its receiver becomes
  `Machine → … → Machine × Outcome`; a run-time panic is an `Outcome` too.
-/

namespace Checkpointing

set_option maxRecDepth 100000

/-! ## Basic data -/

abbrev Bytes := List Nat

/-- An amount of BTC, counted in units of `1e-8` BTC. -/
abbrev Amount := Int

/-- Number of blocks between two checkpoints (`const checkpointFrequency = 15`). -/
def checkpointFrequency : Int := 15

/-- Identity that announces a freshly generated key (hard-coded in the source). -/
def aliceID : String := "12D3KooWMBbLLKTM9Voo89TXLd98w4MjkJUych6QvECptousGtR4"

/-- Wallet address used as sender of the announcement (hard-coded in the source). -/
def aliceAddrString : String := "t1d2xrzcslx7xlbbylc5c3d5lvandqw4iwl6epxba"

/-- Description of `keygen.TaprootConfig` by the fields the module reads and writes. -/
structure TaprootConfig where
  ID : String
  Threshold : Nat
  PrivateShare : Bytes
  PublicKey : Bytes
  VerificationShares : List (String × Bytes)
deriving DecidableEq, Repr

/-- Description of `config.Checkpoint` by the fields the module reads. -/
structure CheckpointConfig where
  Fee : Amount
  BitcoinHost : String
  MinioBucketName : String
  PublicKey : String
deriving DecidableEq

/-- A `[]string` slice header: nil, or the address of its backing array. -/
abbrev StrSlice := Option Nat

/-- The fields of `CheckpointingSub` that make up the module state. -/
structure CheckpointingSub where
  hostID : String
  pubkey : Bytes
  newKey : Bytes
  participants : StrSlice
  newParticipants : StrSlice
  newDKGComplete : Bool
  keysUpdated : Bool
  taprootConfig : Option TaprootConfig
  newTaprootConfig : Option TaprootConfig
  ptxid : String
  tweakedValue : Bytes
  cpconfig : CheckpointConfig
  latestConfigCheckpoint : Bytes
  synced : Bool
  height : Int
deriving DecidableEq

/-- The struct used to propagate detected changes (`diffInfo`). -/
structure diffInfo where
  newMiners : StrSlice
  newPublicKey : Option Bytes
  hash : Option Bytes
  cp : Option Bytes
deriving DecidableEq

/-- The zero value `&diffInfo{}`. -/
def diffInfo.empty : diffInfo := ⟨none, none, none, none⟩

/-- A tipset, as far as the module looks at it: its height and its key bytes. -/
structure TipSet where
  height : Int
  key : Bytes
deriving DecidableEq

/-- The stored content of the mocked power actor state, as far as it is read. -/
structure MpowerStateData where
  Miners : List String
  PublicKey : Bytes
deriving DecidableEq

/-- A decoded `mpower.State` in memory: `Miners` is a slice header. -/
structure MpowerState where
  Miners : StrSlice
  PublicKey : Bytes
deriving DecidableEq

/-- How a Go call ends: `nil`, a non-nil `error`, or a run-time panic. -/
inductive Outcome where
  | ok
  | error (msg : String)
  | panic (msg : String)
deriving DecidableEq, Repr

/-- A JSON value as far as the module inspects it: absent/null, a string, or
anything else. -/
inductive JsonVal where
  | null
  | str (s : String)
  | other
deriving DecidableEq, Repr

/-- The decoded reply map of a JSON-RPC call, by the two keys that are read. -/
structure RPCReply where
  result : JsonVal
  error : JsonVal
deriving DecidableEq, Repr

/-- How a FROST round driven by `LoopHandler` ends: the handler could not be
created, `handler.Result()` reported an error (no result), or a result. -/
inductive FrostOutcome (α : Type) where
  | handlerError (e : String)
  | aborted (e : String)
  | result (r : α)

/-- Dynamic type of a keygen result: a `*keygen.TaprootConfig` or something else. -/
inductive KeygenResult where
  | config (cfg : TaprootConfig)
  | otherType

/-- The message pushed to the message pool to announce a new key. -/
structure Message where
  To : String
  From : String
  Value : Nat
  Method : Nat
  Params : Bytes
deriving DecidableEq, Repr

/-- Calls recorded in the order they are issued: the outbound ones, and the two
long operations as started by `triggerChange` (with the content of the slice
argument at that moment). -/
inductive Call where
  | GenerateNewKeys (participants : List String)
  | CreateCheckpoint (cp : Bytes) (data : Bytes) (participants : List String)
  | CreateMinersConfig (blob : String)
  | StoreMinersConfig (bucket : String) (name : String)
  | addTaprootToWallet (host : String) (script : String)
  | walletGetTxidFromAddress (host : String) (addr : String)
  | getTxOut (host : String) (txid : String) (index : Nat)
  | jsonRPC (host : String) (payload : String)
  | sign (cfg : TaprootConfig) (ids : List String) (msg : Bytes) (tweak : Bytes)
  | keygen (id : String) (ids : List String) (threshold : Nat) (session : String)
  | MpoolPushMessage (msg : Message)
deriving DecidableEq, Repr

/-- Whether a recorded call is a JSON-RPC request to the Bitcoin node. -/
def Call.isJsonRPC : Call → Bool
  | .jsonRPC _ _ => true
  | _ => false

/-- Whether a recorded call is a signing round. -/
def Call.isSign : Call → Bool
  | .sign _ _ _ _ => true
  | _ => false

/-- Whether a recorded call is a wallet or UTXO query to the Bitcoin node made
through a helper of the Bitcoin client. -/
def Call.isQuery : Call → Bool
  | .addTaprootToWallet _ _ => true
  | .walletGetTxidFromAddress _ _ => true
  | .getTxOut _ _ _ => true
  | _ => false

/-- Whether a recorded call is the start of `CreateCheckpoint`. -/
def Call.isCheckpointStart : Call → Bool
  | .CreateCheckpoint _ _ _ => true
  | _ => false

/-- Whether a recorded call belongs to a key generation: the keygen round or the
announcement of the new key. -/
def Call.isDKG : Call → Bool
  | .keygen _ _ _ _ => true
  | .MpoolPushMessage _ => true
  | _ => false

/-- Everything the module calls that lies outside `sub.go`, and `uint64OfValue`, the
conversion `uint64(value*100000000)` of a `float64` amount (line 727), whose rounding
is not modelled. -/
structure Env where
  pubkeyToTapprootAddress : Bytes → Except String String
  genCheckpointPublicKeyTaproot : Bytes → Bytes → Bytes
  hashMerkleRoot : Bytes → Bytes → Bytes
  hashTweakedValue : Bytes → Bytes → Bytes
  getTaprootScript : Bytes → String
  TaprootSignatureHash : Bytes → Bytes → Nat → Except String Bytes
  prepareWitnessRawTransaction : String → Bytes → String
  sameStringSlice : List String → List String → Bool
  addTaprootToWallet : String → String → Bool
  walletGetTxidFromAddress : String → String → Except String String
  getTxOut : String → String → Nat → Amount × Bytes
  uint64OfValue : Amount → Nat
  jsonRPC : String → String → Option RPCReply
  CreateMinersConfig : String → Except String Bytes
  StoreMinersConfig : String → String → Except String Unit
  signTaprootWithTweak : TaprootConfig → List String → Bytes → Bytes → FrostOutcome Bytes
  keygenTaproot : String → List String → Nat → String → FrostOutcome KeygenResult
  SyncState : Except String (List Int)
  ChainGetTipSet : Bytes → Except String TipSet
  StateGetActor : Bytes → Except String String
  cstGet : String → Except String MpowerStateData
  SerializeParams : Bytes → Except String Bytes
  NewIDAddress : Nat → Except String String
  NewFromString : String → Except String String
  MpoolPushMessage : Message → Except String Unit

/-- The coordinator together with the string arrays its slices point into and the
record of the calls issued so far. -/
structure Machine where
  c : CheckpointingSub
  mem : List (List String)
  trace : List Call

/-! ## Library functions used by the module -/

/-- Bytewise lexicographic `≤` on strings (Go `a <= b`), on the character lists. -/
def lexLe : List Char → List Char → Bool
  | [], _ => true
  | _ :: _, [] => false
  | a :: as, b :: bs =>
    if a.toNat < b.toNat then true
    else if a.toNat = b.toNat then lexLe as bs
    else false

/-- Order used by `sort.Strings`. -/
def strLe (a b : String) : Prop := lexLe a.data b.data = true

instance : DecidableRel strLe := fun a b => inferInstanceAs (Decidable (lexLe a.data b.data = true))

/-- Result of `sort.Strings`: the increasing rearrangement. -/
def sortStrings (l : List String) : List String := l.insertionSort strLe

/-- The digit table of `encoding/hex` (`hextable`), indexed by a nibble. -/
def hexDigit (n : Nat) : Char :=
  ['0', '1', '2', '3', '4', '5', '6', '7', '8', '9', 'a', 'b', 'c', 'd', 'e', 'f'].getD n '0'

/-- The function `hex.EncodeToString`: two lowercase digits per byte. -/
def hexEncodeToString (src : Bytes) : String :=
  String.mk (src.flatMap fun b => [hexDigit (b / 16 % 16), hexDigit (b % 16)])

/-- Value of one hexadecimal digit, either case (`fromHexChar`). -/
def fromHexChar (ch : Char) : Option Nat :=
  let n := ch.toNat
  if 48 ≤ n ∧ n ≤ 57 then some (n - 48)
  else if 97 ≤ n ∧ n ≤ 102 then some (n - 97 + 10)
  else if 65 ≤ n ∧ n ≤ 70 then some (n - 65 + 10)
  else none

/-- Decoding of a list of hexadecimal digits, pairwise. -/
def hexDecodeChars : List Char → Option Bytes
  | [] => some []
  | [_] => none
  | a :: b :: rest =>
    match fromHexChar a, fromHexChar b, hexDecodeChars rest with
    | some x, some y, some bs => some ((x * 16 + y) :: bs)
    | _, _, _ => none

/-- The function `hex.DecodeString`. -/
def hexDecodeString (s : String) : Except String Bytes :=
  match hexDecodeChars s.data with
  | some bs => .ok bs
  | none => .error "encoding/hex: invalid input"

/-- Decimal digits of `n`, padded with zeros on the left to eight places. -/
def pad8 (n : Nat) : String :=
  String.mk (List.replicate (8 - (toString n).length) '0') ++ toString n

/-- The call `fmt.Sprintf("%.8f", x)` for an amount `x`. -/
def sprintf8f (x : Amount) : String :=
  (if x < 0 then "-" else "") ++ toString (x.natAbs / 100000000) ++ "."
    ++ pad8 (x.natAbs % 100000000)

/-- The function `binary.LittleEndian.PutUint64` into an 8-byte buffer. -/
def putUint64LE (n : Nat) : Bytes := (List.range 8).map fun i => n / 256 ^ i % 256

/-! ## Memory of string arrays -/

/-- Content seen through a slice header. -/
def readSlice (mem : List (List String)) (s : StrSlice) : List String :=
  match s with
  | none => []
  | some a => mem.getD a []

/-- Effect of `sort.Strings(s)` on the memory. -/
def sortSlice (mem : List (List String)) (s : StrSlice) : List (List String) :=
  match s with
  | none => mem
  | some a => mem.set a (sortStrings (mem.getD a []))

/-- Content of a slice field of the machine. -/
def Machine.read (m : Machine) (s : StrSlice) : List String := readSlice m.mem s

/-- Append a call to the record. -/
def Machine.log (m : Machine) (call : Call) : Machine := { m with trace := m.trace ++ [call] }

/-- The method `formIDSlice`: the identifiers as `party.ID`s, passed through
`party.NewIDSlice`, which returns them sorted. -/
def formIDSlice (ids : List String) : List String := sortStrings ids

/-! ## The operations of `sub.go` -/

/-- The read `result["error"]`; indexing a nil map gives the zero value. -/
def replyError (result : Option RPCReply) : JsonVal :=
  match result with
  | some rep => rep.error
  | none => .null

/-- The read `result["result"]`; indexing a nil map gives the zero value. -/
def replyResult (result : Option RPCReply) : JsonVal :=
  match result with
  | some rep => rep.result
  | none => .null

/-- The request body built for `createrawtransaction` (`payload1`). -/
def createRawTransactionPayload (ptxid : String) (index : Nat) (newTaprootAddress : String)
    (amount : String) (data : Bytes) : String :=
  "\x7b\"jsonrpc\": \"1.0\", \"id\":\"wow\", \"method\": \"createrawtransaction\", \"params\": [[\x7b\"txid\":\""
    ++ ptxid ++ "\",\"vout\": " ++ toString index
    ++ ", \"sequence\": 4294967295\x7d], [\x7b\"" ++ newTaprootAddress ++ "\": \""
    ++ amount ++ "\"\x7d, \x7b\"data\": \"" ++ hexEncodeToString data ++ "\"\x7d]]\x7d"

/-- The request body built for `sendrawtransaction` (`payload`). -/
def sendRawTransactionPayload (rawtx : String) : String :=
  "\x7b\"jsonrpc\": \"1.0\", \"id\":\"wow\", \"method\": \"sendrawtransaction\", \"params\": [\""
    ++ rawtx ++ "\"]\x7d"

/-- Result of a stretch of a method body: the method returns there (`exit`), or
control goes on with the values computed so far (`next`). -/
inductive Stage (α : Type) where
  | exit (m : Machine) (out : Outcome)
  | next (m : Machine) (a : α)

/-- The machine a stretch leaves behind. -/
def Stage.machine {α : Type} : Stage α → Machine
  | .exit m _ => m
  | .next m _ => m

/-- Values fixed by lines 636–658 of `CreateCheckpoint`. -/
structure CheckpointKeys where
  taprootAddress : String
  taprootConfig : TaprootConfig
  pubkey : Bytes
  pubkeyShort : Bytes
  newTaprootAddress : String

/-- Values fixed by lines 668–708 of `CreateCheckpoint`. -/
structure SpentOutput where
  ids : List String
  index : Nat
  value : Amount
  scriptPubkeyBytes : Bytes

/-- Values fixed by lines 709–734 of `CreateCheckpoint`. -/
structure RawTx where
  rawTransaction : String
  hashedTx : Bytes

/-- Lines 636–658 of `CreateCheckpoint`: current address, effective key, new
tweaked key and new address. -/
def CreateCheckpoint_keys (env : Env) (m : Machine) (cp : Bytes) : Stage CheckpointKeys :=
  match env.pubkeyToTapprootAddress m.c.pubkey with
  | .error e => .exit m (.error e)
  | .ok taprootAddress =>
  match m.c.taprootConfig with
  | none => .exit m (.panic "nil pointer dereference")
  | some taprootConfig =>
  -- the `Println` inside `if c.newDKGComplete` reads `c.newTaprootConfig.PublicKey`
  if m.c.newDKGComplete = true ∧ m.c.newTaprootConfig = none then
    .exit m (.panic "nil pointer dereference")
  else
  let pubkey := if m.c.newDKGComplete = true then m.c.newKey else taprootConfig.PublicKey
  let pubkeyShort := env.genCheckpointPublicKeyTaproot pubkey cp
  match env.pubkeyToTapprootAddress pubkeyShort with
  | .error e => .exit m (.error e)
  | .ok newTaprootAddress =>
    .next m ⟨taprootAddress, taprootConfig, pubkey, pubkeyShort, newTaprootAddress⟩

/-- Lines 680–695 of `CreateCheckpoint`: resolve the previous txid when missing. -/
def CreateCheckpoint_ptxid (env : Env) (m : Machine) (taprootAddress : String) : Stage Unit :=
  if m.c.ptxid = "" then
    let m1 := m.log (.walletGetTxidFromAddress m.c.cpconfig.BitcoinHost taprootAddress)
    match env.walletGetTxidFromAddress m.c.cpconfig.BitcoinHost taprootAddress with
    | .error e => .exit m1 (.error e)
    | .ok ptxid => .next { m1 with c := { m1.c with ptxid := ptxid } } ()
  else .next m ()

/-- Lines 697–708 of `CreateCheckpoint`: output 0 of the previous transaction, or
output 1 when the script of output 0 does not start with `0x51`. -/
def CreateCheckpoint_txout (env : Env) (m : Machine) (ids : List String) : Stage SpentOutput :=
  let host := m.c.cpconfig.BitcoinHost
  let m1 := m.log (.getTxOut host m.c.ptxid 0)
  match env.getTxOut host m.c.ptxid 0 with
  | (_, []) => .exit m1 (.panic "index out of range")
  | (value, b0 :: rest) =>
    if b0 ≠ 0x51 then
      let m2 := m1.log (.getTxOut host m.c.ptxid 1)
      let out := env.getTxOut host m.c.ptxid 1
      .next m2 ⟨ids, 1, out.1, out.2⟩
    else .next m1 ⟨ids, 0, value, b0 :: rest⟩

/-- Lines 668–708 of `CreateCheckpoint`: sort the participants in place, add the
current script to the wallet, resolve the previous txid, fetch the output to spend. -/
def CreateCheckpoint_spend (env : Env) (m : Machine) (k : CheckpointKeys)
    (participants : StrSlice) : Stage SpentOutput :=
  let m1 : Machine := { m with mem := sortSlice m.mem participants }
  let idsStrings := m1.read participants
  let ids := formIDSlice idsStrings
  let taprootScript := env.getTaprootScript m1.c.pubkey
  let m2 := m1.log (.addTaprootToWallet m1.c.cpconfig.BitcoinHost taprootScript)
  if env.addTaprootToWallet m1.c.cpconfig.BitcoinHost taprootScript = false then
    .exit m2 (.error "failed to add taproot address to wallet")
  else
  match CreateCheckpoint_ptxid env m2 k.taprootAddress with
  | .exit m3 out => .exit m3 out
  | .next m3 _ => CreateCheckpoint_txout env m3 ids

/-- Lines 709–734 of `CreateCheckpoint`: the `createrawtransaction` request, the
decoding of its reply and the signature hash. -/
def CreateCheckpoint_build (env : Env) (m : Machine) (k : CheckpointKeys) (u : SpentOutput)
    (data : Bytes) : Stage RawTx :=
  let newValue := u.value - m.c.cpconfig.Fee
  let payload1 := createRawTransactionPayload m.c.ptxid u.index k.newTaprootAddress
    (sprintf8f newValue) data
  let m1 := m.log (.jsonRPC m.c.cpconfig.BitcoinHost payload1)
  match env.jsonRPC m.c.cpconfig.BitcoinHost payload1 with
  | none => .exit m1 (.error "can not create new transaction")
  | some result =>
  match result.result with
  | .null => .exit m1 (.panic "interface conversion")
  | .other => .exit m1 (.panic "interface conversion")
  | .str rawTransaction =>
  match hexDecodeString rawTransaction with
  | .error e => .exit m1 (.error e)
  | .ok tx =>
  let utxo := putUint64LE (env.uint64OfValue u.value) ++ [34] ++ u.scriptPubkeyBytes
  match env.TaprootSignatureHash tx utxo 0x00 with
  | .error e => .exit m1 (.error e)
  | .ok hashedTx => .next m1 ⟨rawTransaction, hashedTx⟩

/-- Lines 743–755 of `CreateCheckpoint`: the signing round. -/
def CreateCheckpoint_sign (env : Env) (m : Machine) (k : CheckpointKeys) (u : SpentOutput)
    (t : RawTx) : Stage Bytes :=
  let m1 := m.log (.sign k.taprootConfig u.ids t.hashedTx m.c.tweakedValue)
  match env.signTaprootWithTweak k.taprootConfig u.ids t.hashedTx m.c.tweakedValue with
  | .handlerError e => .exit m (.error e)
  | .aborted e => .exit m1 (.error e)
  | .result r => .next m1 r

/-- Lines 786–802 of `CreateCheckpoint`: replace the share by the new one and
commit the new list of participants. -/
def CreateCheckpoint_rotate (m : Machine) : Machine :=
  let m1 : Machine :=
    match m.c.newTaprootConfig with
    | some cfg => { m with c := { m.c with taprootConfig := some cfg, newTaprootConfig := none } }
    | none => m
  if m1.c.newDKGComplete = true then
    { m1 with
      c := { m1.c with
        keysUpdated := true
        participants := m1.c.newParticipants
        newParticipants := some m1.mem.length
        newDKGComplete := false }
      mem := m1.mem ++ [[]] }
  else m1

/-- Lines 758–804 of `CreateCheckpoint`: register the new key and tweak, broadcast,
record the new txid and rotate. -/
def CreateCheckpoint_commit (env : Env) (m : Machine) (cp : Bytes) (k : CheckpointKeys)
    (t : RawTx) (r : Bytes) : Machine × Outcome :=
  -- if signing is a success we register the new value
  let merkleRoot := env.hashMerkleRoot k.pubkey cp
  let m1 : Machine := { m with c := { m.c with
    tweakedValue := env.hashTweakedValue k.pubkey merkleRoot
    pubkey := k.pubkeyShort
    ptxid := "" } }
  let rawtx := env.prepareWitnessRawTransaction t.rawTransaction r
  let payload := sendRawTransactionPayload rawtx
  let m2 := m1.log (.jsonRPC m1.c.cpconfig.BitcoinHost payload)
  let result := env.jsonRPC m1.c.cpconfig.BitcoinHost payload
  if replyError result ≠ .null then
    (m2, .error "failed to broadcast transaction")
  else
  match replyResult result with
  | .null => (m2, .panic "interface conversion")
  | .other => (m2, .panic "interface conversion")
  | .str newtxid =>
    (CreateCheckpoint_rotate { m2 with c := { m2.c with ptxid := newtxid } }, .ok)

/-- Values fixed by lines 636–755 of `CreateCheckpoint`. -/
structure Prepared where
  k : CheckpointKeys
  u : SpentOutput
  t : RawTx
  r : Bytes

/-- Lines 636–755 of `CreateCheckpoint`: everything up to the result of the
signing round. -/
def CreateCheckpoint_prepare (env : Env) (m : Machine) (cp data : Bytes)
    (participants : StrSlice) : Stage Prepared :=
  match CreateCheckpoint_keys env m cp with
  | .exit m1 out => .exit m1 out
  | .next m1 k =>
  match CreateCheckpoint_spend env m1 k participants with
  | .exit m2 out => .exit m2 out
  | .next m2 u =>
  match CreateCheckpoint_build env m2 k u data with
  | .exit m3 out => .exit m3 out
  | .next m3 t =>
  match CreateCheckpoint_sign env m3 k u t with
  | .exit m4 out => .exit m4 out
  | .next m4 r => .next m4 ⟨k, u, t, r⟩

/-- The method `CreateCheckpoint(ctx, cp, data, participants)`. -/
def CreateCheckpoint (env : Env) (m : Machine) (cp data : Bytes) (participants : StrSlice) :
    Machine × Outcome :=
  match CreateCheckpoint_prepare env m cp data participants with
  | .exit m1 out => (m1, out)
  | .next m1 s => CreateCheckpoint_commit env m1 cp s.k s.t s.r

/-- The method `GenerateNewKeys(ctx, participants)`. -/
def GenerateNewKeys (env : Env) (m : Machine) (participants : StrSlice) : Machine × Outcome :=
  -- `idsStrings := participants; sort.Strings(idsStrings)` sorts the argument in place
  let m1 : Machine := { m with mem := sortSlice m.mem participants }
  let idsStrings := m1.read participants
  let ids := formIDSlice idsStrings
  let id := m1.c.hostID
  let threshold := idsStrings.length / 2 + 1
  let sessionID := String.join idsStrings
  let m2 := m1.log (.keygen id ids threshold sessionID)
  match env.keygenTaproot id ids threshold sessionID with
  | .handlerError e => (m1, .error e)
  | .aborted e => (m2, .error e)
  | .result .otherType =>
    ({ m2 with c := { m2.c with newTaprootConfig := none } },
      .error "state change propagated is the wrong type")
  | .result (.config cfg) =>
  let m3 : Machine := { m2 with c := { m2.c with
    newTaprootConfig := some cfg
    newDKGComplete := true
    newKey := cfg.PublicKey } }
  if m3.c.hostID = aliceID then
    match env.SerializeParams cfg.PublicKey with
    | .error e => (m3, .error e)
    | .ok seraddp =>
    match env.NewIDAddress 65 with
    | .error _ => (m3, .error "mocked actor address not working")
    | .ok a =>
    match env.NewFromString aliceAddrString with
    | .error _ => (m3, .error "alice address not working")
    | .ok aliceaddr =>
    let msg : Message := { To := a, From := aliceaddr, Value := 0, Method := 4, Params := seraddp }
    let m4 := m3.log (.MpoolPushMessage msg)
    match env.MpoolPushMessage msg with
    | .error e => (m4, .error e)
    | .ok _ => (m4, .ok)
  else (m3, .ok)

/-- The method `matchNewConfig(ctx, oldTs, newTs, oldSt, newSt, diff)`. -/
def matchNewConfig (env : Env) (m : Machine) (_oldTs _newTs : TipSet) (oldSt newSt : MpowerState)
    (diff : diffInfo) : Machine × diffInfo × Bool × Outcome :=
  if env.sameStringSlice (m.read oldSt.Miners) (m.read newSt.Miners) = true then
    (m, diff, false, .ok)
  else if m.c.hostID ∈ m.read newSt.Miners then
    ({ m with c := { m.c with newParticipants := newSt.Miners } },
      { diff with newMiners := newSt.Miners }, true, .ok)
  else (m, diff, false, .ok)

/-- The roster text assembled by `matchCheckpoint` (`minersConfig`): it starts as
`hex.EncodeToString(cp) + "\n"` and the loop over `newSt.Miners` appends
`partyId + "\n"` for each element. -/
def minersConfig (cp : Bytes) (miners : List String) : String :=
  miners.foldl (fun acc partyId => acc ++ (partyId ++ "\n")) (hexEncodeToString cp ++ "\n")

/-- The method `matchCheckpoint(ctx, oldTs, newTs, oldSt, newSt, diff)`. -/
def matchCheckpoint (env : Env) (m : Machine) (oldTs newTs : TipSet) (oldSt newSt : MpowerState)
    (diff : diffInfo) : Machine × diffInfo × Bool × Outcome :=
  if newTs.height.tmod checkpointFrequency = 0 ∧ 0 < (m.read oldSt.Miners).length
      ∧ (m.c.taprootConfig ≠ none ∨ m.c.newTaprootConfig ≠ none) then
    let cp := oldTs.key
    let diff1 : diffInfo := { diff with cp := some cp }
    match m.c.taprootConfig with
    | none =>
      match m.c.newTaprootConfig with
      | none => (m, diff1, false, .panic "nil pointer dereference")
      | some newCfg =>
        let pubkey := newCfg.PublicKey
        let pubkeyShort := env.genCheckpointPublicKeyTaproot pubkey cp
        let merkleRoot := env.hashMerkleRoot pubkey cp
        ({ m with c := { m.c with
            taprootConfig := some newCfg
            tweakedValue := env.hashTweakedValue pubkey merkleRoot
            pubkey := pubkeyShort
            newTaprootConfig := none
            participants := newSt.Miners
            newDKGComplete := false } },
          diff1, true, .ok)
    | some _ =>
      let blob := minersConfig cp (m.read newSt.Miners)
      let m1 := m.log (.CreateMinersConfig blob)
      match env.CreateMinersConfig blob with
      | .error e => (m1, diff1, false, .error e)
      | .ok hash =>
      let diff2 : diffInfo := { diff1 with hash := some hash }
      let m2 := m1.log (.StoreMinersConfig m1.c.cpconfig.MinioBucketName (hexEncodeToString hash))
      match env.StoreMinersConfig m1.c.cpconfig.MinioBucketName (hexEncodeToString hash) with
      | .error e => (m2, diff2, false, .error e)
      | .ok _ => (m2, diff2, true, .ok)
  else (m, diff, true, .ok)

/-- Lines 466–477 of `triggerChange`: the key generation for a new configuration. -/
def triggerChange_keys (env : Env) (m : Machine) (diff : diffInfo) : Machine × Outcome :=
  if 0 < (m.read diff.newMiners).length then
    GenerateNewKeys env (m.log (.GenerateNewKeys (m.read diff.newMiners))) diff.newMiners
  else (m, .ok)

/-- The method `triggerChange(ctx, diff)`; the Boolean is `more`. -/
def triggerChange (env : Env) (m : Machine) (diff : diffInfo) : Machine × Bool × Outcome :=
  let afterKeys := triggerChange_keys env m diff
  if afterKeys.2 ≠ .ok then (afterKeys.1, true, afterKeys.2)
  else
    match diff.cp, diff.hash with
    | some cp, some hash =>
      let r := CreateCheckpoint env
        (afterKeys.1.log (.CreateCheckpoint cp hash (afterKeys.1.read afterKeys.1.c.participants)))
        cp hash afterKeys.1.c.participants
      (r.1, true, r.2)
    | _, _ => (afterKeys.1, true, .ok)

/-- What the closure `match` of `listenCheckpointEvents` returns, with the machine
it leaves behind: `(bool, events.StateChange, error)`. -/
structure MatchResult where
  m : Machine
  changed : Bool
  states : Option diffInfo
  out : Outcome

/-- Lines 300–329 of `match`: the synced gate.  `exit` with outcome `ok` is the
plain `return false, nil, nil`. -/
def listenCheckpointEvents_synced (env : Env) (m : Machine) (newTs : TipSet) : Stage Unit :=
  match env.SyncState with
  | .error e => .exit m (.error e)
  | .ok activeSyncs =>
    if m.c.synced = false then
      if 0 < activeSyncs.length ∧ activeSyncs.getLast? = some newTs.height then
        match env.ChainGetTipSet m.c.latestConfigCheckpoint with
        | .error e => .exit m (.error e)
        | .ok ts => .next { m with c := { m.c with synced := true, height := ts.height } } ()
      else .exit m .ok
    else .next m ()

/-- Lines 330–350 of `match`: the two power actor states, decoded into memory. -/
def listenCheckpointEvents_states (env : Env) (m : Machine) (oldTs newTs : TipSet) :
    Stage (MpowerState × MpowerState) :=
  match env.StateGetActor newTs.key with
  | .error e => .exit m (.error e)
  | .ok newAct =>
  match env.StateGetActor oldTs.key with
  | .error e => .exit m (.error e)
  | .ok oldAct =>
  match env.cstGet oldAct with
  | .error e => .exit m (.error e)
  | .ok oldData =>
  let m1 : Machine := { m with mem := m.mem ++ [oldData.Miners] }
  match env.cstGet newAct with
  | .error e => .exit m1 (.error e)
  | .ok newData =>
    .next { m1 with mem := m1.mem ++ [newData.Miners] }
      (⟨some m.mem.length, oldData.PublicKey⟩, ⟨some m1.mem.length, newData.PublicKey⟩)

/-- The closure `match` of `listenCheckpointEvents`. -/
def listenCheckpointEvents_match (env : Env) (m : Machine) (oldTs newTs : TipSet) : MatchResult :=
  let diff := diffInfo.empty
  match listenCheckpointEvents_synced env m newTs with
  | .exit m1 out => ⟨m1, false, none, out⟩
  | .next m1 _ =>
  match listenCheckpointEvents_states env m1 oldTs newTs with
  | .exit m2 out => ⟨m2, false, none, out⟩
  | .next m2 (oldSt, newSt) =>
  let r1 := matchNewConfig env m2 oldTs newTs oldSt newSt diff
  if r1.2.2.2 ≠ .ok then ⟨r1.1, false, none, r1.2.2.2⟩
  else
  -- `change2, err := c.matchCheckpoint(…)`, then `return change || change2, diff, nil`
  let r2 := matchCheckpoint env r1.1 oldTs newTs oldSt newSt r1.2.1
  match r2.2.2.2 with
  | .panic e => ⟨r2.1, false, some r2.2.1, .panic e⟩
  | _ => ⟨r2.1, r1.2.2.1 || r2.2.2.1, some r2.2.1, .ok⟩

/-- The closure `changeHandler` of `listenCheckpointEvents`, for a `states` value
of type `*diffInfo`. -/
def listenCheckpointEvents_changeHandler (env : Env) (m : Machine) (states : diffInfo) :
    Machine × Bool × Outcome :=
  triggerChange env m states

/-- The calls recorded between machine `m0` and its later stage `m`. -/
def callsSince (m0 m : Machine) : List Call := m.trace.drop m0.trace.length

/-- The record of `m1` is the record of `m` followed by calls that all satisfy `P`. -/
def Extends (P : Call → Prop) (m m1 : Machine) : Prop :=
  m1.trace = m.trace ++ callsSince m m1 ∧ ∀ c ∈ callsSince m m1, P c

/-! ## Concrete environments and states used to run the operations -/

/-- A share whose public key is `[2, 3]`. -/
def demoConfig : TaprootConfig := ⟨"A", 2, [1], [2, 3], []⟩

/-- An environment in which every helper and every collaborator answers: the
previous output is worth 1000 units and is a taproot output, every JSON-RPC request
is answered with the string `"0200"` and no error, an amount converts to its
number of units, the stored old roster is `C, A, B` and the new one `A, B, D`. -/
def demoEnv : Env where
  pubkeyToTapprootAddress := fun k => .ok ("bcrt1p" ++ hexEncodeToString k)
  genCheckpointPublicKeyTaproot := fun k cp => k ++ cp
  hashMerkleRoot := fun k cp => 1 :: (k ++ cp)
  hashTweakedValue := fun k r => 2 :: (k ++ r)
  getTaprootScript := fun k => "5120" ++ hexEncodeToString k
  TaprootSignatureHash := fun tx utxo _ => .ok (tx ++ utxo)
  prepareWitnessRawTransaction := fun raw sig => raw ++ hexEncodeToString sig
  sameStringSlice := fun a b => decide (sortStrings a = sortStrings b)
  addTaprootToWallet := fun _ _ => true
  walletGetTxidFromAddress := fun _ _ => .ok "f00d"
  getTxOut := fun _ _ i => if i = 0 then (1000, [0x51, 0x20]) else (0, [0x6a])
  uint64OfValue := fun v => v.toNat % 2 ^ 64
  jsonRPC := fun _ _ => some ⟨.str "0200", .null⟩
  CreateMinersConfig := fun blob => .ok [blob.length % 256]
  StoreMinersConfig := fun _ _ => .ok ()
  signTaprootWithTweak := fun _ _ msg _ => .result msg
  keygenTaproot := fun id ids t _ =>
    .result (.config ⟨id, t, [7], [8, 9], ids.map fun i => (i, [])⟩)
  SyncState := .ok [30]
  ChainGetTipSet := fun k => .ok ⟨0, k⟩
  StateGetActor := fun k => .ok (hexEncodeToString k)
  cstGet := fun h => .ok ⟨if h = "01" then ["C", "A", "B"] else ["A", "B", "D"], []⟩
  SerializeParams := fun b => .ok b
  NewIDAddress := fun n => .ok ("t0" ++ toString n)
  NewFromString := fun s => .ok s
  MpoolPushMessage := fun _ => .ok ()

/-- The state of an active signer `A` with roster `C, A, B`, previous txid `aa`
and a fee of 1000 units. -/
def demoSub : CheckpointingSub where
  hostID := "A"
  pubkey := [4]
  newKey := []
  participants := some 0
  newParticipants := none
  newDKGComplete := false
  keysUpdated := true
  taprootConfig := some demoConfig
  newTaprootConfig := none
  ptxid := "aa"
  tweakedValue := [5]
  cpconfig := ⟨1000, "btc", "bucket", ""⟩
  latestConfigCheckpoint := []
  synced := true
  height := 0

/-- The signer `demoSub` with its roster in memory and nothing recorded yet. -/
def demo : Machine := ⟨demoSub, [["C", "A", "B"]], []⟩

/-- The same environment with a Bitcoin node that gives no reply. -/
def noReplyEnv : Env := { demoEnv with jsonRPC := fun _ _ => none }

/-- The same environment with a Bitcoin node that rejects the broadcast: a
`sendrawtransaction` request is answered with an error object. -/
def rejectEnv : Env := { demoEnv with
  jsonRPC := fun _ payload =>
    if payload.data.take 45 = (sendRawTransactionPayload "").data.take 45 then
      some ⟨.null, .other⟩
    else some ⟨.str "0200", .null⟩ }

/-- The same environment with a signing round that aborts. -/
def abortEnv : Env := { demoEnv with signTaprootWithTweak := fun _ _ _ _ => .aborted "abort" }

/-- The same environment with a roster store that refuses the upload. -/
def storeFailEnv : Env := { demoEnv with StoreMinersConfig := fun _ _ => .error "store down" }

/-- The signer `demo` before it knows the previous txid. -/
def demoNoTxid : Machine := { demo with c := { demo.c with ptxid := "" } }

/-- The values `CreateCheckpoint` fixes for `demo` and payload `[1]`. -/
def demoKeys : CheckpointKeys := ⟨"bcrt1p04", demoConfig, [2, 3], [2, 3, 1], "bcrt1p020301"⟩

/-- The output `CreateCheckpoint` spends for `demo`. -/
def demoSpent : SpentOutput := ⟨["A", "B", "C"], 0, 1000, [0x51, 0x20]⟩

/-- The machine `demo` once the output to spend has been fetched. -/
def demoAfterSpend : Machine :=
  ⟨demoSub, [["A", "B", "C"]], [.addTaprootToWallet "btc" "512004", .getTxOut "btc" "aa" 0]⟩

/-- The machine `demo` with the two actor states of the transition decoded into
memory: the old roster at address 1, the new one at address 2. -/
def demoStates : Machine := ⟨demoSub, [["C", "A", "B"], ["C", "A", "B"], ["A", "B", "D"]], []⟩

/-- The diff that `match` hands over for `demo` at the transition from height 29 to
height 30: new roster, payload `[1]` and roster hash `[9]`. -/
def demoDiff : diffInfo := ⟨some 2, none, some [9], some [1]⟩

/-- A diff that carries only a payload and a roster hash. -/
def checkpointDiff : diffInfo := ⟨none, none, some [9], some [1]⟩

/-- The tipset at height 29 with key `[1]`. -/
def ts29 : TipSet := ⟨29, [1]⟩

/-- The tipset at height 30 with key `[2]`. -/
def ts30 : TipSet := ⟨30, [2]⟩

/-- The machine `demo` after `match` has run on the transition from 29 to 30. -/
def demoAfterMatch : Machine := (listenCheckpointEvents_match demoEnv demo ts29 ts30).m

/-- The machine `demo` after `match` has run while the roster store is down. -/
def demoAfterFailedStore : Machine :=
  (listenCheckpointEvents_match storeFailEnv demo ts29 ts30).m

/-! ## Reading a roster blob back -/

/-- The lines of a text, each one terminated by a newline; `cur` holds the
characters of the line being read, last one first.  What follows the last newline
is not a line. -/
def linesOf : List Char → List Char → List String
  | _, [] => []
  | cur, ch :: rest =>
    if ch = '\n' then String.mk cur.reverse :: linesOf [] rest
    else linesOf (ch :: cur) rest

/-- Modelled from the spec: the parser of a roster blob is not part of the sources
at hand (`BuildCheckpointingSub` only calls `GetMinersConfig` and hex-decodes what it
returns).  The blob is split at newlines, the first line is hex-decoded to the
payload and the remaining lines are the participant identifiers. -/
def parseRoster (blob : String) : Option (Bytes × List String) :=
  match linesOf [] blob.data with
  | [] => none
  | first :: ids =>
    match hexDecodeChars first.data with
    | some cp => some (cp, ids)
    | none => none

/-! ## The `createrawtransaction` request as a list of inputs and a list of outputs -/

/-- One output of a `createrawtransaction` request: an amount paid to an address, or
a data output given by its hexadecimal text. -/
inductive TxOutput where
  | pay (address : String) (amount : String)
  | data (hex : String)
deriving DecidableEq, Repr

/-- JSON text of one input: the txid, the output index and the final sequence. -/
def renderInput (i : String × Nat) : String :=
  "\x7b\"txid\":\"" ++ i.1 ++ "\",\"vout\": " ++ toString i.2 ++ ", \"sequence\": 4294967295\x7d"

/-- JSON text of one output. -/
def renderOutput : TxOutput → String
  | .pay address amount => "\x7b\"" ++ address ++ "\": \"" ++ amount ++ "\"\x7d"
  | .data hex => "\x7b\"data\": \"" ++ hex ++ "\"\x7d"

/-- JSON-RPC text of a `createrawtransaction` call with the given inputs and
outputs, the items of each list separated by a comma and a blank. -/
def renderCreateRawTransaction (ins : List (String × Nat)) (outs : List TxOutput) : String :=
  "\x7b\"jsonrpc\": \"1.0\", \"id\":\"wow\", \"method\": \"createrawtransaction\", \"params\": [["
    ++ ", ".intercalate (ins.map renderInput) ++ "], ["
    ++ ", ".intercalate (outs.map renderOutput) ++ "]]\x7d"

/-! ## Further states used to run the operations -/

/-- The machine `demoStates` with the miners `A, B, C` stored in sorted order at
address 1. -/
def demoStatesSorted : Machine :=
  ⟨demoSub, [["C", "A", "B"], ["A", "B", "C"], ["A", "B", "D"]], []⟩

/-- The environment `demoEnv` with a previous transaction whose output 0 is not a
taproot output (script starting with `0x6a`) and whose output 1 is one, worth 1000
units. -/
def fallbackEnv : Env := { demoEnv with
  getTxOut := fun _ _ i => if i = 0 then (0, [0x6a, 0x20]) else (1000, [0x51, 0x20]) }

/-- The output `CreateCheckpoint` spends for `demo` in `fallbackEnv`. -/
def fallbackSpent : SpentOutput := ⟨["A", "B", "C"], 1, 1000, [0x51, 0x20]⟩

/-- The machine `demo` once both outputs have been fetched. -/
def demoAfterFallback : Machine :=
  ⟨demoSub, [["A", "B", "C"]],
    [.addTaprootToWallet "btc" "512004", .getTxOut "btc" "aa" 0, .getTxOut "btc" "aa" 1]⟩

/-- A node whose new roster, stored at address 0, is `ab, c`. -/
def splitA : Machine := ⟨demoSub, [["ab", "c"]], []⟩

/-- A node whose new roster, stored at address 0, is `a, bc`. -/
def splitB : Machine := ⟨demoSub, [["a", "bc"]], []⟩

/-- The environment `demoEnv` with a keygen round that aborts. -/
def dkgAbortEnv : Env := { demoEnv with keygenTaproot := fun _ _ _ _ => .aborted "dkg abort" }

/-- The signer `demo` while a new share from an earlier key generation is still
pending. -/
def demoPending : Machine := { demo with c := { demo.c with newTaprootConfig := some demoConfig } }

/-- A diff that carries the roster at address 0 as new roster, and nothing else. -/
def rosterDiff : diffInfo := ⟨some 0, none, none, none⟩

/-- A node `D` that took part in the last key generation but holds no current share:
its new share is pending and it has no roster yet.  The two actor states of the
transition are decoded into memory as in `demoStates`. -/
def demoObserver : Machine :=
  ⟨{ demoSub with
      hostID := "D"
      taprootConfig := none
      newTaprootConfig := some demoConfig
      participants := none
      newDKGComplete := true },
    [["C", "A", "B"], ["C", "A", "B"], ["A", "B", "D"]], []⟩

/-- The environment `demoEnv` with a Bitcoin node that reports an empty script for
every output of the previous transaction. -/
def emptyScriptEnv : Env := { demoEnv with getTxOut := fun _ _ _ => (0, []) }

/-- The environment `demoEnv` with a previous transaction that has no taproot output:
output 0 and output 1 (worth 2000 units) both carry a script starting with `0x6a`. -/
def noTaprootEnv : Env := { demoEnv with
  getTxOut := fun _ _ i => if i = 0 then (0, [0x6a, 0x20]) else (2000, [0x6a, 0x20]) }

/-- The signer `C` of the roster `C, A, B`; the new roster `A, B, D` of `demoEnv` does
not contain it. -/
def leaving : Machine := { demo with c := { demo.c with hostID := "C" } }

/-- The signer `leaving` with the two actor states of the transition decoded into
memory: the old roster `C, A, B` at address 1, the new one `A, B, D` at address 2. -/
def leavingStates : Machine := ⟨leaving.c, demoStates.mem, []⟩

/-! ## Construction of the module (`NewCheckpointSub`) -/

/-- The decoded `share.toml` (`TaprootConfigTOML`).  A Go map is given by the list of
its entries, in the order in which `range` visits them. -/
structure TaprootConfigTOML where
  Threshold : Nat
  PrivateShare : String
  PublicKey : String
  VerificationShares : List (String × String)

/-- What `NewCheckpointSub` finds around it: the identifier of the host, the events
API, the configuration file, the file `share.toml` (whether `os.Stat` finds it, its
content, its decoding), the decoders of the curve library and the Minio client. -/
structure Boot where
  hostID : String
  NewEvents : Except String Unit
  FromFile : Except String CheckpointConfig
  shareFile : Bool
  ReadFile : Except String String
  tomlDecode : String → Except String TaprootConfigTOML
  scalarUnmarshalBinary : Bytes → Except String Bytes
  pointUnmarshalBinary : Bytes → Except String Bytes
  minioNew : Except String Unit

/-- The loop of `NewCheckpointSub` over `configTOML.VerificationShares`: each share is
hex-decoded and unmarshalled; the first error ends the construction. -/
def NewCheckpointSub_shares (boot : Boot) :
    List (String × String) → Except String (List (String × Bytes))
  | [] => .ok []
  | (key, vshare) :: rest =>
    match hexDecodeString vshare with
    | .error e => .error e
    | .ok pByte =>
    match boot.pointUnmarshalBinary pByte with
    | .error e => .error e
    | .ok p =>
    match NewCheckpointSub_shares boot rest with
    | .error e => .error e
    | .ok shares => .ok ((key, p) :: shares)

/-- Lines 164–230 of `NewCheckpointSub`: the flag `synced`, the share and the initial
list of signers.  Without `share.toml` the node starts unsynced, without share and
with a nil list; with it the node starts synced. -/
def NewCheckpointSub_share (boot : Boot) :
    Except String (Bool × Option TaprootConfig × List String) :=
  if boot.shareFile = true then
    match boot.ReadFile with
    | .error e => .error e
    | .ok content =>
    match boot.tomlDecode content with
    | .error e => .error e
    | .ok configTOML =>
    match hexDecodeString configTOML.PrivateShare with
    | .error e => .error e
    | .ok privateSharePath =>
    match hexDecodeString configTOML.PublicKey with
    | .error e => .error e
    | .ok publickey =>
    match boot.scalarUnmarshalBinary privateSharePath with
    | .error e => .error e
    | .ok privateShare =>
    match NewCheckpointSub_shares boot configTOML.VerificationShares with
    | .error e => .error e
    | .ok verificationShares =>
      let taprootConfig : TaprootConfig :=
        ⟨boot.hostID, configTOML.Threshold, privateShare, publickey, verificationShares⟩
      .ok (true, some taprootConfig, taprootConfig.VerificationShares.map fun s => s.1)
  else .ok (false, none, [])

/-- The function `NewCheckpointSub`: the coordinator it returns, with the list of
signers as the only array in memory (no array for a nil list) and nothing recorded. -/
def NewCheckpointSub (boot : Boot) : Except String Machine :=
  match boot.NewEvents with
  | .error e => .error e
  | .ok _ =>
  match boot.FromFile with
  | .error e => .error e
  | .ok cpconfig =>
  match NewCheckpointSub_share boot with
  | .error e => .error e
  | .ok (synced, taprootConfig, minerSigners) =>
  match boot.minioNew with
  | .error e => .error e
  | .ok _ =>
    .ok
      { c :=
          { hostID := boot.hostID
            pubkey := []
            newKey := []
            participants := if minerSigners = [] then none else some 0
            newParticipants := none
            newDKGComplete := false
            keysUpdated := true
            taprootConfig := taprootConfig
            newTaprootConfig := none
            ptxid := ""
            tweakedValue := []
            cpconfig := cpconfig
            latestConfigCheckpoint := []
            synced := synced
            height := 0 }
        mem := if minerSigners = [] then [] else [minerSigners]
        trace := [] }

/-! ## The running module -/

/-- The module while it runs: the coordinator, and the diffs that `match` has handed
to the events API so far. -/
structure Sys where
  m : Machine
  emitted : List diffInfo

/-- The events API runs `match` on a transition; a diff returned with `true` and
without error is kept for the handler. -/
def Sys.watch (env : Env) (s : Sys) (oldTs newTs : TipSet) : Sys :=
  let r := listenCheckpointEvents_match env s.m oldTs newTs
  match r.states with
  | some d => if r.changed = true ∧ r.out = .ok then ⟨r.m, s.emitted ++ [d]⟩ else ⟨r.m, s.emitted⟩
  | none => ⟨r.m, s.emitted⟩

/-- The events API runs the handler on a diff. -/
def Sys.handle (env : Env) (s : Sys) (d : diffInfo) : Sys :=
  ⟨(listenCheckpointEvents_changeHandler env s.m d).1, s.emitted⟩

/-- The states of the module that can be reached from `NewCheckpointSub` by runs of
`match` and runs of the handler on diffs that `match` returned earlier; the
environment may answer differently at each step. -/
inductive Reachable : Sys → Prop where
  | start (boot : Boot) (m : Machine) (h : NewCheckpointSub boot = .ok m) : Reachable ⟨m, []⟩
  | watch (env : Env) (s : Sys) (oldTs newTs : TipSet) (h : Reachable s) :
      Reachable (s.watch env oldTs newTs)
  | handle (env : Env) (s : Sys) (d : diffInfo) (h : Reachable s) (hd : d ∈ s.emitted) :
      Reachable (s.handle env d)

/-! ## Start-up (`BuildCheckpointingSub`) -/

/-- The package variable `sendall`. -/
def sendall : Bool := false

/-- The constant `initialValueInWallet = 50` (BTC). -/
def initialValueInWallet : Amount := 5000000000

/-- What `BuildCheckpointingSub` finds around it besides `Env`.  The answer of
`CheckIfFirstTxHasBeenSent` depends on what the Bitcoin node has seen when it is
asked, so it is indexed by the number of calls made before. -/
structure BuildEnv where
  bitcoindPing : String → Bool
  ChainGetGenesis : Except String TipSet
  getbalances : String → Option Amount
  CheckIfFirstTxHasBeenSent : Nat → String → Bytes → Bytes → Bool × String × Option String
  GetLatestCheckpoint : String → Bytes → Bytes → Except String String
  GetMinersConfig : String → String → String
  TipSetKeyFromBytes : Bytes → Bytes × Option String

/-- The request body built for `sendtoaddress`. -/
def sendToAddressPayload (address amount : String) : String :=
  "\x7b\"jsonrpc\": \"1.0\", \"id\":\"wow\", \"method\": \"sendtoaddress\", \"params\": [\""
    ++ address ++ "\", \"" ++ amount ++ "\" ]\x7d"

/-- Lines 881–908 of `BuildCheckpointingSub`: the designated node sends the initial
transaction. -/
def BuildCheckpointingSub_first (env : Env) (benv : BuildEnv) (m : Machine) (address : String) :
    Machine × Outcome :=
  if m.c.hostID = aliceID then
    let balance : Option Amount :=
      if sendall = true then benv.getbalances m.c.cpconfig.BitcoinHost
      else some initialValueInWallet
    match balance with
    | none => (m, .panic "interface conversion")
    | some value =>
    let newValue := value - m.c.cpconfig.Fee
    let payload := sendToAddressPayload address (sprintf8f newValue)
    let m1 := m.log (.jsonRPC m.c.cpconfig.BitcoinHost payload)
    let result := env.jsonRPC m.c.cpconfig.BitcoinHost payload
    if replyError result ≠ .null then (m1, .ok)
    else
      match replyResult result with
      | .str txid => ({ m1 with c := { m1.c with ptxid := txid } }, .ok)
      | _ => (m1, .panic "interface conversion")
  else (m, .ok)

/-- Lines 923–932 of `BuildCheckpointingSub`: the loop that asks
`CheckIfFirstTxHasBeenSent` until it reports the transaction.  `calls` is the number
of calls made so far; the result is the txid reported and the number of calls made in
all, or `none` when the loop is still running after `fuel` more calls. -/
def BuildCheckpointingSub_wait (benv : BuildEnv) (host : String) (publickey cidBytes : Bytes) :
    Nat → Nat → Option (String × Nat)
  | 0, _ => none
  | fuel + 1, calls =>
    let r := benv.CheckIfFirstTxHasBeenSent calls host publickey cidBytes
    if r.1 = true then some (r.2.1, calls + 1)
    else BuildCheckpointingSub_wait benv host publickey cidBytes fuel (calls + 1)

/-- Lines 936–963 of `BuildCheckpointingSub`: the latest checkpoint found through
Bitcoin is cached; the Boolean tells whether the function goes on (`false`: it logs
an error and returns). -/
def BuildCheckpointingSub_latest (benv : BuildEnv) (m : Machine) (publickey cidBytes : Bytes) :
    Machine × Bool :=
  match benv.GetLatestCheckpoint m.c.cpconfig.BitcoinHost publickey cidBytes with
  | .error _ => (m, false)
  | .ok btccp =>
    let cp := benv.GetMinersConfig m.c.cpconfig.MinioBucketName btccp
    if cp ≠ "" then
      match hexDecodeString cp with
      | .error _ => (m, false)
      | .ok cpBytes =>
        let r := benv.TipSetKeyFromBytes cpBytes
        ({ m with c := { m.c with latestConfigCheckpoint := r.1 } }, r.2.isNone)
    else (m, true)

/-- Lines 934–1000 of `BuildCheckpointingSub`: the latest checkpoint, and the values
computed in advance for a signer.  (The start of the module that follows only
registers the listener; its error is logged.) -/
def BuildCheckpointingSub_rest (env : Env) (benv : BuildEnv) (m : Machine)
    (publickey cidBytes : Bytes) : Machine :=
  match BuildCheckpointingSub_latest benv m publickey cidBytes with
  | (m1, false) => m1
  | (m1, true) =>
    match m1.c.taprootConfig with
    | some cfg =>
      { m1 with c := { m1.c with
          pubkey := env.genCheckpointPublicKeyTaproot cfg.PublicKey cidBytes
          tweakedValue := env.hashTweakedValue cfg.PublicKey
            (env.hashMerkleRoot cfg.PublicKey cidBytes) } }
    | none => m1

/-- Lines 876–908 of `BuildCheckpointingSub`, for a node with share `cfg`: the key
and the address of the first transaction, which the designated node sends. -/
def BuildCheckpointingSub_init (env : Env) (benv : BuildEnv) (m : Machine) (cfg : TaprootConfig)
    (cidBytes : Bytes) : Machine × Outcome :=
  let m1 : Machine :=
    { m with c := { m.c with pubkey := env.genCheckpointPublicKeyTaproot cfg.PublicKey cidBytes } }
  -- `address, _ := pubkeyToTapprootAddress(c.pubkey)`
  let address :=
    match env.pubkeyToTapprootAddress m1.c.pubkey with
    | .ok a => a
    | .error _ => ""
  BuildCheckpointingSub_first env benv m1 address

/-- The function `BuildCheckpointingSub`: the coordinator it leaves behind, the
number of calls of `CheckIfFirstTxHasBeenSent` and how it ends; `none` when the wait
for the first transaction is still running after `fuel` calls. -/
def BuildCheckpointingSub (env : Env) (benv : BuildEnv) (fuel : Nat) (m : Machine) :
    Option (Machine × Nat × Outcome) :=
  if benv.bitcoindPing m.c.cpconfig.BitcoinHost = false then some (m, 0, .ok)
  else
  match benv.ChainGetGenesis with
  | .error _ => some (m, 0, .ok)
  | .ok ts =>
  let cidBytes := ts.key
  match hexDecodeString m.c.cpconfig.PublicKey with
  | .error _ => some (m, 0, .ok)
  | .ok publickey =>
  match m.c.taprootConfig with
  | none => some (BuildCheckpointingSub_rest env benv m publickey cidBytes, 0, .ok)
  | some cfg =>
    match BuildCheckpointingSub_init env benv m cfg cidBytes with
    | (m2, .ok) =>
      match BuildCheckpointingSub_wait benv m2.c.cpconfig.BitcoinHost publickey cidBytes fuel 0 with
      | none => none
      | some (txid, calls) =>
        some (BuildCheckpointingSub_rest env benv { m2 with c := { m2.c with ptxid := txid } }
          publickey cidBytes, calls, .ok)
    | (m2, out) => some (m2, 0, out)

/-! ## States and environments used to run the construction and the start-up -/

/-- The surroundings of the node `A` started with a `share.toml` that holds a share
with public key `[2, 3]` and verification shares for `A`, `B` and `C`. -/
def demoBoot : Boot where
  hostID := "A"
  NewEvents := .ok ()
  FromFile := .ok ⟨1000, "btc", "bucket", ""⟩
  shareFile := true
  ReadFile := .ok "share"
  tomlDecode := fun _ => .ok ⟨2, "01", "0203", [("A", "0a"), ("B", "0b"), ("C", "0c")]⟩
  scalarUnmarshalBinary := fun b => .ok b
  pointUnmarshalBinary := fun b => .ok b
  minioNew := .ok ()

/-- The share that `NewCheckpointSub` loads for `demoBoot`. -/
def bootConfig : TaprootConfig := ⟨"A", 2, [1], [2, 3], [("A", [10]), ("B", [11]), ("C", [12])]⟩

/-- The coordinator that `NewCheckpointSub` returns for `demoBoot`. -/
def booted : Machine where
  c :=
    { hostID := "A"
      pubkey := []
      newKey := []
      participants := some 0
      newParticipants := none
      newDKGComplete := false
      keysUpdated := true
      taprootConfig := some bootConfig
      newTaprootConfig := none
      ptxid := ""
      tweakedValue := []
      cpconfig := ⟨1000, "btc", "bucket", ""⟩
      latestConfigCheckpoint := []
      synced := true
      height := 0 }
  mem := [["A", "B", "C"]]
  trace := []

/-- The surroundings of the node `D` started without `share.toml`. -/
def observerBoot : Boot := { demoBoot with hostID := "D", shareFile := false }

/-- The coordinator that `NewCheckpointSub` returns for `observerBoot`. -/
def bootedObserver : Machine where
  c :=
    { hostID := "D"
      pubkey := []
      newKey := []
      participants := none
      newParticipants := none
      newDKGComplete := false
      keysUpdated := true
      taprootConfig := none
      newTaprootConfig := none
      ptxid := ""
      tweakedValue := []
      cpconfig := ⟨1000, "btc", "bucket", ""⟩
      latestConfigCheckpoint := []
      synced := false
      height := 0 }
  mem := []
  trace := []

/-- The environment `demoEnv` with a host whose list of active syncs is empty. -/
def noSyncEnv : Env := { demoEnv with SyncState := .ok [] }

/-- The environment `demoEnv` with a keygen round whose result is not a
`*keygen.TaprootConfig`. -/
def wrongTypeEnv : Env := { demoEnv with keygenTaproot := fun _ _ _ _ => .result .otherType }

/-- The module right after `NewCheckpointSub` for `demoBoot`. -/
def bootedSys : Sys := ⟨booted, []⟩

/-- A Bitcoin node that is reachable and never reports the first transaction. -/
def neverEnv : BuildEnv where
  bitcoindPing := fun _ => true
  ChainGetGenesis := .ok ⟨0, [0]⟩
  getbalances := fun _ => some 0
  CheckIfFirstTxHasBeenSent := fun _ _ _ _ => (false, "", none)
  GetLatestCheckpoint := fun _ _ _ => .ok "cid"
  GetMinersConfig := fun _ _ => ""
  TipSetKeyFromBytes := fun b => (b, none)

/-- A Bitcoin node that reports the first transaction `f00d` from the third call on. -/
def thirdCallEnv : BuildEnv := { neverEnv with
  CheckIfFirstTxHasBeenSent := fun calls _ _ _ =>
    if 2 ≤ calls then (true, "f00d", none) else (false, "", none) }

end Checkpointing

namespace Submgr

/-!
# Subnet manager (`chain/consensus/hierarchical/subnet/submgr/manager.go`)

`AddSubnet` and `JoinSubnet` of `Service`.  What they call outside the file (the
APIs of the parent network, the CBOR encoders, the constants of package
`hierarchical`) is a field of `Host`; the calls that matter to the outside are
recorded, in order, as a list of `Event`s.  Epochs are `int64` values that are only
compared, so they are integers here.
-/

/-- `hierarchical.SubnetParams`, by the fields `AddSubnet` reads (`Alg`,
`DelegMiner` and `MinValidators` are the fields of `Consensus`). -/
structure SubnetParams where
  Addr : String
  Parent : String
  Name : String
  Stake : Int
  CheckpointPeriod : Int
  FinalityThreshold : Int
  Alg : Nat
  DelegMiner : String
  MinValidators : Nat
deriving DecidableEq, Repr

/-- `subnet.ConstructParams`, the constructor parameters of the subnet actor
(`DelegMiner` and `MinValidators` are the fields of `ConsensusParams`). -/
structure ConstructParams where
  NetworkName : String
  MinMinerStake : Int
  Name : String
  Consensus : Nat
  CheckpointPeriod : Int
  FinalityThreshold : Int
  DelegMiner : String
  MinValidators : Nat
deriving DecidableEq, Repr

/-- `types.Message`, by the fields that are set. -/
structure Msg where
  To : String
  From : String
  Value : Int
  Method : Nat
  Params : List Nat
deriving DecidableEq, Repr

/-- What the two methods do to the outside: the constructor parameters handed to the
encoder, and the messages pushed to the message pool of an API. -/
inductive Event where
  | SerializeParams (addp : ConstructParams)
  | MpoolPushMessage (api : String) (msg : Msg)
deriving DecidableEq, Repr

/-- `subnet.SubnetState`, by the field `JoinSubnet` reads. -/
structure SubnetState where
  Consensus : Nat
deriving DecidableEq, Repr

/-- Everything the two methods use from outside the file.  An API is named by a
string; `getAPI` is the lookup of the service (`nil` is `none`). -/
structure Host where
  Mir : Nat
  MinCheckpointPeriod : Nat → Int
  NetName : String
  InitActorAddr : String
  MethodsExec : Nat
  MethodsJoin : Nat
  SubnetActorCodeID : String
  getAPI : String → Option String
  GetParent : String → Except String String
  GetActor : String → String
  SerializeConstructParams : ConstructParams → Except String (List Nat)
  SerializeExecParams : String → List Nat → Except String (List Nat)
  MpoolPushMessage : String → Msg → Except String String
  StateWaitMsg : String → String → Except String (List Nat)
  UnmarshalExecReturn : List Nat → Except String String
  StateGetActor : String → String → Except String String
  cstGet : String → String → Except String SubnetState
  MarshalValidator : String → String → String → Except String (List Nat)
  syncSubnet : String → String → Except String Unit

/-- The method `getParentAPI`. -/
def getParentAPI (h : Host) (id : String) : Except String String :=
  match h.GetParent id with
  | .error e => .error e
  | .ok p =>
    match h.getAPI p with
    | none => .error "not syncing with parent network"
    | some parentAPI => .ok parentAPI

/-- The method `AddSubnet(ctx, params)`: the events it causes and what it returns. -/
def AddSubnet (h : Host) (params : Option SubnetParams) : List Event × Except String String :=
  match params with
  | none => ([], .error "nil subnet params")
  | some params =>
  match h.getAPI params.Parent with
  | none => ([], .error "not syncing with parent network")
  | some parentAPI =>
  let minCheckpointPeriod := h.MinCheckpointPeriod params.Alg
  let checkpointPeriod :=
    if params.CheckpointPeriod < minCheckpointPeriod then minCheckpointPeriod
    else params.CheckpointPeriod
  if params.FinalityThreshold ≥ checkpointPeriod then
    ([], .error ("finality threshold (" ++ toString params.FinalityThreshold
      ++ ") must be less than checkpoint period (" ++ toString params.CheckpointPeriod ++ ")"))
  else if params.Alg = h.Mir ∧ params.MinValidators = 0 then
    ([], .error "minimum number of Mir validators must be more than 0")
  else
  let addp : ConstructParams :=
    { NetworkName := h.NetName
      MinMinerStake := params.Stake
      Name := params.Name
      Consensus := params.Alg
      CheckpointPeriod := checkpointPeriod
      FinalityThreshold := params.FinalityThreshold
      DelegMiner := params.DelegMiner
      MinValidators := params.MinValidators }
  let t1 := [Event.SerializeParams addp]
  match h.SerializeConstructParams addp with
  | .error e => (t1, .error e)
  | .ok serParams =>
  match h.SerializeExecParams h.SubnetActorCodeID serParams with
  | .error e => (t1, .error ("failed serializing init actor constructor params: " ++ e))
  | .ok serParams2 =>
  let msg : Msg :=
    { To := h.InitActorAddr, From := params.Addr, Value := 0, Method := h.MethodsExec,
      Params := serParams2 }
  let t2 := t1 ++ [Event.MpoolPushMessage parentAPI msg]
  match h.MpoolPushMessage parentAPI msg with
  | .error e => (t2, .error e)
  | .ok msgCid =>
  match h.StateWaitMsg parentAPI msgCid with
  | .error e => (t2, .error e)
  | .ok ret =>
  match h.UnmarshalExecReturn ret with
  | .error e => (t2, .error e)
  | .ok idAddress => (t2, .ok idAddress)

/-- The method `JoinSubnet(ctx, wallet, value, id, validatorNetAddr)`: the events it
causes and what it returns.  The start of the local sync (`syncSubnet`) is represented
by its result. -/
def JoinSubnet (h : Host) (wallet : String) (value : Int) (id : String)
    (validatorNetAddr : String) : List Event × Except String String :=
  let SubnetActor := h.GetActor id
  match getParentAPI h id with
  | .error e => ([], .error e)
  | .ok parentAPI =>
  match h.StateGetActor parentAPI SubnetActor with
  | .error e => ([], .error ("loading actor state: " ++ e))
  | .ok head =>
  match h.cstGet parentAPI head with
  | .error e => ([], .error ("getting actor state: " ++ e))
  | .ok st =>
  -- Validator address is optional for Mir.
  if st.Consensus = h.Mir ∧ validatorNetAddr = "" then
    ([], .error "Mir validator address must be specified")
  -- Validator address is not supported for consensus other than Mir.
  else if st.Consensus ≠ h.Mir ∧ validatorNetAddr ≠ "" then
    ([], .error "validator address is not supported")
  else
  match h.MarshalValidator id wallet validatorNetAddr with
  | .error e => ([], .error e)
  | .ok params =>
  let msg : Msg :=
    { To := SubnetActor, From := wallet, Value := value, Method := h.MethodsJoin,
      Params := params }
  let t1 := [Event.MpoolPushMessage parentAPI msg]
  match h.MpoolPushMessage parentAPI msg with
  | .error e => (t1, .error e)
  | .ok smsg =>
  match h.StateWaitMsg parentAPI smsg with
  | .error e => (t1, .error e)
  | .ok _ =>
  match h.getAPI id with
  | some _ => (t1, .ok smsg)
  | none =>
    match h.syncSubnet id parentAPI with
    | .error e => (t1, .error e)
    | .ok _ => (t1, .ok smsg)

/-- A host that syncs with `/root`, where every call succeeds; consensus type 3 is
Mir, the minimal checkpoint period is 10, and the subnet actor of `/root/mir` runs
Mir while every other one runs consensus type 1. -/
def demoHost : Host where
  Mir := 3
  MinCheckpointPeriod := fun _ => 10
  NetName := "/root"
  InitActorAddr := "f01"
  MethodsExec := 2
  MethodsJoin := 2
  SubnetActorCodeID := "subnet"
  getAPI := fun id => if id = "/root" then some "rootAPI" else none
  GetParent := fun id => if id = "/root" then .error "root has no parent" else .ok "/root"
  GetActor := fun id => id
  SerializeConstructParams := fun p => .ok [p.CheckpointPeriod.toNat, p.FinalityThreshold.toNat]
  SerializeExecParams := fun _ b => .ok b
  MpoolPushMessage := fun _ _ => .ok "cid"
  StateWaitMsg := fun _ _ => .ok [7]
  UnmarshalExecReturn := fun _ => .ok "f0100"
  StateGetActor := fun _ a => .ok a
  cstGet := fun _ head => .ok ⟨if head = "/root/mir" then 3 else 1⟩
  MarshalValidator := fun _ _ _ => .ok [1]
  syncSubnet := fun _ _ => .ok ()

/-- Parameters of a subnet of `/root` with checkpoint period 5 and finality
threshold 4. -/
def demoParams : SubnetParams :=
  { Addr := "f1abc", Parent := "/root", Name := "a", Stake := 1, CheckpointPeriod := 5,
    FinalityThreshold := 4, Alg := 1, DelegMiner := "", MinValidators := 0 }

end Submgr

namespace AtomicReplace

/-!
# The example actor `Replace` (`chain/consensus/actors/atomic-replace/replace.go`)

The state of the actor is the locked state around the owners map.  An actor method
runs inside `rt.StateTransaction`: it ends with the new state committed, or it aborts
with an exit code and the state is not changed.
-/

/-- A `cid.Cid`: a struct around one string. -/
abbrev Cid := String

/-- The zero value `cid.Undef`. -/
def Undef : Cid := ""

/-- The struct `Owners`; the map `M` is the list of its entries, with at most the
first entry for a key being read. -/
structure Owners where
  M : List (String × Cid)
deriving DecidableEq, Repr

/-- The read `own.M[k]`: the zero value for an absent key. -/
def Owners.get (o : Owners) (k : String) : Cid := (o.M.lookup k).getD Undef

/-- The assignment `own.M[k] = v`. -/
def Owners.set (o : Owners) (k : String) (v : Cid) : Owners :=
  ⟨(k, v) :: o.M.filter fun e => e.1 ≠ k⟩

/-- `atomic.LockedState` around the owners (`Lock` and `S` as in the generated CBOR
code). -/
structure LockedState where
  Lock : Bool
  S : Owners
deriving DecidableEq, Repr

/-- The struct `ReplaceState`. -/
structure ReplaceState where
  Owners : LockedState
deriving DecidableEq, Repr

/-- The exit codes the actor uses. -/
inductive ExitCode where
  | ErrIllegalState
  | ErrIllegalArgument
deriving DecidableEq, Repr

/-- How an actor method ends. -/
inductive Result where
  | ok (st : ReplaceState)
  | abort (code : ExitCode) (msg : String)
deriving DecidableEq, Repr

/-- What the actor uses from package `atomic`: `ValidateIfLocked`, which returns an
error (`some`) or `nil` (`none`). -/
structure Atomic where
  ValidateIfLocked : LockedState → Option String

/-- The function `ValidateLockedState`: `RequireNoErr` aborts with `ErrIllegalState`
and the message "state locked". -/
def ValidateLockedState (a : Atomic) (st : ReplaceState) : Option (ExitCode × String) :=
  match a.ValidateIfLocked st.Owners with
  | some _ => some (.ErrIllegalState, "state locked")
  | none => none

/-- The method `Replace`, called by `caller` (`rt.Caller().String()`) with parameter
`addr` (`params.Addr.String()`).  In the tuple assignment both reads are done before
the two writes, and the writes are done from left to right. -/
def Replace (a : Atomic) (st : ReplaceState) (caller addr : String) : Result :=
  match ValidateLockedState a st with
  | some (code, msg) => .abort code msg
  | none =>
    let own := st.Owners.S
    let fromAddr := own.get addr
    let fromCaller := own.get caller
    let own1 := (own.set caller fromAddr).set addr fromCaller
    .ok { st with Owners := { st.Owners with S := own1 } }

/-- A package `atomic` whose validation fails exactly on a locked state. -/
def demoAtomic : Atomic := ⟨fun s => if s.Lock = true then some "locked" else none⟩

/-- An unlocked state in which `alice` owns `c1`, `bob` owns `c2` and `carol` owns
`c3`. -/
def demoState : ReplaceState := ⟨⟨false, ⟨[("alice", "c1"), ("bob", "c2"), ("carol", "c3")]⟩⟩⟩

end AtomicReplace

namespace Hierarchical

/-!
# Direction of a cross-net message (`chain/consensus/hierarchical`)

Only the test of `IsBottomUp` is part of the sources at hand (`types_test.go`).
-/

/-- The call `strings.Split(s, sep)` for a separator of one character; `cur` holds
the characters of the component being read, last one first. -/
def splitOnChar (sep : Char) : List Char → List Char → List String
  | cur, [] => [String.mk cur.reverse]
  | cur, ch :: rest =>
    if ch = sep then String.mk cur.reverse :: splitOnChar sep [] rest
    else splitOnChar sep (ch :: cur) rest

/-- The components of a subnet identifier such as `/root/a/b`, split at `/`. -/
def components (id : String) : List String := splitOnChar '/' [] id.data

/-- The components two identifiers share from the start: the closest common ancestor. -/
def commonParent : List String → List String → List String
  | a :: as, b :: bs => if a = b then a :: commonParent as bs else []
  | _, _ => []

/-- Modelled from the spec: the function `IsBottomUp` of package `hierarchical` is not
part of the sources at hand, only its test is.  A message from subnet `src` to subnet
`dst` travels bottom-up when `src` lies strictly below the closest common ancestor of
the two, that is, when `src` has more components than the ancestor. -/
def IsBottomUp (src dst : String) : Bool :=
  decide ((commonParent (components src) (components dst)).length < (components src).length)

end Hierarchical

namespace Checkpointing

set_option maxRecDepth 100000

/-! ## Lemmas on the stretches of `CreateCheckpoint` -/

theorem createRaw_ne_sendRaw (ptxid : String) (index : Nat) (addr amount : String) (data : Bytes)
    (rawtx : String) :
    createRawTransactionPayload ptxid index addr amount data ≠ sendRawTransactionPayload rawtx := by
  intro h
  have h2 := congrArg (fun s : String => s.data.take 45) h
  simp [createRawTransactionPayload, sendRawTransactionPayload, String.data_append] at h2

theorem keys_machine (env : Env) (m : Machine) (cp : Bytes) :
    (CreateCheckpoint_keys env m cp).machine = m := by
  simp only [CreateCheckpoint_keys]
  repeat' split
  all_goals rfl

theorem keys_next (env : Env) (m m1 : Machine) (cp : Bytes) (k : CheckpointKeys)
    (h : CreateCheckpoint_keys env m cp = .next m1 k) :
    m1 = m ∧ m.c.taprootConfig = some k.taprootConfig
    ∧ env.pubkeyToTapprootAddress m.c.pubkey = .ok k.taprootAddress
    ∧ k.pubkey = (if m.c.newDKGComplete = true then m.c.newKey else k.taprootConfig.PublicKey)
    ∧ k.pubkeyShort = env.genCheckpointPublicKeyTaproot k.pubkey cp
    ∧ env.pubkeyToTapprootAddress k.pubkeyShort = .ok k.newTaprootAddress
    ∧ (m.c.newDKGComplete = true → m.c.newTaprootConfig ≠ none) := by
  simp only [CreateCheckpoint_keys] at h
  repeat' split at h
  all_goals first | (cases h; done) | (cases h; simp_all)

theorem ptxid_frame (env : Env) (m : Machine) (addr : String) :
    (CreateCheckpoint_ptxid env m addr).machine.mem = m.mem
    ∧ { (CreateCheckpoint_ptxid env m addr).machine.c with ptxid := m.c.ptxid } = m.c
    ∧ (m.c.ptxid ≠ "" → (CreateCheckpoint_ptxid env m addr).machine.c.ptxid = m.c.ptxid)
    ∧ ∃ calls, (CreateCheckpoint_ptxid env m addr).machine.trace = m.trace ++ calls
        ∧ ∀ c ∈ calls, c = Call.walletGetTxidFromAddress m.c.cpconfig.BitcoinHost addr := by
  simp only [CreateCheckpoint_ptxid]
  split
  · split
    · exact ⟨rfl, rfl, fun h => absurd ‹_› h, [_], rfl, by simp⟩
    · refine ⟨rfl, ?_, fun h => absurd ‹_› h, [_], rfl, by simp⟩
      simp [Stage.machine, Machine.log]
  · exact ⟨rfl, rfl, fun _ => rfl, [], by simp [Stage.machine], by simp⟩

theorem ptxid_next (env : Env) (m m1 : Machine) (addr : String) (u : Unit)
    (h : CreateCheckpoint_ptxid env m addr = .next m1 u) (hp : m.c.ptxid = "") :
    env.walletGetTxidFromAddress m.c.cpconfig.BitcoinHost addr = .ok m1.c.ptxid := by
  simp only [CreateCheckpoint_ptxid, hp, if_true] at h
  split at h
  · cases h
  · cases h
    simpa using ‹_›

theorem txout_frame (env : Env) (m : Machine) (ids : List String) :
    (CreateCheckpoint_txout env m ids).machine.mem = m.mem
    ∧ (CreateCheckpoint_txout env m ids).machine.c = m.c
    ∧ ∃ calls, (CreateCheckpoint_txout env m ids).machine.trace = m.trace ++ calls
        ∧ ∀ c ∈ calls, ∃ i, c = Call.getTxOut m.c.cpconfig.BitcoinHost m.c.ptxid i := by
  simp only [CreateCheckpoint_txout]
  split
  · exact ⟨rfl, rfl, [_], rfl, by simp⟩
  · split
    · exact ⟨rfl, rfl, [.getTxOut m.c.cpconfig.BitcoinHost m.c.ptxid 0,
        .getTxOut m.c.cpconfig.BitcoinHost m.c.ptxid 1],
        by simp [Stage.machine, Machine.log], by simp⟩
    · exact ⟨rfl, rfl, [_], rfl, by simp⟩

theorem txout_next (env : Env) (m m1 : Machine) (ids : List String) (u : SpentOutput)
    (h : CreateCheckpoint_txout env m ids = .next m1 u) :
    u.ids = ids := by
  simp only [CreateCheckpoint_txout] at h
  split at h
  · cases h
  · split at h <;> cases h <;> rfl

theorem spend_frame (env : Env) (m : Machine) (k : CheckpointKeys) (p : StrSlice) :
    (CreateCheckpoint_spend env m k p).machine.mem = sortSlice m.mem p
    ∧ { (CreateCheckpoint_spend env m k p).machine.c with ptxid := m.c.ptxid } = m.c
    ∧ (m.c.ptxid ≠ "" → (CreateCheckpoint_spend env m k p).machine.c.ptxid = m.c.ptxid)
    ∧ ∃ calls, (CreateCheckpoint_spend env m k p).machine.trace = m.trace ++ calls
        ∧ ∀ c ∈ calls, c.isJsonRPC = false ∧ c.isSign = false ∧ c.isQuery = true := by
  simp only [CreateCheckpoint_spend]
  split
  · exact ⟨rfl, rfl, fun _ => rfl, [_], rfl, by simp [Call.isJsonRPC, Call.isSign, Call.isQuery]⟩
  · generalize hm2 : Machine.log { c := m.c, mem := sortSlice m.mem p, trace := m.trace } _ = m2
    have hc : m2.c = m.c := by subst hm2; rfl
    have hmem : m2.mem = sortSlice m.mem p := by subst hm2; rfl
    have htr : ∃ c0, m2.trace = m.trace ++ [c0] ∧ c0.isJsonRPC = false ∧ c0.isSign = false
        ∧ c0.isQuery = true := by
      subst hm2; exact ⟨_, rfl, rfl, rfl, rfl⟩
    obtain ⟨c0, htr, hc0⟩ := htr
    obtain ⟨p1, p2, p3, calls1, p4, p5⟩ := ptxid_frame env m2 k.taprootAddress
    split
    · rename_i m3 out h3
      rw [h3] at p1 p2 p3 p4
      simp only [Stage.machine] at p1 p2 p3 p4 ⊢
      refine ⟨by rw [p1, hmem], by rw [← hc]; exact p2, fun h => by rw [← hc] at h ⊢; exact p3 h,
        c0 :: calls1, by rw [p4, htr]; simp, ?_⟩
      intro c hcm
      rcases List.mem_cons.1 hcm with rfl | hcm
      · exact hc0
      · rw [p5 c hcm]; exact ⟨rfl, rfl, rfl⟩
    · rename_i m3 u3 h3
      rw [h3] at p1 p2 p3 p4
      simp only [Stage.machine] at p1 p2 p3 p4
      obtain ⟨q1, q2, calls2, q4, q5⟩ := txout_frame env m3 (formIDSlice
        (Machine.read { c := m.c, mem := sortSlice m.mem p, trace := m.trace } p))
      refine ⟨by rw [q1, p1, hmem], by rw [q2, ← hc]; exact p2,
        fun h => by rw [q2]; rw [← hc] at h ⊢; exact p3 h,
        c0 :: (calls1 ++ calls2), by rw [q4, p4, htr]; simp, ?_⟩
      intro c hcm
      rcases List.mem_cons.1 hcm with rfl | hcm
      · exact hc0
      · rcases List.mem_append.1 hcm with hcm | hcm
        · rw [p5 c hcm]; exact ⟨rfl, rfl, rfl⟩
        · obtain ⟨i, rfl⟩ := q5 c hcm; exact ⟨rfl, rfl, rfl⟩

theorem spend_next (env : Env) (m m1 : Machine) (k : CheckpointKeys) (p : StrSlice)
    (u : SpentOutput) (h : CreateCheckpoint_spend env m k p = .next m1 u) :
    u.ids = formIDSlice (readSlice (sortSlice m.mem p) p)
    ∧ (m.c.ptxid = "" →
        env.walletGetTxidFromAddress m.c.cpconfig.BitcoinHost k.taprootAddress = .ok m1.c.ptxid) := by
  simp only [CreateCheckpoint_spend] at h
  split at h
  · cases h
  · split at h
    · cases h
    · rename_i m3 u3 h3
      have hids := txout_next env _ _ _ _ h
      have hfr := txout_frame env m3 (formIDSlice
        (Machine.read { c := m.c, mem := sortSlice m.mem p, trace := m.trace } p))
      rw [h] at hfr
      simp only [Stage.machine] at hfr
      refine ⟨hids, fun hp => ?_⟩
      have := ptxid_next env _ _ _ _ h3 (by simpa [Machine.log] using hp)
      rw [hfr.2.1]
      simpa [Machine.log] using this

theorem build_machine (env : Env) (m : Machine) (k : CheckpointKeys) (u : SpentOutput)
    (data : Bytes) :
    (CreateCheckpoint_build env m k u data).machine =
      m.log (.jsonRPC m.c.cpconfig.BitcoinHost
        (createRawTransactionPayload m.c.ptxid u.index k.newTaprootAddress
          (sprintf8f (u.value - m.c.cpconfig.Fee)) data)) := by
  simp only [CreateCheckpoint_build]
  repeat' split
  all_goals rfl

theorem sign_frame (env : Env) (m : Machine) (k : CheckpointKeys) (u : SpentOutput) (t : RawTx) :
    (CreateCheckpoint_sign env m k u t).machine = m
    ∨ (CreateCheckpoint_sign env m k u t).machine =
        m.log (.sign k.taprootConfig u.ids t.hashedTx m.c.tweakedValue) := by
  simp only [CreateCheckpoint_sign]
  split
  · exact Or.inl rfl
  · exact Or.inr rfl
  · exact Or.inr rfl

theorem sign_next (env : Env) (m m1 : Machine) (k : CheckpointKeys) (u : SpentOutput) (t : RawTx)
    (r : Bytes) (h : CreateCheckpoint_sign env m k u t = .next m1 r) :
    m1 = m.log (.sign k.taprootConfig u.ids t.hashedTx m.c.tweakedValue)
    ∧ env.signTaprootWithTweak k.taprootConfig u.ids t.hashedTx m.c.tweakedValue = .result r := by
  simp only [CreateCheckpoint_sign] at h
  split at h
  · cases h
  · cases h
  · cases h; exact ⟨rfl, ‹_›⟩

theorem sign_exit (env : Env) (m m1 : Machine) (k : CheckpointKeys) (u : SpentOutput) (t : RawTx)
    (out : Outcome) (h : CreateCheckpoint_sign env m k u t = .exit m1 out) :
    (m1 = m ∧ ∃ e, out = .error e)
    ∨ (m1 = m.log (.sign k.taprootConfig u.ids t.hashedTx m.c.tweakedValue)
        ∧ ∃ e, out = .error e
          ∧ env.signTaprootWithTweak k.taprootConfig u.ids t.hashedTx m.c.tweakedValue
            = .aborted e) := by
  simp only [CreateCheckpoint_sign] at h
  split at h
  · cases h; exact Or.inl ⟨rfl, _, rfl⟩
  · cases h; exact Or.inr ⟨rfl, _, rfl, ‹_›⟩
  · cases h

theorem keys_exit (env : Env) (m m1 : Machine) (cp : Bytes) (out : Outcome)
    (h : CreateCheckpoint_keys env m cp = .exit m1 out) : m1 = m ∧ out ≠ .ok := by
  simp only [CreateCheckpoint_keys] at h
  repeat' split at h
  all_goals first | (cases h; exact ⟨rfl, by simp⟩) | cases h

theorem ptxid_exit (env : Env) (m m1 : Machine) (addr : String) (out : Outcome)
    (h : CreateCheckpoint_ptxid env m addr = .exit m1 out) : out ≠ .ok := by
  simp only [CreateCheckpoint_ptxid] at h
  repeat' split at h
  all_goals first | (cases h; simp) | cases h

theorem txout_exit (env : Env) (m m1 : Machine) (ids : List String) (out : Outcome)
    (h : CreateCheckpoint_txout env m ids = .exit m1 out) : out ≠ .ok := by
  simp only [CreateCheckpoint_txout] at h
  repeat' split at h
  all_goals first | (cases h; simp) | cases h

theorem spend_exit (env : Env) (m m1 : Machine) (k : CheckpointKeys) (p : StrSlice)
    (out : Outcome) (h : CreateCheckpoint_spend env m k p = .exit m1 out) : out ≠ .ok := by
  simp only [CreateCheckpoint_spend] at h
  split at h
  · cases h; simp
  · split at h
    · cases h; exact ptxid_exit _ _ _ _ _ ‹_›
    · exact txout_exit _ _ _ _ _ h

theorem build_exit (env : Env) (m m1 : Machine) (k : CheckpointKeys) (u : SpentOutput)
    (data : Bytes) (out : Outcome) (h : CreateCheckpoint_build env m k u data = .exit m1 out) :
    out ≠ .ok := by
  simp only [CreateCheckpoint_build] at h
  repeat' split at h
  all_goals first | (cases h; simp) | cases h

/-- How a run of lines 636–755 can end, by the stretch in which it ends. -/
theorem prepare_cases (env : Env) (m : Machine) (cp data : Bytes) (p : StrSlice) :
    (∃ m1 out, CreateCheckpoint_prepare env m cp data p = .exit m1 out ∧ out ≠ .ok ∧
      (m1 = m
      ∨ (∃ k, CreateCheckpoint_keys env m cp = .next m k
            ∧ CreateCheckpoint_spend env m k p = .exit m1 out)
      ∨ (∃ k m2 u, CreateCheckpoint_keys env m cp = .next m k
            ∧ CreateCheckpoint_spend env m k p = .next m2 u
            ∧ CreateCheckpoint_build env m2 k u data = .exit m1 out)
      ∨ (∃ k m2 u m3 t, CreateCheckpoint_keys env m cp = .next m k
            ∧ CreateCheckpoint_spend env m k p = .next m2 u
            ∧ CreateCheckpoint_build env m2 k u data = .next m3 t
            ∧ CreateCheckpoint_sign env m3 k u t = .exit m1 out)))
    ∨ (∃ m4 k m2 u m3 t r, CreateCheckpoint_prepare env m cp data p = .next m4 ⟨k, u, t, r⟩
        ∧ CreateCheckpoint_keys env m cp = .next m k
        ∧ CreateCheckpoint_spend env m k p = .next m2 u
        ∧ CreateCheckpoint_build env m2 k u data = .next m3 t
        ∧ CreateCheckpoint_sign env m3 k u t = .next m4 r) := by
  cases hk : CreateCheckpoint_keys env m cp with
  | exit m1 out =>
    obtain ⟨rfl, hne⟩ := keys_exit _ _ _ _ _ hk
    exact Or.inl ⟨m1, out, by simp only [CreateCheckpoint_prepare, hk], hne, Or.inl rfl⟩
  | next m1 k =>
    obtain ⟨rfl, -⟩ := keys_next _ _ _ _ _ hk
    cases hs : CreateCheckpoint_spend env m1 k p with
    | exit m2 out =>
      exact Or.inl ⟨m2, out, by simp only [CreateCheckpoint_prepare, hk, hs],
        spend_exit _ _ _ _ _ _ hs, Or.inr (Or.inl ⟨k, rfl, hs⟩)⟩
    | next m2 u =>
      cases hb : CreateCheckpoint_build env m2 k u data with
      | exit m3 out =>
        exact Or.inl ⟨m3, out, by simp only [CreateCheckpoint_prepare, hk, hs, hb],
          build_exit _ _ _ _ _ _ _ hb, Or.inr (Or.inr (Or.inl ⟨k, m2, u, rfl, hs, hb⟩))⟩
      | next m3 t =>
        cases hg : CreateCheckpoint_sign env m3 k u t with
        | exit m4 out =>
          have hne : out ≠ .ok := by
            rcases sign_exit _ _ _ _ _ _ _ hg with ⟨-, e, rfl⟩ | ⟨-, e, rfl, -⟩ <;> simp
          exact Or.inl ⟨m4, out, by simp only [CreateCheckpoint_prepare, hk, hs, hb, hg], hne,
            Or.inr (Or.inr (Or.inr ⟨k, m2, u, m3, t, rfl, hs, hb, hg⟩))⟩
        | next m4 r =>
          exact Or.inr ⟨m4, k, m2, u, m3, t, r,
            by simp only [CreateCheckpoint_prepare, hk, hs, hb, hg], rfl, hs, hb, hg⟩

/-- The machine on which `CreateCheckpoint` issues the broadcast request. -/
theorem commit_trace (env : Env) (m : Machine) (cp : Bytes) (k : CheckpointKeys) (t : RawTx)
    (r : Bytes) :
    (CreateCheckpoint_commit env m cp k t r).1.trace = m.trace ++
      [Call.jsonRPC m.c.cpconfig.BitcoinHost
        (sendRawTransactionPayload (env.prepareWitnessRawTransaction t.rawTransaction r))] := by
  simp only [CreateCheckpoint_commit, CreateCheckpoint_rotate]
  repeat' split
  all_goals rfl

theorem commit_error (env : Env) (m : Machine) (cp : Bytes) (k : CheckpointKeys) (t : RawTx)
    (r : Bytes)
    (h : replyError (env.jsonRPC m.c.cpconfig.BitcoinHost
      (sendRawTransactionPayload (env.prepareWitnessRawTransaction t.rawTransaction r))) ≠ .null) :
    CreateCheckpoint_commit env m cp k t r =
      ({ c := { m.c with
            tweakedValue := env.hashTweakedValue k.pubkey (env.hashMerkleRoot k.pubkey cp)
            pubkey := k.pubkeyShort
            ptxid := "" }
         mem := m.mem
         trace := m.trace ++ [Call.jsonRPC m.c.cpconfig.BitcoinHost
          (sendRawTransactionPayload (env.prepareWitnessRawTransaction t.rawTransaction r))] },
        .error "failed to broadcast transaction") := by
  simp only [CreateCheckpoint_commit]
  rw [if_pos h]
  rfl

theorem commit_ok (env : Env) (m : Machine) (cp : Bytes) (k : CheckpointKeys) (t : RawTx)
    (r : Bytes) (h : (CreateCheckpoint_commit env m cp k t r).2 = .ok) :
    ∃ newtxid,
      replyResult (env.jsonRPC m.c.cpconfig.BitcoinHost
        (sendRawTransactionPayload (env.prepareWitnessRawTransaction t.rawTransaction r)))
        = .str newtxid
      ∧ replyError (env.jsonRPC m.c.cpconfig.BitcoinHost
        (sendRawTransactionPayload (env.prepareWitnessRawTransaction t.rawTransaction r)))
        = .null
      ∧ (CreateCheckpoint_commit env m cp k t r).1 = CreateCheckpoint_rotate
          { c := { m.c with
              tweakedValue := env.hashTweakedValue k.pubkey (env.hashMerkleRoot k.pubkey cp)
              pubkey := k.pubkeyShort
              ptxid := newtxid }
            mem := m.mem
            trace := m.trace ++ [Call.jsonRPC m.c.cpconfig.BitcoinHost
              (sendRawTransactionPayload
                (env.prepareWitnessRawTransaction t.rawTransaction r))] } := by
  simp only [CreateCheckpoint_commit] at h ⊢
  split at h
  · cases h
  · rename_i hnull
    rw [if_neg hnull]
    split at h
    · cases h
    · cases h
    · rename_i newtxid hres
      refine ⟨newtxid, hres, by simpa using hnull, ?_⟩
      simp only [hres]
      rfl

theorem prepare_machine_of_exit (env : Env) (m m1 : Machine) (cp data : Bytes) (p : StrSlice)
    (out : Outcome) (h : CreateCheckpoint_prepare env m cp data p = .exit m1 out) :
    CreateCheckpoint env m cp data p = (m1, out) := by
  simp only [CreateCheckpoint, h]

theorem prepare_machine_of_next (env : Env) (m m1 : Machine) (cp data : Bytes) (p : StrSlice)
    (s : Prepared) (h : CreateCheckpoint_prepare env m cp data p = .next m1 s) :
    CreateCheckpoint env m cp data p = CreateCheckpoint_commit env m1 cp s.k s.t s.r := by
  simp only [CreateCheckpoint, h]

theorem callsSince_append (m m1 : Machine) (calls : List Call)
    (h : m1.trace = m.trace ++ calls) : callsSince m m1 = calls := by
  simp [callsSince, h]

theorem callsSince_self (m : Machine) : callsSince m m = [] := by
  simp [callsSince]

/-- What lines 636–755 leave behind, whichever way they end. -/
theorem prepare_spec (env : Env) (m : Machine) (cp data : Bytes) (p : StrSlice) :
    (CreateCheckpoint_prepare env m cp data p).machine.trace
        = m.trace ++ callsSince m (CreateCheckpoint_prepare env m cp data p).machine
    ∧ { (CreateCheckpoint_prepare env m cp data p).machine.c with ptxid := m.c.ptxid } = m.c
    ∧ (m.c.ptxid ≠ "" → (CreateCheckpoint_prepare env m cp data p).machine.c.ptxid = m.c.ptxid)
    ∧ ((CreateCheckpoint_prepare env m cp data p).machine.mem = sortSlice m.mem p
        ∨ (CreateCheckpoint_prepare env m cp data p).machine = m)
    ∧ (∀ c ∈ callsSince m (CreateCheckpoint_prepare env m cp data p).machine,
        c.isJsonRPC = true → ∃ ptx idx addr amt,
          c = .jsonRPC m.c.cpconfig.BitcoinHost (createRawTransactionPayload ptx idx addr amt data))
    ∧ (∀ cfg ids msg tw,
        Call.sign cfg ids msg tw ∈ callsSince m (CreateCheckpoint_prepare env m cp data p).machine →
        m.c.taprootConfig = some cfg
        ∧ ids = formIDSlice (readSlice (sortSlice m.mem p) p)
        ∧ tw = m.c.tweakedValue
        ∧ (∀ m1 out, CreateCheckpoint_prepare env m cp data p = .exit m1 out →
            ∃ e, out = .error e ∧ env.signTaprootWithTweak cfg ids msg tw = .aborted e)
        ∧ (∀ m1 s, CreateCheckpoint_prepare env m cp data p = .next m1 s →
            env.signTaprootWithTweak cfg ids msg tw = .result s.r)
        ∧ (m.c.ptxid = "" → ∃ addr, env.pubkeyToTapprootAddress m.c.pubkey = .ok addr
            ∧ env.walletGetTxidFromAddress m.c.cpconfig.BitcoinHost addr
              = .ok (CreateCheckpoint_prepare env m cp data p).machine.c.ptxid))
    ∧ (∀ c ∈ callsSince m (CreateCheckpoint_prepare env m cp data p).machine,
        c.isQuery = true ∨ c.isJsonRPC = true ∨ c.isSign = true) := by
  rcases prepare_cases env m cp data p with
    ⟨m1, out, hp, -, rfl | ⟨k, hk, hs⟩ | ⟨k, m2, u, hk, hs, hb⟩ | ⟨k, m2, u, m3, t, hk, hs, hb, hg⟩⟩
    | ⟨m4, k, m2, u, m3, t, r, hp, hk, hs, hb, hg⟩
  · -- exit among the keys
    rw [hp]
    simp [Stage.machine, callsSince_self]
  · -- exit while fetching the output to spend
    obtain ⟨f1, f2, f3, calls, f4, f5⟩ := spend_frame env m k p
    rw [hs] at f1 f2 f3 f4
    simp only [Stage.machine] at f1 f2 f3 f4
    rw [hp]
    simp only [Stage.machine, callsSince_append m m1 calls f4]
    refine ⟨f4, f2, f3, Or.inl f1, ?_, ?_, fun c hc => Or.inl (f5 c hc).2.2⟩
    · intro c hc hj
      rw [(f5 c hc).1] at hj; cases hj
    · intro cfg ids msg tw hc
      have := (f5 _ hc).2
      simp [Call.isSign] at this
  · -- exit while building the transaction
    obtain ⟨f1, f2, f3, calls, f4, f5⟩ := spend_frame env m k p
    rw [hs] at f1 f2 f3 f4
    simp only [Stage.machine] at f1 f2 f3 f4
    have hb1 := build_machine env m2 k u data
    rw [hb] at hb1
    simp only [Stage.machine] at hb1
    have hhost : m2.c.cpconfig.BitcoinHost = m.c.cpconfig.BitcoinHost := by
      have := congrArg (fun c => c.cpconfig.BitcoinHost) f2
      simpa using this
    have htr : m1.trace = m.trace ++ (calls ++ [Call.jsonRPC m.c.cpconfig.BitcoinHost
        (createRawTransactionPayload m2.c.ptxid u.index k.newTaprootAddress
          (sprintf8f (u.value - m2.c.cpconfig.Fee)) data)]) := by
      rw [hb1]; simp [Machine.log, f4, hhost]
    rw [hp]
    simp only [Stage.machine, callsSince_append m m1 _ htr]
    refine ⟨htr, by rw [hb1]; exact f2, fun h => by rw [hb1]; exact f3 h,
      Or.inl (by rw [hb1]; exact f1), ?_, ?_, fun c hc => by
        rcases List.mem_append.1 hc with hc | hc
        · exact Or.inl (f5 c hc).2.2
        · rw [List.mem_singleton.1 hc]; exact Or.inr (Or.inl rfl)⟩
    · intro c hc hj
      rcases List.mem_append.1 hc with hc | hc
      · rw [(f5 c hc).1] at hj; cases hj
      · rw [List.mem_singleton.1 hc]; exact ⟨_, _, _, _, rfl⟩
    · intro cfg ids msg tw hc
      rcases List.mem_append.1 hc with hc | hc
      · have := (f5 _ hc).2
        simp [Call.isSign] at this
      · simp at hc
  · -- exit in the signing round
    obtain ⟨-, hcfg, haddr, -⟩ := keys_next _ _ _ _ _ hk
    obtain ⟨f1, f2, f3, calls, f4, f5⟩ := spend_frame env m k p
    rw [hs] at f1 f2 f3 f4
    simp only [Stage.machine] at f1 f2 f3 f4
    obtain ⟨hids, hwal⟩ := spend_next _ _ _ _ _ _ hs
    have hb1 := build_machine env m2 k u data
    rw [hb] at hb1
    simp only [Stage.machine] at hb1
    have hhost : m2.c.cpconfig.BitcoinHost = m.c.cpconfig.BitcoinHost := by
      have := congrArg (fun c => c.cpconfig.BitcoinHost) f2
      simpa using this
    have htw : m3.c.tweakedValue = m.c.tweakedValue := by
      have := congrArg (fun c => c.tweakedValue) f2
      rw [hb1]; simpa [Machine.log] using this
    have htr3 : m3.trace = m.trace ++ (calls ++ [Call.jsonRPC m.c.cpconfig.BitcoinHost
        (createRawTransactionPayload m2.c.ptxid u.index k.newTaprootAddress
          (sprintf8f (u.value - m2.c.cpconfig.Fee)) data)]) := by
      rw [hb1]; simp [Machine.log, f4, hhost]
    have hc3 : m3.c = m2.c := by rw [hb1]; rfl
    have hm3 : m3.mem = m2.mem := by rw [hb1]; rfl
    rw [hp]
    rcases sign_exit _ _ _ _ _ _ _ hg with ⟨rfl, e, rfl⟩ | ⟨rfl, e, rfl, hab⟩
    · simp only [Stage.machine, callsSince_append m m1 _ htr3]
      refine ⟨htr3, by rw [hc3]; exact f2, fun h => by rw [hc3]; exact f3 h,
        Or.inl (by rw [hm3]; exact f1), ?_, ?_, fun c hc => by
        rcases List.mem_append.1 hc with hc | hc
        · exact Or.inl (f5 c hc).2.2
        · rw [List.mem_singleton.1 hc]; exact Or.inr (Or.inl rfl)⟩
      · intro c hc hj
        rcases List.mem_append.1 hc with hc | hc
        · rw [(f5 c hc).1] at hj; cases hj
        · rw [List.mem_singleton.1 hc]; exact ⟨_, _, _, _, rfl⟩
      · intro cfg ids msg tw hc
        rcases List.mem_append.1 hc with hc | hc
        · have := (f5 _ hc).2
          simp [Call.isSign] at this
        · simp at hc
    · have htr4 : (m3.log (.sign k.taprootConfig u.ids t.hashedTx m3.c.tweakedValue)).trace =
          m.trace ++ (calls ++ [Call.jsonRPC m.c.cpconfig.BitcoinHost
            (createRawTransactionPayload m2.c.ptxid u.index k.newTaprootAddress
              (sprintf8f (u.value - m2.c.cpconfig.Fee)) data),
            Call.sign k.taprootConfig u.ids t.hashedTx m3.c.tweakedValue]) := by
        simp [Machine.log, htr3]
      simp only [Stage.machine, callsSince_append m _ _ htr4]
      refine ⟨htr4, by simp only [Machine.log]; rw [hc3]; exact f2,
        fun h => by simp only [Machine.log]; rw [hc3]; exact f3 h,
        Or.inl (by simp only [Machine.log]; rw [hm3]; exact f1), ?_, ?_, fun c hc => by
        rcases List.mem_append.1 hc with hc | hc
        · exact Or.inl (f5 c hc).2.2
        · simp only [List.mem_cons, List.mem_singleton, List.not_mem_nil, or_false] at hc
          rcases hc with rfl | rfl
          · exact Or.inr (Or.inl rfl)
          · exact Or.inr (Or.inr rfl)⟩
      · intro c hc hj
        rcases List.mem_append.1 hc with hc | hc
        · rw [(f5 c hc).1] at hj; cases hj
        · simp only [List.mem_cons, List.mem_singleton, List.not_mem_nil, or_false] at hc
          rcases hc with rfl | rfl
          · exact ⟨_, _, _, _, rfl⟩
          · cases hj
      · intro cfg ids msg tw hc
        rcases List.mem_append.1 hc with hc | hc
        · have := (f5 _ hc).2
          simp [Call.isSign] at this
        · simp only [List.mem_cons, List.mem_singleton, List.not_mem_nil, or_false] at hc
          rcases hc with hc | hc
          · cases hc
          · cases hc
            refine ⟨hcfg, hids, htw, ?_, ?_, ?_⟩
            · intro m1 out h1
              cases h1
              exact ⟨e, rfl, hab⟩
            · intro m1 s h1
              cases h1
            · intro hp0
              refine ⟨_, haddr, ?_⟩
              simp only [Machine.log]
              rw [hc3]
              exact hwal hp0
  · -- the signing round gave a result
    obtain ⟨-, hcfg, haddr, -⟩ := keys_next _ _ _ _ _ hk
    obtain ⟨f1, f2, f3, calls, f4, f5⟩ := spend_frame env m k p
    rw [hs] at f1 f2 f3 f4
    simp only [Stage.machine] at f1 f2 f3 f4
    obtain ⟨hids, hwal⟩ := spend_next _ _ _ _ _ _ hs
    have hb1 := build_machine env m2 k u data
    rw [hb] at hb1
    simp only [Stage.machine] at hb1
    have hhost : m2.c.cpconfig.BitcoinHost = m.c.cpconfig.BitcoinHost := by
      have := congrArg (fun c => c.cpconfig.BitcoinHost) f2
      simpa using this
    have htw : m3.c.tweakedValue = m.c.tweakedValue := by
      have := congrArg (fun c => c.tweakedValue) f2
      rw [hb1]; simpa [Machine.log] using this
    have htr3 : m3.trace = m.trace ++ (calls ++ [Call.jsonRPC m.c.cpconfig.BitcoinHost
        (createRawTransactionPayload m2.c.ptxid u.index k.newTaprootAddress
          (sprintf8f (u.value - m2.c.cpconfig.Fee)) data)]) := by
      rw [hb1]; simp [Machine.log, f4, hhost]
    have hc3 : m3.c = m2.c := by rw [hb1]; rfl
    have hm3 : m3.mem = m2.mem := by rw [hb1]; rfl
    obtain ⟨rfl, hres⟩ := sign_next _ _ _ _ _ _ _ hg
    have htr4 : (m3.log (.sign k.taprootConfig u.ids t.hashedTx m3.c.tweakedValue)).trace =
        m.trace ++ (calls ++ [Call.jsonRPC m.c.cpconfig.BitcoinHost
          (createRawTransactionPayload m2.c.ptxid u.index k.newTaprootAddress
            (sprintf8f (u.value - m2.c.cpconfig.Fee)) data),
          Call.sign k.taprootConfig u.ids t.hashedTx m3.c.tweakedValue]) := by
      simp [Machine.log, htr3]
    rw [hp]
    simp only [Stage.machine, callsSince_append m _ _ htr4]
    refine ⟨htr4, by simp only [Machine.log]; rw [hc3]; exact f2,
      fun h => by simp only [Machine.log]; rw [hc3]; exact f3 h,
      Or.inl (by simp only [Machine.log]; rw [hm3]; exact f1), ?_, ?_, fun c hc => by
        rcases List.mem_append.1 hc with hc | hc
        · exact Or.inl (f5 c hc).2.2
        · simp only [List.mem_cons, List.mem_singleton, List.not_mem_nil, or_false] at hc
          rcases hc with rfl | rfl
          · exact Or.inr (Or.inl rfl)
          · exact Or.inr (Or.inr rfl)⟩
    · intro c hc hj
      rcases List.mem_append.1 hc with hc | hc
      · rw [(f5 c hc).1] at hj; cases hj
      · simp only [List.mem_cons, List.mem_singleton, List.not_mem_nil, or_false] at hc
        rcases hc with rfl | rfl
        · exact ⟨_, _, _, _, rfl⟩
        · cases hj
    · intro cfg ids msg tw hc
      rcases List.mem_append.1 hc with hc | hc
      · have := (f5 _ hc).2
        simp [Call.isSign] at this
      · simp only [List.mem_cons, List.mem_singleton, List.not_mem_nil, or_false] at hc
        rcases hc with hc | hc
        · cases hc
        · cases hc
          refine ⟨hcfg, hids, htw, ?_, ?_, ?_⟩
          · intro m1 out h1
            cases h1
          · intro m1 s h1
            cases h1
            exact hres
          · intro hp0
            refine ⟨_, haddr, ?_⟩
            simp only [Machine.log]
            rw [hc3]
            exact hwal hp0

/-! ## Sorting and the memory of string arrays -/

theorem lexLe_total : ∀ a b : List Char, lexLe a b = true ∨ lexLe b a = true
  | [], _ => Or.inl (by simp [lexLe])
  | _ :: _, [] => Or.inr (by simp [lexLe])
  | a :: as, b :: bs => by
    rcases Nat.lt_trichotomy a.toNat b.toNat with h | h | h
    · left; simp [lexLe, h]
    · rcases lexLe_total as bs with h1 | h1
      · left; simp [lexLe, h, h1]
      · right; simp [lexLe, h, h1]
    · right; simp [lexLe, h]

theorem lexLe_trans : ∀ a b c : List Char, lexLe a b = true → lexLe b c = true → lexLe a c = true
  | [], _, _ => by simp [lexLe]
  | _ :: _, [], _ => by simp [lexLe]
  | _ :: _, _ :: _, [] => by simp [lexLe]
  | a :: as, b :: bs, c :: cs => by
    intro h1 h2
    simp only [lexLe] at h1 h2 ⊢
    split at h1
    · split at h2
      · have : a.toNat < c.toNat := by omega
        simp [this]
      · split at h2
        · have : a.toNat < c.toNat := by omega
          simp [this]
        · cases h2
    · split at h1
      · split at h2
        · have : a.toNat < c.toNat := by omega
          simp [this]
        · split at h2
          · have h3 : ¬ a.toNat < c.toNat := by omega
            have h4 : a.toNat = c.toNat := by omega
            rw [if_neg h3, if_pos h4]
            exact lexLe_trans as bs cs h1 h2
          · cases h2
      · cases h1

theorem sortStrings_sorted (l : List String) : (sortStrings l).Sorted strLe :=
  haveI : IsTotal String strLe := ⟨fun a b => lexLe_total a.data b.data⟩
  haveI : IsTrans String strLe := ⟨fun a b c => lexLe_trans a.data b.data c.data⟩
  List.sorted_insertionSort strLe l

theorem sortStrings_idem (l : List String) : sortStrings (sortStrings l) = sortStrings l :=
  (sortStrings_sorted l).insertionSort_eq

theorem sortStrings_perm (l : List String) : (sortStrings l).Perm l :=
  List.perm_insertionSort strLe l

theorem readSlice_sortSlice_self (mem : List (List String)) (p : StrSlice) :
    readSlice (sortSlice mem p) p = sortStrings (readSlice mem p) := by
  cases p with
  | none => simp [readSlice, sortSlice, sortStrings]
  | some a =>
    simp only [readSlice, sortSlice]
    by_cases h : a < mem.length
    · simp [List.getD_eq_getElem?_getD, List.getElem?_set, h]
    · have h1 : mem.length ≤ a := Nat.le_of_not_lt h
      simp [List.getD_eq_getElem?_getD, List.getElem?_set, h, List.getElem?_eq_none h1,
        sortStrings]

theorem readSlice_sortSlice (mem : List (List String)) (p q : StrSlice) :
    readSlice (sortSlice mem p) q = readSlice mem q
    ∨ readSlice (sortSlice mem p) q = sortStrings (readSlice mem q) := by
  by_cases h : q = p
  · subst h; exact Or.inr (readSlice_sortSlice_self mem q)
  · left
    cases p with
    | none => rfl
    | some a =>
      cases q with
      | none => rfl
      | some b =>
        have hab : a ≠ b := fun e => h (by rw [e])
        simp [readSlice, sortSlice, List.getD_eq_getElem?_getD, List.getElem?_set, hab]

theorem sortStrings_readSlice_sortSlice (mem : List (List String)) (p q : StrSlice) :
    sortStrings (readSlice (sortSlice mem p) q) = sortStrings (readSlice mem q) := by
  rcases readSlice_sortSlice mem p q with h | h
  · rw [h]
  · rw [h, sortStrings_idem]

theorem readSlice_append_new (mem : List (List String)) (l : List String) :
    readSlice (mem ++ [l]) (some mem.length) = l := by
  simp [readSlice, List.getD_eq_getElem?_getD]

theorem prepare_next_spec (env : Env) (m m4 : Machine) (cp data : Bytes) (p : StrSlice)
    (s : Prepared) (h : CreateCheckpoint_prepare env m cp data p = .next m4 s) :
    CreateCheckpoint_keys env m cp = .next m s.k
    ∧ m4.mem = sortSlice m.mem p
    ∧ ∃ m2, CreateCheckpoint_spend env m s.k p = .next m2 s.u
        ∧ m4.c = m2.c
        ∧ Call.jsonRPC m.c.cpconfig.BitcoinHost
            (createRawTransactionPayload m2.c.ptxid s.u.index s.k.newTaprootAddress
              (sprintf8f (s.u.value - m.c.cpconfig.Fee)) data) ∈ callsSince m m4 := by
  rcases prepare_cases env m cp data p with
    ⟨m1, out, hp, -⟩ | ⟨m4', k, m2, u, m3, t, r, hp, hk, hs, hb, hg⟩
  · rw [hp] at h; cases h
  · rw [hp] at h
    cases h
    obtain ⟨f1, f2, f3, calls, f4, f5⟩ := spend_frame env m k p
    rw [hs] at f1 f2 f3 f4
    simp only [Stage.machine] at f1 f2 f3 f4
    have hb1 := build_machine env m2 k u data
    rw [hb] at hb1
    simp only [Stage.machine] at hb1
    have hcfg : m2.c.cpconfig = m.c.cpconfig := by
      have := congrArg (fun c => c.cpconfig) f2
      simpa using this
    obtain ⟨rfl, -⟩ := sign_next _ _ _ _ _ _ _ hg
    refine ⟨hk, ?_, m2, hs, ?_, ?_⟩
    · rw [hb1]; exact f1
    · rw [hb1]; rfl
    · have htr : (m3.log (.sign k.taprootConfig u.ids t.hashedTx m3.c.tweakedValue)).trace =
          m.trace ++ (calls ++ [Call.jsonRPC m.c.cpconfig.BitcoinHost
            (createRawTransactionPayload m2.c.ptxid u.index k.newTaprootAddress
              (sprintf8f (u.value - m.c.cpconfig.Fee)) data),
            Call.sign k.taprootConfig u.ids t.hashedTx m3.c.tweakedValue]) := by
        rw [hb1]; simp [Machine.log, f4, hcfg]
      rw [callsSince_append m _ _ htr]
      simp

/-! ## The claims on `CreateCheckpoint` -/

/-- C1 (amended): `CreateCheckpoint` has no fee-underflow check.  Once the output to
spend has been fetched (value `u.value`), it issues the `createrawtransaction` request
with the amount `u.value - Fee` formatted to eight decimals, whatever the sign of that
amount; when the request gets no reply it returns the error "can not create new
transaction", and then `pubkey` and `tweakedValue` are as before the call and `ptxid` is
as before the call if it was non-empty, and otherwise the txid resolved from the wallet. -/
theorem CreateCheckpoint_fee_not_checked (env : Env) (m : Machine) (cp data : Bytes)
    (p : StrSlice) (k : CheckpointKeys) (m2 : Machine) (u : SpentOutput)
    (hk : CreateCheckpoint_keys env m cp = .next m k)
    (hs : CreateCheckpoint_spend env m k p = .next m2 u) :
    Call.jsonRPC m.c.cpconfig.BitcoinHost
        (createRawTransactionPayload m2.c.ptxid u.index k.newTaprootAddress
          (sprintf8f (u.value - m.c.cpconfig.Fee)) data)
      ∈ callsSince m (CreateCheckpoint env m cp data p).1
    ∧ (env.jsonRPC m.c.cpconfig.BitcoinHost
          (createRawTransactionPayload m2.c.ptxid u.index k.newTaprootAddress
            (sprintf8f (u.value - m.c.cpconfig.Fee)) data) = none →
        (CreateCheckpoint env m cp data p).2 = .error "can not create new transaction"
        ∧ (CreateCheckpoint env m cp data p).1.c.pubkey = m.c.pubkey
        ∧ (CreateCheckpoint env m cp data p).1.c.tweakedValue = m.c.tweakedValue
        ∧ (m.c.ptxid ≠ "" → (CreateCheckpoint env m cp data p).1.c.ptxid = m.c.ptxid)
        ∧ (m.c.ptxid = "" →
            env.walletGetTxidFromAddress m.c.cpconfig.BitcoinHost k.taprootAddress
              = .ok (CreateCheckpoint env m cp data p).1.c.ptxid)) := by
  obtain ⟨f1, f2, f3, calls, f4, f5⟩ := spend_frame env m k p
  rw [hs] at f1 f2 f3 f4
  simp only [Stage.machine] at f1 f2 f3 f4
  obtain ⟨-, hw⟩ := spend_next _ _ _ _ _ _ hs
  have hcfg : m2.c.cpconfig = m.c.cpconfig := by
    have := congrArg (fun c => c.cpconfig) f2
    simpa using this
  have hpk : m2.c.pubkey = m.c.pubkey := by
    have := congrArg (fun c => c.pubkey) f2
    simpa using this
  have htw : m2.c.tweakedValue = m.c.tweakedValue := by
    have := congrArg (fun c => c.tweakedValue) f2
    simpa using this
  have hb1 := build_machine env m2 k u data
  rw [hcfg] at hb1
  constructor
  · have hext : ∃ rest, (CreateCheckpoint env m cp data p).1.trace =
        (CreateCheckpoint_build env m2 k u data).machine.trace ++ rest := by
      cases hb : CreateCheckpoint_build env m2 k u data with
      | exit m3 out =>
        exact ⟨[], by simp [CreateCheckpoint, CreateCheckpoint_prepare, hk, hs, hb, Stage.machine]⟩
      | next m3 t =>
        cases hg : CreateCheckpoint_sign env m3 k u t with
        | exit m4 out =>
          rcases sign_exit _ _ _ _ _ _ _ hg with ⟨rfl, -⟩ | ⟨rfl, -⟩
          · exact ⟨[], by
              simp [CreateCheckpoint, CreateCheckpoint_prepare, hk, hs, hb, hg, Stage.machine]⟩
          · exact ⟨[Call.sign k.taprootConfig u.ids t.hashedTx m3.c.tweakedValue], by
              simp [CreateCheckpoint, CreateCheckpoint_prepare, hk, hs, hb, hg, Stage.machine,
                Machine.log]⟩
        | next m4 r =>
          obtain ⟨rfl, -⟩ := sign_next _ _ _ _ _ _ _ hg
          refine ⟨[Call.sign k.taprootConfig u.ids t.hashedTx m3.c.tweakedValue,
            Call.jsonRPC m3.c.cpconfig.BitcoinHost (sendRawTransactionPayload
              (env.prepareWitnessRawTransaction t.rawTransaction r))], ?_⟩
          simp only [CreateCheckpoint, CreateCheckpoint_prepare, hk, hs, hb, hg, Stage.machine]
          rw [commit_trace]
          simp [Machine.log]
    obtain ⟨rest, hrest⟩ := hext
    rw [hb1] at hrest
    have htr : (CreateCheckpoint env m cp data p).1.trace = m.trace ++ (calls ++
        [Call.jsonRPC m.c.cpconfig.BitcoinHost
          (createRawTransactionPayload m2.c.ptxid u.index k.newTaprootAddress
            (sprintf8f (u.value - m.c.cpconfig.Fee)) data)] ++ rest) := by
      rw [hrest]; simp [Machine.log, f4]
    rw [callsSince_append m _ _ htr]
    simp
  · intro hnone
    have hb : CreateCheckpoint_build env m2 k u data =
        .exit (m2.log (.jsonRPC m.c.cpconfig.BitcoinHost
          (createRawTransactionPayload m2.c.ptxid u.index k.newTaprootAddress
            (sprintf8f (u.value - m.c.cpconfig.Fee)) data)))
          (.error "can not create new transaction") := by
      simp only [CreateCheckpoint_build, hcfg, hnone]
    have hrun : CreateCheckpoint env m cp data p =
        (m2.log (.jsonRPC m.c.cpconfig.BitcoinHost
          (createRawTransactionPayload m2.c.ptxid u.index k.newTaprootAddress
            (sprintf8f (u.value - m.c.cpconfig.Fee)) data)),
          .error "can not create new transaction") := by
      simp only [CreateCheckpoint, CreateCheckpoint_prepare, hk, hs, hb]
    rw [hrun]
    exact ⟨rfl, hpk, htw, f3, hw⟩

/-- A run of the amended C1 statement: the node gives no reply to the request for an
output of value zero. -/
theorem CreateCheckpoint_fee_not_checked_witness :
    CreateCheckpoint_keys noReplyEnv demo [1] = .next demo demoKeys
    ∧ CreateCheckpoint_spend noReplyEnv demo demoKeys (some 0) = .next demoAfterSpend demoSpent
    ∧ Call.jsonRPC "btc"
        (createRawTransactionPayload "aa" 0 "bcrt1p020301" (sprintf8f (1000 - 1000)) [0xab])
      ∈ callsSince demo (CreateCheckpoint noReplyEnv demo [1] [0xab] (some 0)).1
    ∧ (CreateCheckpoint noReplyEnv demo [1] [0xab] (some 0)).2
        = .error "can not create new transaction" :=
  ⟨rfl, rfl,
    (CreateCheckpoint_fee_not_checked noReplyEnv demo [1] [0xab] (some 0) demoKeys
      demoAfterSpend demoSpent rfl rfl).1,
    ((CreateCheckpoint_fee_not_checked noReplyEnv demo [1] [0xab] (some 0) demoKeys
      demoAfterSpend demoSpent rfl rfl).2 rfl).1⟩

/-- C1 as stated fails: with a previous output worth exactly the fee (`v - fee = 0`)
`CreateCheckpoint` issues the `createrawtransaction` request with amount `0.00000000`,
returns no error, and moves the cursor. -/
theorem CreateCheckpoint_fee_underflow_not_rejected :
    (demoEnv.getTxOut "btc" "aa" 0).1 - demo.c.cpconfig.Fee ≤ 0
    ∧ Call.jsonRPC "btc"
        (createRawTransactionPayload "aa" 0 "bcrt1p020301" "0.00000000" [0xab])
      ∈ callsSince demo (CreateCheckpoint demoEnv demo [1] [0xab] demo.c.participants).1
    ∧ (CreateCheckpoint demoEnv demo [1] [0xab] demo.c.participants).2 = .ok
    ∧ (CreateCheckpoint demoEnv demo [1] [0xab] demo.c.participants).1.c.ptxid ≠ demo.c.ptxid
    ∧ (CreateCheckpoint demoEnv demo [1] [0xab] demo.c.participants).1.c.pubkey
        ≠ demo.c.pubkey := by
  decide

theorem readSlice_sortSlice_eq (mem : List (List String)) (p q : StrSlice) :
    readSlice (sortSlice mem p) q
      = if q = p then sortStrings (readSlice mem q) else readSlice mem q := by
  by_cases h : q = p
  · subst h; rw [if_pos rfl]; exact readSlice_sortSlice_self mem q
  · rw [if_neg h]
    cases p with
    | none => rfl
    | some a =>
      cases q with
      | none => rfl
      | some b =>
        have hab : a ≠ b := fun e => h (by rw [e])
        simp [readSlice, sortSlice, List.getD_eq_getElem?_getD, List.getElem?_set, hab]

theorem readSlice_append_nil (mem : List (List String)) (q : StrSlice) :
    readSlice (mem ++ [[]]) q = readSlice mem q := by
  cases q with
  | none => rfl
  | some a =>
    simp only [readSlice, List.getD_eq_getElem?_getD]
    by_cases h : a < mem.length
    · simp [List.getElem?_append_left h]
    · have h1 : mem.length ≤ a := Nat.le_of_not_lt h
      rw [List.getElem?_append_right h1, List.getElem?_eq_none h1]
      cases h2 : a - mem.length with
      | zero => simp
      | succ n => simp

/-- C2 (amended): when the `sendrawtransaction` request of a checkpoint attempt is
answered with an error, `CreateCheckpoint` returns an error, but the cursor is not as
before the call: the new key and tweak were registered when signing succeeded
(`pubkey = genCheckpointPublicKeyTaproot(E, cp)`,
`tweakedValue = hashTweakedValue(E, hashMerkleRoot(E, cp))`, with `E` the effective key)
and `ptxid` has been reset to the empty string.  Only the rotation of the share and of
the roster (`taprootConfig`, `newTaprootConfig`, `participants`, `newParticipants`,
`newDKGComplete`, `keysUpdated`) waits for a successful broadcast. -/
theorem CreateCheckpoint_broadcast_error (env : Env) (m : Machine) (cp data : Bytes)
    (p : StrSlice) (host rawtx : String)
    (hcall : Call.jsonRPC host (sendRawTransactionPayload rawtx)
      ∈ callsSince m (CreateCheckpoint env m cp data p).1)
    (herr : replyError (env.jsonRPC host (sendRawTransactionPayload rawtx)) ≠ .null) :
    (CreateCheckpoint env m cp data p).2 = .error "failed to broadcast transaction"
    ∧ (CreateCheckpoint env m cp data p).1.c.ptxid = ""
    ∧ (∃ cfg, m.c.taprootConfig = some cfg
        ∧ (CreateCheckpoint env m cp data p).1.c.pubkey =
            env.genCheckpointPublicKeyTaproot
              (if m.c.newDKGComplete = true then m.c.newKey else cfg.PublicKey) cp
        ∧ (CreateCheckpoint env m cp data p).1.c.tweakedValue =
            env.hashTweakedValue
              (if m.c.newDKGComplete = true then m.c.newKey else cfg.PublicKey)
              (env.hashMerkleRoot
                (if m.c.newDKGComplete = true then m.c.newKey else cfg.PublicKey) cp))
    ∧ (CreateCheckpoint env m cp data p).1.c.taprootConfig = m.c.taprootConfig
    ∧ (CreateCheckpoint env m cp data p).1.c.newTaprootConfig = m.c.newTaprootConfig
    ∧ (CreateCheckpoint env m cp data p).1.c.participants = m.c.participants
    ∧ (CreateCheckpoint env m cp data p).1.c.newParticipants = m.c.newParticipants
    ∧ (CreateCheckpoint env m cp data p).1.c.newDKGComplete = m.c.newDKGComplete
    ∧ (CreateCheckpoint env m cp data p).1.c.keysUpdated = m.c.keysUpdated
    ∧ (CreateCheckpoint env m cp data p).1.mem = sortSlice m.mem p := by
  obtain ⟨s1, s2, s3, s4, s5, s6, -⟩ := prepare_spec env m cp data p
  cases hp : CreateCheckpoint_prepare env m cp data p with
  | exit m1 out =>
    rw [prepare_machine_of_exit _ _ _ _ _ _ _ hp] at hcall
    rw [hp] at s5
    simp only [Stage.machine] at s5
    obtain ⟨ptx, idx, addr, amt, hc⟩ := s5 _ hcall rfl
    injection hc with _ hpay
    exact absurd hpay.symm (createRaw_ne_sendRaw _ _ _ _ _ _)
  | next m4 s =>
    rw [hp] at s1 s2 s5
    simp only [Stage.machine] at s1 s2 s5
    obtain ⟨hk, hmem, -⟩ := prepare_next_spec _ _ _ _ _ _ _ hp
    obtain ⟨-, hcfg, -, hpk, hshort, -⟩ := keys_next _ _ _ _ _ hk
    have hrun := prepare_machine_of_next _ _ _ _ _ _ _ hp
    have htr : (CreateCheckpoint env m cp data p).1.trace = m.trace ++ (callsSince m m4 ++
        [Call.jsonRPC m4.c.cpconfig.BitcoinHost (sendRawTransactionPayload
          (env.prepareWitnessRawTransaction s.t.rawTransaction s.r))]) := by
      rw [hrun, commit_trace, s1]; simp
    rw [callsSince_append m _ _ htr] at hcall
    rcases List.mem_append.1 hcall with hc | hc
    · obtain ⟨ptx, idx, addr, amt, hc'⟩ := s5 _ hc rfl
      injection hc' with _ hpay
      exact absurd hpay.symm (createRaw_ne_sendRaw _ _ _ _ _ _)
    · rw [List.mem_singleton] at hc
      injection hc with hhost hpay
      rw [hhost, hpay] at herr
      rw [hrun, commit_error env m4 cp s.k s.t s.r herr]
      have e1 := congrArg (fun c => c.taprootConfig) s2
      have e2 := congrArg (fun c => c.newTaprootConfig) s2
      have e3 := congrArg (fun c => c.participants) s2
      have e4 := congrArg (fun c => c.newParticipants) s2
      have e5 := congrArg (fun c => c.newDKGComplete) s2
      have e6 := congrArg (fun c => c.keysUpdated) s2
      simp only at e1 e2 e3 e4 e5 e6
      refine ⟨rfl, rfl, ⟨s.k.taprootConfig, hcfg, ?_, ?_⟩, e1, e2, e3, e4, e5, e6, hmem⟩
      · show s.k.pubkeyShort = _
        rw [hshort, hpk]
      · show env.hashTweakedValue s.k.pubkey (env.hashMerkleRoot s.k.pubkey cp) = _
        rw [hpk]

/-- A run of the amended C2 statement: the node rejects the broadcast. -/
theorem CreateCheckpoint_broadcast_error_witness :
    Call.jsonRPC "btc" (sendRawTransactionPayload "02000200e803000000000000225120")
      ∈ callsSince demo (CreateCheckpoint rejectEnv demo [1] [0xab] (some 0)).1
    ∧ replyError (rejectEnv.jsonRPC "btc"
        (sendRawTransactionPayload "02000200e803000000000000225120")) ≠ .null
    ∧ (CreateCheckpoint rejectEnv demo [1] [0xab] (some 0)).2
        = .error "failed to broadcast transaction"
    ∧ (CreateCheckpoint rejectEnv demo [1] [0xab] (some 0)).1.c.ptxid = "" :=
  ⟨by decide, by decide,
    (CreateCheckpoint_broadcast_error rejectEnv demo [1] [0xab] (some 0) "btc"
      "02000200e803000000000000225120" (by decide) (by decide)).1,
    (CreateCheckpoint_broadcast_error rejectEnv demo [1] [0xab] (some 0) "btc"
      "02000200e803000000000000225120" (by decide) (by decide)).2.1⟩

/-- C2 as stated fails: the `sendrawtransaction` call reports an error and
`CreateCheckpoint` returns an error, yet `ptxid`, `pubkey` and `tweakedValue` all
differ from their values before the call. -/
theorem CreateCheckpoint_failed_broadcast_moves_cursor :
    replyError (rejectEnv.jsonRPC "btc"
        (sendRawTransactionPayload "02000200e803000000000000225120")) ≠ .null
    ∧ Call.jsonRPC "btc" (sendRawTransactionPayload "02000200e803000000000000225120")
      ∈ callsSince demo (CreateCheckpoint rejectEnv demo [1] [0xab] demo.c.participants).1
    ∧ (CreateCheckpoint rejectEnv demo [1] [0xab] demo.c.participants).2
        = .error "failed to broadcast transaction"
    ∧ (CreateCheckpoint rejectEnv demo [1] [0xab] demo.c.participants).1.c.ptxid
        ≠ demo.c.ptxid
    ∧ (CreateCheckpoint rejectEnv demo [1] [0xab] demo.c.participants).1.c.pubkey
        ≠ demo.c.pubkey
    ∧ (CreateCheckpoint rejectEnv demo [1] [0xab] demo.c.participants).1.c.tweakedValue
        ≠ demo.c.tweakedValue := by
  decide

/-- C3 (amended): if the signing round of a checkpoint attempt yields no result,
`CreateCheckpoint` returns that error, issues no `sendrawtransaction` request, and
`pubkey`, `tweakedValue`, `taprootConfig`, `newTaprootConfig`, `newDKGComplete` and the
slices `participants` and `newParticipants` are as before the call; `ptxid` is as
before the call when it was non-empty, and otherwise is the txid that was resolved
from the wallet before signing; the participants passed in have been sorted in place. -/
theorem CreateCheckpoint_sign_aborted (env : Env) (m : Machine) (cp data : Bytes)
    (p : StrSlice) (cfg : TaprootConfig) (ids : List String) (msg tw : Bytes) (e : String)
    (hcall : Call.sign cfg ids msg tw ∈ callsSince m (CreateCheckpoint env m cp data p).1)
    (habort : env.signTaprootWithTweak cfg ids msg tw = .aborted e) :
    (CreateCheckpoint env m cp data p).2 = .error e
    ∧ (∀ host rawtx, Call.jsonRPC host (sendRawTransactionPayload rawtx)
        ∉ callsSince m (CreateCheckpoint env m cp data p).1)
    ∧ (CreateCheckpoint env m cp data p).1.c.pubkey = m.c.pubkey
    ∧ (CreateCheckpoint env m cp data p).1.c.tweakedValue = m.c.tweakedValue
    ∧ (CreateCheckpoint env m cp data p).1.c.taprootConfig = m.c.taprootConfig
    ∧ (CreateCheckpoint env m cp data p).1.c.newTaprootConfig = m.c.newTaprootConfig
    ∧ (CreateCheckpoint env m cp data p).1.c.newDKGComplete = m.c.newDKGComplete
    ∧ (CreateCheckpoint env m cp data p).1.c.participants = m.c.participants
    ∧ (CreateCheckpoint env m cp data p).1.c.newParticipants = m.c.newParticipants
    ∧ (CreateCheckpoint env m cp data p).1.mem = sortSlice m.mem p
    ∧ (m.c.ptxid ≠ "" → (CreateCheckpoint env m cp data p).1.c.ptxid = m.c.ptxid)
    ∧ (m.c.ptxid = "" → ∃ addr, env.pubkeyToTapprootAddress m.c.pubkey = .ok addr
        ∧ env.walletGetTxidFromAddress m.c.cpconfig.BitcoinHost addr
          = .ok (CreateCheckpoint env m cp data p).1.c.ptxid) := by
  obtain ⟨s1, s2, s3, s4, s5, s6, -⟩ := prepare_spec env m cp data p
  cases hp : CreateCheckpoint_prepare env m cp data p with
  | next m4 s =>
    exfalso
    rw [hp] at s1 s5 s6
    simp only [Stage.machine] at s1 s5 s6
    have hrun := prepare_machine_of_next _ _ _ _ _ _ _ hp
    have htr : (CreateCheckpoint env m cp data p).1.trace = m.trace ++ (callsSince m m4 ++
        [Call.jsonRPC m4.c.cpconfig.BitcoinHost (sendRawTransactionPayload
          (env.prepareWitnessRawTransaction s.t.rawTransaction s.r))]) := by
      rw [hrun, commit_trace, s1]; simp
    rw [callsSince_append m _ _ htr] at hcall
    rcases List.mem_append.1 hcall with hc | hc
    · have := (s6 cfg ids msg tw hc).2.2.2.2.1 m4 s rfl
      rw [habort] at this
      cases this
    · rw [List.mem_singleton] at hc
      cases hc
  | exit m1 out =>
    have hrun := prepare_machine_of_exit _ _ _ _ _ _ _ hp
    rw [hrun] at hcall ⊢
    rw [hp] at s1 s2 s3 s4 s5 s6
    simp only [Stage.machine] at s1 s2 s3 s4 s5 s6
    obtain ⟨-, -, -, hex, -, hwal⟩ := s6 cfg ids msg tw hcall
    obtain ⟨e', rfl, hab'⟩ := hex m1 _ rfl
    rw [habort] at hab'
    cases hab'
    have hmem : m1.mem = sortSlice m.mem p := by
      rcases s4 with h | h
      · exact h
      · rw [h, callsSince_self] at hcall
        cases hcall
    have e1 := congrArg (fun c => c.pubkey) s2
    have e2 := congrArg (fun c => c.tweakedValue) s2
    have e3 := congrArg (fun c => c.taprootConfig) s2
    have e4 := congrArg (fun c => c.newTaprootConfig) s2
    have e5 := congrArg (fun c => c.newDKGComplete) s2
    have e6 := congrArg (fun c => c.participants) s2
    have e7 := congrArg (fun c => c.newParticipants) s2
    simp only at e1 e2 e3 e4 e5 e6 e7
    refine ⟨rfl, ?_, e1, e2, e3, e4, e5, e6, e7, hmem, s3, hwal⟩
    intro host rawtx hc
    obtain ⟨ptx, idx, addr, amt, hc'⟩ := s5 _ hc rfl
    injection hc' with _ hpay
    exact absurd hpay.symm (createRaw_ne_sendRaw _ _ _ _ _ _)

/-- A run of the amended C3 statement: the signing round aborts. -/
theorem CreateCheckpoint_sign_aborted_witness :
    Call.sign demoConfig ["A", "B", "C"] [2, 0, 232, 3, 0, 0, 0, 0, 0, 0, 34, 81, 32] [5]
      ∈ callsSince demo (CreateCheckpoint abortEnv demo [1] [0xab] (some 0)).1
    ∧ abortEnv.signTaprootWithTweak demoConfig ["A", "B", "C"]
        [2, 0, 232, 3, 0, 0, 0, 0, 0, 0, 34, 81, 32] [5] = .aborted "abort"
    ∧ (CreateCheckpoint abortEnv demo [1] [0xab] (some 0)).2 = .error "abort"
    ∧ (CreateCheckpoint abortEnv demo [1] [0xab] (some 0)).1.c.pubkey = demo.c.pubkey :=
  ⟨by decide, rfl,
    (CreateCheckpoint_sign_aborted abortEnv demo [1] [0xab] (some 0) demoConfig
      ["A", "B", "C"] [2, 0, 232, 3, 0, 0, 0, 0, 0, 0, 34, 81, 32] [5] "abort"
      (by decide) rfl).1,
    (CreateCheckpoint_sign_aborted abortEnv demo [1] [0xab] (some 0) demoConfig
      ["A", "B", "C"] [2, 0, 232, 3, 0, 0, 0, 0, 0, 0, 34, 81, 32] [5] "abort"
      (by decide) rfl).2.2.1⟩

/-- C3 as stated fails: started without a previous txid, an attempt whose signing round
aborts returns an error and leaves `ptxid` set to the txid found in the wallet. -/
theorem CreateCheckpoint_failed_signing_sets_ptxid :
    abortEnv.signTaprootWithTweak demoConfig ["A", "B", "C"]
        [2, 0, 232, 3, 0, 0, 0, 0, 0, 0, 34, 81, 32] [5] = .aborted "abort"
    ∧ Call.sign demoConfig ["A", "B", "C"] [2, 0, 232, 3, 0, 0, 0, 0, 0, 0, 34, 81, 32] [5]
      ∈ callsSince demoNoTxid
          (CreateCheckpoint abortEnv demoNoTxid [1] [0xab] demoNoTxid.c.participants).1
    ∧ (CreateCheckpoint abortEnv demoNoTxid [1] [0xab] demoNoTxid.c.participants).2
        = .error "abort"
    ∧ demoNoTxid.c.ptxid = ""
    ∧ (CreateCheckpoint abortEnv demoNoTxid [1] [0xab] demoNoTxid.c.participants).1.c.ptxid
        = "f00d" := by
  refine ⟨rfl, by decide, by decide, by decide, by decide⟩

theorem rotate_spec (m : Machine) :
    (CreateCheckpoint_rotate m).c.ptxid = m.c.ptxid
    ∧ (CreateCheckpoint_rotate m).c.pubkey = m.c.pubkey
    ∧ (CreateCheckpoint_rotate m).c.tweakedValue = m.c.tweakedValue
    ∧ (CreateCheckpoint_rotate m).trace = m.trace
    ∧ (∀ cfg, m.c.newTaprootConfig = some cfg →
        (CreateCheckpoint_rotate m).c.taprootConfig = some cfg)
    ∧ (m.c.newTaprootConfig = none →
        (CreateCheckpoint_rotate m).c.taprootConfig = m.c.taprootConfig)
    ∧ (CreateCheckpoint_rotate m).c.newTaprootConfig = none
    ∧ (CreateCheckpoint_rotate m).c.newDKGComplete = false
    ∧ (m.c.newDKGComplete = true →
        (CreateCheckpoint_rotate m).c.participants = m.c.newParticipants
        ∧ (CreateCheckpoint_rotate m).c.newParticipants = some m.mem.length
        ∧ (CreateCheckpoint_rotate m).mem = m.mem ++ [[]])
    ∧ (m.c.newDKGComplete = false →
        (CreateCheckpoint_rotate m).c.participants = m.c.participants
        ∧ (CreateCheckpoint_rotate m).c.newParticipants = m.c.newParticipants
        ∧ (CreateCheckpoint_rotate m).mem = m.mem) := by
  cases h1 : m.c.newTaprootConfig <;> cases h2 : m.c.newDKGComplete <;>
    simp [CreateCheckpoint_rotate, h1, h2]

/-- What a successful run of `CreateCheckpoint` went through. -/
theorem CreateCheckpoint_ok (env : Env) (m : Machine) (cp data : Bytes) (p : StrSlice)
    (h : (CreateCheckpoint env m cp data p).2 = .ok) :
    ∃ m4 s newtxid,
      CreateCheckpoint_prepare env m cp data p = .next m4 s
      ∧ replyResult (env.jsonRPC m.c.cpconfig.BitcoinHost (sendRawTransactionPayload
          (env.prepareWitnessRawTransaction s.t.rawTransaction s.r))) = .str newtxid
      ∧ (CreateCheckpoint env m cp data p).1 = CreateCheckpoint_rotate
          { c := { m4.c with
              tweakedValue := env.hashTweakedValue s.k.pubkey (env.hashMerkleRoot s.k.pubkey cp)
              pubkey := s.k.pubkeyShort
              ptxid := newtxid }
            mem := sortSlice m.mem p
            trace := m.trace ++ (callsSince m m4 ++
              [Call.jsonRPC m.c.cpconfig.BitcoinHost (sendRawTransactionPayload
                (env.prepareWitnessRawTransaction s.t.rawTransaction s.r))]) }
      ∧ { m4.c with ptxid := m.c.ptxid } = m.c := by
  obtain ⟨s1, s2, -⟩ := prepare_spec env m cp data p
  cases hp : CreateCheckpoint_prepare env m cp data p with
  | exit m1 out =>
    rcases prepare_cases env m cp data p with ⟨m1', out', hp', hne, -⟩ | ⟨_, _, _, _, _, _, _, hp', -⟩
    · rw [prepare_machine_of_exit _ _ _ _ _ _ _ hp'] at h
      exact absurd h hne
    · rw [hp] at hp'; cases hp'
  | next m4 s =>
    rw [hp] at s1 s2
    simp only [Stage.machine] at s1 s2
    obtain ⟨-, hmem, -⟩ := prepare_next_spec _ _ _ _ _ _ _ hp
    have hrun := prepare_machine_of_next _ _ _ _ _ _ _ hp
    rw [hrun] at h ⊢
    obtain ⟨newtxid, hres, -, hm⟩ := commit_ok env m4 cp s.k s.t s.r h
    have hhost : m4.c.cpconfig.BitcoinHost = m.c.cpconfig.BitcoinHost := by
      have := congrArg (fun c => c.cpconfig.BitcoinHost) s2
      simpa using this
    rw [hhost] at hres hm
    refine ⟨m4, s, newtxid, rfl, hres, ?_, s2⟩
    rw [hm, hmem, s1, List.append_assoc]

/-- C4 (amended): rotation on success.  When the broadcast of `CreateCheckpoint`
succeeds with result txid `T`, afterwards `ptxid = T`; if `newTaprootConfig` was
present then `taprootConfig` equals that value and `newTaprootConfig` is absent,
otherwise `taprootConfig` is unchanged; if `newDKGComplete` was set then `participants`
is the former `newParticipants`, `newParticipants` is empty and `newDKGComplete` is
false, otherwise the fields `participants` and `newParticipants` are not reassigned.
The rosters are read after the in-place sort of the participants passed in: a roster
that is the slice passed in reads in sorted order, any other roster reads as before. -/
theorem CreateCheckpoint_rotation (env : Env) (m : Machine) (cp data : Bytes) (p : StrSlice)
    (h : (CreateCheckpoint env m cp data p).2 = .ok) :
    ∃ rawtx T,
      Call.jsonRPC m.c.cpconfig.BitcoinHost (sendRawTransactionPayload rawtx)
        ∈ callsSince m (CreateCheckpoint env m cp data p).1
      ∧ replyResult (env.jsonRPC m.c.cpconfig.BitcoinHost (sendRawTransactionPayload rawtx))
          = .str T
      ∧ (CreateCheckpoint env m cp data p).1.c.ptxid = T
      ∧ (∀ cfg, m.c.newTaprootConfig = some cfg →
          (CreateCheckpoint env m cp data p).1.c.taprootConfig = some cfg)
      ∧ (m.c.newTaprootConfig = none →
          (CreateCheckpoint env m cp data p).1.c.taprootConfig = m.c.taprootConfig)
      ∧ (CreateCheckpoint env m cp data p).1.c.newTaprootConfig = none
      ∧ (CreateCheckpoint env m cp data p).1.c.newDKGComplete = false
      ∧ (m.c.newDKGComplete = true →
          (CreateCheckpoint env m cp data p).1.read
              (CreateCheckpoint env m cp data p).1.c.participants
            = (if m.c.newParticipants = p then sortStrings (m.read m.c.newParticipants)
                else m.read m.c.newParticipants)
          ∧ (CreateCheckpoint env m cp data p).1.read
              (CreateCheckpoint env m cp data p).1.c.newParticipants = [])
      ∧ (m.c.newDKGComplete = false →
          (CreateCheckpoint env m cp data p).1.c.participants = m.c.participants
          ∧ (CreateCheckpoint env m cp data p).1.c.newParticipants = m.c.newParticipants
          ∧ ∀ q, (CreateCheckpoint env m cp data p).1.read q
              = (if q = p then sortStrings (m.read q) else m.read q)) := by
  obtain ⟨m4, s, T, -, hres, hm, hc⟩ := CreateCheckpoint_ok env m cp data p h
  have e1 := congrArg (fun c => c.newTaprootConfig) hc
  have e2 := congrArg (fun c => c.taprootConfig) hc
  have e3 := congrArg (fun c => c.newDKGComplete) hc
  have e4 := congrArg (fun c => c.participants) hc
  have e5 := congrArg (fun c => c.newParticipants) hc
  simp only at e1 e2 e3 e4 e5
  obtain ⟨r1, -, -, r4, r5, r6, r7, r8, r9, r10⟩ := rotate_spec
    { c := { m4.c with
        tweakedValue := env.hashTweakedValue s.k.pubkey (env.hashMerkleRoot s.k.pubkey cp)
        pubkey := s.k.pubkeyShort
        ptxid := T }
      mem := sortSlice m.mem p
      trace := m.trace ++ (callsSince m m4 ++
        [Call.jsonRPC m.c.cpconfig.BitcoinHost (sendRawTransactionPayload
          (env.prepareWitnessRawTransaction s.t.rawTransaction s.r))]) }
  rw [← hm] at r1 r4 r5 r6 r7 r8 r9 r10
  simp only at r1 r4 r5 r6 r7 r8 r9 r10
  refine ⟨env.prepareWitnessRawTransaction s.t.rawTransaction s.r, T, ?_, hres, r1, ?_, ?_,
    r7, r8, ?_, ?_⟩
  · rw [callsSince_append m _ _ r4]
    simp
  · intro cfg hcfg
    exact r5 cfg (by rw [e1]; exact hcfg)
  · intro hnone
    rw [r6 (by rw [e1]; exact hnone), e2]
  · intro hd
    obtain ⟨a1, a2, a3⟩ := r9 (by rw [e3]; exact hd)
    constructor
    · rw [Machine.read, a1, a3, readSlice_append_nil, e5, readSlice_sortSlice_eq]
      rfl
    · rw [Machine.read, a2, a3, readSlice_append_new]
  · intro hd
    obtain ⟨a1, a2, a3⟩ := r10 (by rw [e3]; exact hd)
    refine ⟨by rw [a1, e4], by rw [a2, e5], fun q => ?_⟩
    rw [Machine.read, a3, readSlice_sortSlice_eq]
    rfl

/-- A run of the amended C4 statement: a successful checkpoint. -/
theorem CreateCheckpoint_rotation_witness :
    (CreateCheckpoint demoEnv demo [1] [0xab] (some 0)).2 = .ok
    ∧ ∃ rawtx T,
      Call.jsonRPC "btc" (sendRawTransactionPayload rawtx)
        ∈ callsSince demo (CreateCheckpoint demoEnv demo [1] [0xab] (some 0)).1
      ∧ replyResult (demoEnv.jsonRPC "btc" (sendRawTransactionPayload rawtx)) = .str T
      ∧ (CreateCheckpoint demoEnv demo [1] [0xab] (some 0)).1.c.ptxid = T :=
  ⟨by decide,
    match CreateCheckpoint_rotation demoEnv demo [1] [0xab] (some 0) (by decide) with
    | ⟨rawtx, T, h1, h2, h3, _⟩ => ⟨rawtx, T, h1, h2, h3⟩⟩

/-- C4 as stated fails: in a successful run with `newDKGComplete` not set, the roster
`participants` is not as before the call; `triggerChange` passes `c.participants` itself
and `CreateCheckpoint` sorts it in place. -/
theorem CreateCheckpoint_sorts_participants :
    (CreateCheckpoint demoEnv demo [1] [0xab] demo.c.participants).2 = .ok
    ∧ demo.c.newDKGComplete = false
    ∧ demo.read demo.c.participants = ["C", "A", "B"]
    ∧ (CreateCheckpoint demoEnv demo [1] [0xab] demo.c.participants).1.read
        (CreateCheckpoint demoEnv demo [1] [0xab] demo.c.participants).1.c.participants
      = ["A", "B", "C"] := by
  decide

/-- C6: effective key and committed output key.  For every successful
`CreateCheckpoint(cp, …)`, with `E = newKey` if `newDKGComplete` was set on entry and
`E = taprootConfig.PublicKey` otherwise, the address paid by the `createrawtransaction`
request is `pubkeyToTapprootAddress(genCheckpointPublicKeyTaproot(E, cp))`, and after the
call `pubkey = genCheckpointPublicKeyTaproot(E, cp)` and
`tweakedValue = hashTweakedValue(E, hashMerkleRoot(E, cp))`. -/
theorem CreateCheckpoint_effective_key (env : Env) (m : Machine) (cp data : Bytes)
    (p : StrSlice) (h : (CreateCheckpoint env m cp data p).2 = .ok) :
    ∃ cfg addr,
      m.c.taprootConfig = some cfg
      ∧ env.pubkeyToTapprootAddress (env.genCheckpointPublicKeyTaproot
          (if m.c.newDKGComplete = true then m.c.newKey else cfg.PublicKey) cp) = .ok addr
      ∧ (∃ ptx idx amt, Call.jsonRPC m.c.cpconfig.BitcoinHost
            (createRawTransactionPayload ptx idx addr amt data)
          ∈ callsSince m (CreateCheckpoint env m cp data p).1)
      ∧ (CreateCheckpoint env m cp data p).1.c.pubkey =
          env.genCheckpointPublicKeyTaproot
            (if m.c.newDKGComplete = true then m.c.newKey else cfg.PublicKey) cp
      ∧ (CreateCheckpoint env m cp data p).1.c.tweakedValue =
          env.hashTweakedValue
            (if m.c.newDKGComplete = true then m.c.newKey else cfg.PublicKey)
            (env.hashMerkleRoot
              (if m.c.newDKGComplete = true then m.c.newKey else cfg.PublicKey) cp) := by
  obtain ⟨m4, s, T, hp, -, hm, -⟩ := CreateCheckpoint_ok env m cp data p h
  obtain ⟨hk, -, m2, -, -, hcall⟩ := prepare_next_spec _ _ _ _ _ _ _ hp
  obtain ⟨-, hcfg, -, hpk, hshort, haddr, -⟩ := keys_next _ _ _ _ _ hk
  obtain ⟨-, r2, r3, r4, -⟩ := rotate_spec
    { c := { m4.c with
        tweakedValue := env.hashTweakedValue s.k.pubkey (env.hashMerkleRoot s.k.pubkey cp)
        pubkey := s.k.pubkeyShort
        ptxid := T }
      mem := sortSlice m.mem p
      trace := m.trace ++ (callsSince m m4 ++
        [Call.jsonRPC m.c.cpconfig.BitcoinHost (sendRawTransactionPayload
          (env.prepareWitnessRawTransaction s.t.rawTransaction s.r))]) }
  rw [← hm] at r2 r3 r4
  simp only at r2 r3 r4
  refine ⟨s.k.taprootConfig, s.k.newTaprootAddress, hcfg, ?_,
    ⟨m2.c.ptxid, s.u.index, sprintf8f (s.u.value - m.c.cpconfig.Fee), ?_⟩, ?_, ?_⟩
  · rw [← hpk, ← hshort]; exact haddr
  · rw [callsSince_append m _ _ r4]
    exact List.mem_append_left _ hcall
  · rw [r2, hshort, hpk]
  · rw [r3, hpk]

/-- A run of C6: a successful checkpoint of `demo` with payload `[1]`. -/
theorem CreateCheckpoint_effective_key_witness :
    (CreateCheckpoint demoEnv demo [1] [0xab] (some 0)).2 = .ok
    ∧ ∃ cfg addr,
      demo.c.taprootConfig = some cfg
      ∧ demoEnv.pubkeyToTapprootAddress (demoEnv.genCheckpointPublicKeyTaproot
          (if demo.c.newDKGComplete = true then demo.c.newKey else cfg.PublicKey) [1])
        = .ok addr
      ∧ (CreateCheckpoint demoEnv demo [1] [0xab] (some 0)).1.c.pubkey =
          demoEnv.genCheckpointPublicKeyTaproot
            (if demo.c.newDKGComplete = true then demo.c.newKey else cfg.PublicKey) [1] :=
  ⟨by decide,
    match CreateCheckpoint_effective_key demoEnv demo [1] [0xab] (some 0) (by decide) with
    | ⟨cfg, addr, h1, h2, _, h4, _⟩ => ⟨cfg, addr, h1, h2, h4⟩⟩

/-! ## Key generation, the watcher and the handler -/

theorem extends_of_append (P : Call → Prop) (m m1 : Machine) (calls : List Call)
    (h : m1.trace = m.trace ++ calls) (hP : ∀ c ∈ calls, P c) : Extends P m m1 := by
  unfold Extends
  rw [callsSince_append m m1 calls h]
  exact ⟨h, hP⟩

theorem extends_trans (P : Call → Prop) (m m1 m2 : Machine)
    (h : Extends P m m1) (h2 : Extends P m1 m2) : Extends P m m2 := by
  obtain ⟨e1, p1⟩ := h
  obtain ⟨e2, p2⟩ := h2
  refine extends_of_append P m m2 (callsSince m m1 ++ callsSince m1 m2)
    (by rw [e2, e1, List.append_assoc]) ?_
  intro x hx
  rcases List.mem_append.1 hx with hx | hx
  · exact p1 x hx
  · exact p2 x hx

theorem extends_mono (P Q : Call → Prop) (m m1 : Machine) (hPQ : ∀ c, P c → Q c)
    (h : Extends P m m1) : Extends Q m m1 :=
  ⟨h.1, fun c hc => hPQ c (h.2 c hc)⟩

theorem callsSince_trans (P Q : Call → Prop) (m m1 m2 : Machine)
    (h : Extends P m m1) (h2 : Extends Q m1 m2) :
    callsSince m m2 = callsSince m m1 ++ callsSince m1 m2 := by
  apply callsSince_append
  rw [h2.1, h.1, List.append_assoc]

theorem GenerateNewKeys_frame (env : Env) (m : Machine) (p : StrSlice) :
    (GenerateNewKeys env m p).1.mem = sortSlice m.mem p
    ∧ (GenerateNewKeys env m p).1.c.participants = m.c.participants
    ∧ (GenerateNewKeys env m p).1.c.taprootConfig = m.c.taprootConfig
    ∧ Extends (fun c => c.isDKG = true) m (GenerateNewKeys env m p).1 := by
  simp only [GenerateNewKeys]
  repeat' split
  all_goals refine ⟨rfl, rfl, rfl, ?_⟩
  all_goals simp [Extends, callsSince, Machine.log, Call.isDKG]

theorem call_class (c : Call)
    (h : c.isQuery = true ∨ c.isJsonRPC = true ∨ c.isSign = true) :
    c.isCheckpointStart = false ∧ c.isDKG = false := by
  cases c <;>
    simp [Call.isQuery, Call.isJsonRPC, Call.isSign, Call.isCheckpointStart, Call.isDKG] at h ⊢

/-- Every signing round of `CreateCheckpoint` is run by the participants passed in, in
sorted order; the run only adds calls to the record. -/
theorem CreateCheckpoint_extends (env : Env) (m : Machine) (cp data : Bytes) (p : StrSlice) :
    Extends (fun c => c.isCheckpointStart = false ∧ c.isDKG = false
        ∧ ∀ cfg ids msg tw, c = .sign cfg ids msg tw →
          ids = formIDSlice (readSlice (sortSlice m.mem p) p))
      m (CreateCheckpoint env m cp data p).1 := by
  obtain ⟨s1, -, -, -, -, s6, s7⟩ := prepare_spec env m cp data p
  have hprep : ∀ c ∈ callsSince m (CreateCheckpoint_prepare env m cp data p).machine,
      c.isCheckpointStart = false ∧ c.isDKG = false
        ∧ ∀ cfg ids msg tw, c = .sign cfg ids msg tw →
          ids = formIDSlice (readSlice (sortSlice m.mem p) p) := by
    intro c hc
    refine ⟨(call_class c (s7 c hc)).1, (call_class c (s7 c hc)).2, ?_⟩
    · intro cfg ids msg tw hcs
      rw [hcs] at hc
      exact (s6 cfg ids msg tw hc).2.1
  cases hp : CreateCheckpoint_prepare env m cp data p with
  | exit m1 out =>
    rw [prepare_machine_of_exit _ _ _ _ _ _ _ hp]
    rw [hp] at s1 hprep
    exact ⟨s1, hprep⟩
  | next m4 s =>
    rw [hp] at s1 hprep
    simp only [Stage.machine] at s1 hprep
    rw [prepare_machine_of_next _ _ _ _ _ _ _ hp]
    refine extends_of_append _ m _ (callsSince m m4 ++ [Call.jsonRPC m4.c.cpconfig.BitcoinHost
      (sendRawTransactionPayload (env.prepareWitnessRawTransaction s.t.rawTransaction s.r))])
      (by rw [commit_trace, s1, List.append_assoc]) ?_
    intro c hc
    rcases List.mem_append.1 hc with hc | hc
    · exact hprep c hc
    · rw [List.mem_singleton.1 hc]
      exact ⟨rfl, rfl, fun _ _ _ _ h => by cases h⟩

theorem triggerChange_keys_frame (env : Env) (m : Machine) (diff : diffInfo) :
    (triggerChange_keys env m diff).1.c.participants = m.c.participants
    ∧ (triggerChange_keys env m diff).1.c.taprootConfig = m.c.taprootConfig
    ∧ ((triggerChange_keys env m diff).1.mem = m.mem
        ∨ (triggerChange_keys env m diff).1.mem = sortSlice m.mem diff.newMiners)
    ∧ Extends (fun c => c.isSign = false ∧ c.isCheckpointStart = false)
        m (triggerChange_keys env m diff).1 := by
  unfold triggerChange_keys
  split
  · obtain ⟨g1, g2, g3, g4⟩ := GenerateNewKeys_frame env
      (m.log (.GenerateNewKeys (m.read diff.newMiners))) diff.newMiners
    refine ⟨g2, g3, Or.inr g1, ?_⟩
    refine extends_trans _ m (m.log (.GenerateNewKeys (m.read diff.newMiners))) _ ?_ ?_
    · exact extends_of_append _ _ _ [_] rfl (by simp [Call.isSign, Call.isCheckpointStart])
    · refine extends_mono _ _ _ _ ?_ g4
      intro c hc
      cases c <;> simp_all [Call.isDKG, Call.isSign, Call.isCheckpointStart]
  · exact ⟨rfl, rfl, Or.inl rfl, extends_of_append _ _ _ [] (by simp) (by simp)⟩

/-- The signing round started by `triggerChange` is run by the current roster
`c.participants`, in sorted order. -/
theorem triggerChange_sign_ids (env : Env) (m : Machine) (diff : diffInfo)
    (cfg : TaprootConfig) (ids : List String) (msg tw : Bytes)
    (h : Call.sign cfg ids msg tw ∈ callsSince m (triggerChange env m diff).1) :
    ids = sortStrings (m.read m.c.participants) := by
  obtain ⟨k1, -, k3, k4⟩ := triggerChange_keys_frame env m diff
  unfold triggerChange at h
  simp only at h
  split at h
  · have := (k4.2 _ h).1
    simp [Call.isSign] at this
  · split at h
    · rename_i cp hash hcp hhash
      have hx := CreateCheckpoint_extends env
        ((triggerChange_keys env m diff).1.log (.CreateCheckpoint cp hash
          ((triggerChange_keys env m diff).1.read (triggerChange_keys env m diff).1.c.participants)))
        cp hash (triggerChange_keys env m diff).1.c.participants
      have hlog : Extends (fun c => c.isSign = false ∧ c.isCheckpointStart = true)
          (triggerChange_keys env m diff).1
          ((triggerChange_keys env m diff).1.log (.CreateCheckpoint cp hash
            ((triggerChange_keys env m diff).1.read
              (triggerChange_keys env m diff).1.c.participants))) :=
        extends_of_append _ _ _ [_] rfl (by simp [Call.isSign, Call.isCheckpointStart])
      rw [callsSince_trans _ _ m _ _ (extends_trans _ _ _ _
        (extends_mono _ (fun c => c.isSign = false) _ _ (fun c hc => hc.1) k4)
        (extends_mono _ (fun c => c.isSign = false) _ _ (fun c hc => hc.1) hlog)) hx] at h
      rcases List.mem_append.1 h with h | h
      · have := (extends_trans _ _ _ _
          (extends_mono _ (fun c => c.isSign = false) _ _ (fun c hc => hc.1) k4)
          (extends_mono _ (fun c => c.isSign = false) _ _ (fun c hc => hc.1) hlog)).2 _ h
        simp [Call.isSign] at this
      · have hids := (hx.2 _ h).2.2 cfg ids msg tw rfl
        rw [hids, k1]
        simp only [formIDSlice, Machine.log, Machine.read]
        rw [readSlice_sortSlice_self, sortStrings_idem]
        rcases k3 with e | e
        · rw [e]
        · rw [e, sortStrings_readSlice_sortSlice]
    · have := (k4.2 _ h).1
      simp [Call.isSign] at this

/-- The checkpoint operation is started by `triggerChange` only for a diff that
carries both a payload and a roster hash. -/
theorem triggerChange_starts_checkpoint (env : Env) (m : Machine) (diff : diffInfo)
    (cp data : Bytes) (ps : List String)
    (h : Call.CreateCheckpoint cp data ps ∈ callsSince m (triggerChange env m diff).1) :
    diff.cp ≠ none ∧ diff.hash ≠ none := by
  obtain ⟨-, -, -, k4⟩ := triggerChange_keys_frame env m diff
  unfold triggerChange at h
  simp only at h
  split at h
  · have := (k4.2 _ h).2
    simp [Call.isCheckpointStart] at this
  · split at h
    · rename_i cp' hash hcp hhash
      rw [hcp, hhash]
      simp
    · have := (k4.2 _ h).2
      simp [Call.isCheckpointStart] at this

/-! ## The roster blob and the watcher -/

theorem foldl_append_string (l : List String) (acc : String) :
    l.foldl (fun r s => r ++ s) acc = acc ++ l.foldl (fun r s => r ++ s) "" := by
  induction l generalizing acc with
  | nil => simp
  | cons x xs ih =>
    simp only [List.foldl_cons, String.empty_append]
    rw [ih (acc ++ x), ih x, String.append_assoc]

theorem string_join_cons (x : String) (xs : List String) :
    String.join (x :: xs) = x ++ String.join xs := by
  simp only [String.join, List.foldl_cons, String.empty_append]
  exact foldl_append_string xs x

theorem minersConfig_fold (miners : List String) (acc : String) :
    miners.foldl (fun acc partyId => acc ++ (partyId ++ "\n")) acc
      = acc ++ String.join (miners.map (fun partyId => partyId ++ "\n")) := by
  induction miners generalizing acc with
  | nil => simp [String.join]
  | cons x xs ih =>
    simp only [List.foldl_cons, List.map_cons]
    rw [ih, string_join_cons, String.append_assoc]

theorem minersConfig_eq (cp : Bytes) (miners : List String) :
    minersConfig cp miners
      = hexEncodeToString cp ++ "\n" ++ String.join (miners.map (fun partyId => partyId ++ "\n")) :=
  minersConfig_fold miners _

theorem matchNewConfig_frame (env : Env) (m : Machine) (oldTs newTs : TipSet)
    (oldSt newSt : MpowerState) (diff : diffInfo) :
    (matchNewConfig env m oldTs newTs oldSt newSt diff).1.trace = m.trace
    ∧ (matchNewConfig env m oldTs newTs oldSt newSt diff).1.mem = m.mem
    ∧ (matchNewConfig env m oldTs newTs oldSt newSt diff).1.c.taprootConfig = m.c.taprootConfig
    ∧ (matchNewConfig env m oldTs newTs oldSt newSt diff).1.c.newTaprootConfig
        = m.c.newTaprootConfig
    ∧ (matchNewConfig env m oldTs newTs oldSt newSt diff).2.1.cp = diff.cp
    ∧ (matchNewConfig env m oldTs newTs oldSt newSt diff).2.1.hash = diff.hash
    ∧ (matchNewConfig env m oldTs newTs oldSt newSt diff).2.2.2 = .ok := by
  simp only [matchNewConfig]
  repeat' split
  all_goals exact ⟨rfl, rfl, rfl, rfl, rfl, rfl, rfl⟩

theorem matchCheckpoint_cp (env : Env) (m : Machine) (oldTs newTs : TipSet)
    (oldSt newSt : MpowerState) (diff : diffInfo) (h : diff.cp = none) :
    ((matchCheckpoint env m oldTs newTs oldSt newSt diff).2.1.cp ≠ none ↔
      (newTs.height.tmod checkpointFrequency = 0 ∧ 0 < (m.read oldSt.Miners).length
        ∧ (m.c.taprootConfig ≠ none ∨ m.c.newTaprootConfig ≠ none)))
    ∧ ((matchCheckpoint env m oldTs newTs oldSt newSt diff).2.1.cp ≠ none →
        (matchCheckpoint env m oldTs newTs oldSt newSt diff).2.1.cp = some oldTs.key) := by
  simp only [matchCheckpoint]
  split
  · rename_i hc
    repeat' split
    all_goals simp [hc]
  · rename_i hc
    simp [h, hc]

theorem matchCheckpoint_blob (env : Env) (m : Machine) (oldTs newTs : TipSet)
    (oldSt newSt : MpowerState) (diff : diffInfo) :
    Extends (fun c => (∀ blob, c = .CreateMinersConfig blob →
          blob = minersConfig oldTs.key (m.read newSt.Miners))
        ∧ c.isSign = false ∧ c.isCheckpointStart = false)
      m (matchCheckpoint env m oldTs newTs oldSt newSt diff).1 := by
  simp only [matchCheckpoint]
  repeat' split
  all_goals simp [Extends, callsSince, Machine.log, Call.isSign, Call.isCheckpointStart]

theorem readSlice_append_two_fst (mem : List (List String)) (a b : List String) :
    readSlice (mem ++ [a] ++ [b]) (some mem.length) = a := by
  have h : mem.length < (mem ++ [a]).length := by simp
  simp only [readSlice, List.getD_eq_getElem?_getD]
  rw [List.getElem?_append_left h]
  simp

theorem synced_frame (env : Env) (m m1 : Machine) (newTs : TipSet) (u : Unit)
    (h : listenCheckpointEvents_synced env m newTs = .next m1 u) :
    m1.trace = m.trace ∧ m1.mem = m.mem ∧ m1.c.taprootConfig = m.c.taprootConfig
    ∧ m1.c.newTaprootConfig = m.c.newTaprootConfig := by
  simp only [listenCheckpointEvents_synced] at h
  repeat' split at h
  all_goals first | (cases h; exact ⟨rfl, rfl, rfl, rfl⟩) | cases h

theorem synced_exit (env : Env) (m m1 : Machine) (newTs : TipSet) (out : Outcome)
    (h : listenCheckpointEvents_synced env m newTs = .exit m1 out) : m1 = m := by
  simp only [listenCheckpointEvents_synced] at h
  repeat' split at h
  all_goals first | (cases h; rfl) | cases h

theorem states_next (env : Env) (m m1 : Machine) (oldTs newTs : TipSet)
    (oldSt newSt : MpowerState)
    (h : listenCheckpointEvents_states env m oldTs newTs = .next m1 (oldSt, newSt)) :
    m1.trace = m.trace ∧ m1.c = m.c
    ∧ ∃ oldAct newAct oldData newData,
        env.StateGetActor oldTs.key = .ok oldAct ∧ env.StateGetActor newTs.key = .ok newAct
        ∧ env.cstGet oldAct = .ok oldData ∧ env.cstGet newAct = .ok newData
        ∧ m1.read oldSt.Miners = oldData.Miners ∧ m1.read newSt.Miners = newData.Miners := by
  simp only [listenCheckpointEvents_states] at h
  repeat' split at h
  all_goals first
    | (cases h; done)
    | (cases h
       exact ⟨rfl, rfl, _, _, _, _, ‹_›, ‹_›, ‹_›, ‹_›, readSlice_append_two_fst _ _ _,
         readSlice_append_new _ _⟩)

/-- When `match` hands over a diff, that diff and the machine are those left by
`matchCheckpoint`, run on the two decoded actor states with a diff whose payload and
hash are still unset. -/
theorem match_states (env : Env) (m : Machine) (oldTs newTs : TipSet) (d : diffInfo)
    (h : (listenCheckpointEvents_match env m oldTs newTs).states = some d) :
    ∃ m2 oldSt newSt diff1 oldAct newAct oldData newData,
      env.StateGetActor oldTs.key = .ok oldAct ∧ env.StateGetActor newTs.key = .ok newAct
      ∧ env.cstGet oldAct = .ok oldData ∧ env.cstGet newAct = .ok newData
      ∧ m2.read oldSt.Miners = oldData.Miners ∧ m2.read newSt.Miners = newData.Miners
      ∧ m2.trace = m.trace
      ∧ m2.c.taprootConfig = m.c.taprootConfig
      ∧ m2.c.newTaprootConfig = m.c.newTaprootConfig
      ∧ diff1.cp = none ∧ diff1.hash = none
      ∧ (listenCheckpointEvents_match env m oldTs newTs).m
          = (matchCheckpoint env m2 oldTs newTs oldSt newSt diff1).1
      ∧ d = (matchCheckpoint env m2 oldTs newTs oldSt newSt diff1).2.1 := by
  cases hg : listenCheckpointEvents_synced env m newTs with
  | exit m1 out =>
    simp only [listenCheckpointEvents_match, hg] at h
    cases h
  | next m1 u =>
    obtain ⟨g1, g2, g3, g4⟩ := synced_frame _ _ _ _ _ hg
    cases hs : listenCheckpointEvents_states env m1 oldTs newTs with
    | exit m2 out =>
      simp only [listenCheckpointEvents_match, hg, hs] at h
      cases h
    | next m2 pr =>
      obtain ⟨oldSt, newSt⟩ := pr
      obtain ⟨t1, t2, oldAct, newAct, oldData, newData, a1, a2, a3, a4, a5, a6⟩ :=
        states_next _ _ _ _ _ _ _ hs
      obtain ⟨n1, n2, n3, n4, n5, n6, n7⟩ :=
        matchNewConfig_frame env m2 oldTs newTs oldSt newSt diffInfo.empty
      simp only [listenCheckpointEvents_match, hg, hs] at h ⊢
      rw [if_neg (by rw [n7]; simp)] at h ⊢
      refine ⟨(matchNewConfig env m2 oldTs newTs oldSt newSt diffInfo.empty).1, oldSt, newSt,
        (matchNewConfig env m2 oldTs newTs oldSt newSt diffInfo.empty).2.1,
        oldAct, newAct, oldData, newData, a1, a2, a3, a4, ?_, ?_, ?_, ?_, ?_, ?_, ?_, ?_, ?_⟩
      · rw [Machine.read, n2]; exact a5
      · rw [Machine.read, n2]; exact a6
      · rw [n1, t1, g1]
      · rw [n3, t2, g3]
      · rw [n4, t2, g4]
      · rw [n5]; rfl
      · rw [n6]; rfl
      · split <;> rfl
      · split at h <;> cases h <;> rfl

/-! ## The claims on the watcher and the handler -/

/-- C5: cadence.  The period is 15.  For a diff whose payload is not yet set,
`matchCheckpoint` puts a payload in the diff if and only if
`newTs.Height() % checkpointFrequency == 0`, the old miner list is non-empty and a share
(`taprootConfig` or `newTaprootConfig`) is present; the payload is then
`oldTs.Key().Bytes()`.  Hence, whatever the state in which it runs, `triggerChange`
starts `CreateCheckpoint` on a diff handed over by `match` only if the new height is a
multiple of the period, the old roster read from the actor is non-empty and a share is
present. -/
theorem matchCheckpoint_cadence (env : Env) (m : Machine) (oldTs newTs : TipSet)
    (oldSt newSt : MpowerState) (diff : diffInfo) :
    checkpointFrequency = 15
    ∧ ((matchCheckpoint env m oldTs newTs oldSt newSt { diff with cp := none }).2.1.cp ≠ none ↔
        (newTs.height.tmod checkpointFrequency = 0 ∧ 0 < (m.read oldSt.Miners).length
          ∧ (m.c.taprootConfig ≠ none ∨ m.c.newTaprootConfig ≠ none)))
    ∧ ((matchCheckpoint env m oldTs newTs oldSt newSt { diff with cp := none }).2.1.cp ≠ none →
        (matchCheckpoint env m oldTs newTs oldSt newSt { diff with cp := none }).2.1.cp
          = some oldTs.key)
    ∧ (∀ d, (listenCheckpointEvents_match env m oldTs newTs).states = some d →
        (d.cp ≠ none → d.cp = some oldTs.key)
        ∧ ∀ (env' : Env) (m' : Machine) (cp data : Bytes) (ps : List String),
          Call.CreateCheckpoint cp data ps ∈ callsSince m' (triggerChange env' m' d).1 →
            newTs.height.tmod 15 = 0
            ∧ (∃ oldAct oldData, env.StateGetActor oldTs.key = .ok oldAct
                ∧ env.cstGet oldAct = .ok oldData ∧ oldData.Miners ≠ [])
            ∧ (m.c.taprootConfig ≠ none ∨ m.c.newTaprootConfig ≠ none)) := by
  refine ⟨rfl, (matchCheckpoint_cp env m oldTs newTs oldSt newSt _ rfl).1,
    (matchCheckpoint_cp env m oldTs newTs oldSt newSt _ rfl).2, ?_⟩
  intro d hd
  obtain ⟨m2, oldSt', newSt', diff1, oldAct, newAct, oldData, newData, a1, -, a3, -, a5, -, -,
    a8, a9, a10, -, -, hdd⟩ := match_states env m oldTs newTs d hd
  obtain ⟨c1, c2⟩ := matchCheckpoint_cp env m2 oldTs newTs oldSt' newSt' diff1 a10
  rw [← hdd] at c1 c2
  refine ⟨c2, ?_⟩
  intro env' m' cp data ps hcall
  obtain ⟨hcp, -⟩ := triggerChange_starts_checkpoint env' m' d cp data ps hcall
  obtain ⟨h1, h2, h3⟩ := c1.1 hcp
  rw [a5] at h2
  rw [a8, a9] at h3
  refine ⟨h1, ⟨oldAct, oldData, a1, a3, ?_⟩, h3⟩
  intro he
  rw [he] at h2
  simp at h2

/-- C7 (amended): signer selection.  For every diff consumed by `triggerChange`, the
participant set handed to the signing round is the lexicographically sorted current
roster (`participants`), whether or not the new roster (`newParticipants`) is empty. -/
theorem triggerChange_signers (env : Env) (m : Machine) (diff : diffInfo)
    (cfg : TaprootConfig) (ids : List String) (msg tw : Bytes)
    (h : Call.sign cfg ids msg tw ∈ callsSince m (triggerChange env m diff).1) :
    ids = sortStrings (m.read m.c.participants) :=
  triggerChange_sign_ids env m diff cfg ids msg tw h

/-- A run of the amended C7 statement: the roster `C, A, B` signs as `A, B, C`. -/
theorem triggerChange_signers_witness :
    Call.sign demoConfig ["A", "B", "C"] [2, 0, 232, 3, 0, 0, 0, 0, 0, 0, 34, 81, 32] [5]
      ∈ callsSince demo (triggerChange demoEnv demo checkpointDiff).1
    ∧ ["A", "B", "C"] = sortStrings (demo.read demo.c.participants) :=
  ⟨by decide,
    triggerChange_signers demoEnv demo checkpointDiff demoConfig ["A", "B", "C"]
      [2, 0, 232, 3, 0, 0, 0, 0, 0, 0, 34, 81, 32] [5] (by decide)⟩

/-- C7 as stated fails: after `match` has seen the roster change to `A, B, D`, the new
roster `newParticipants` is non-empty, and the signing round of the checkpoint that
`triggerChange` starts for that diff is run by `A, B, C`, the sorted current roster. -/
theorem triggerChange_signs_with_current_roster :
    (listenCheckpointEvents_match demoEnv demo ts29 ts30).states = some demoDiff
    ∧ demoAfterMatch.read demoAfterMatch.c.newParticipants = ["A", "B", "D"]
    ∧ Call.sign demoConfig ["A", "B", "C"] [2, 0, 232, 3, 0, 0, 0, 0, 0, 0, 34, 81, 32] [5]
      ∈ callsSince demoAfterMatch (triggerChange demoEnv demoAfterMatch demoDiff).1
    ∧ ["A", "B", "C"] ≠ sortStrings ["A", "B", "D"] := by
  decide

/-- C8 (amended): the roster blob and the signers of one checkpoint attempt.  For a diff
handed over by `match`, the identifiers written into the roster blob are the miner list of
the new actor state, in the order the actor stores it, whereas the signing round that
`triggerChange` starts for that diff is run by the sorted current roster
(`participants`). -/
theorem roster_blob_and_signers (env env' : Env) (m : Machine) (oldTs newTs : TipSet)
    (d : diffInfo) (h : (listenCheckpointEvents_match env m oldTs newTs).states = some d) :
    (∀ blob, Call.CreateMinersConfig blob
        ∈ callsSince m (listenCheckpointEvents_match env m oldTs newTs).m →
      ∃ newAct newData, env.StateGetActor newTs.key = .ok newAct
        ∧ env.cstGet newAct = .ok newData
        ∧ blob = minersConfig oldTs.key newData.Miners)
    ∧ (∀ cfg ids msg tw, Call.sign cfg ids msg tw
        ∈ callsSince (listenCheckpointEvents_match env m oldTs newTs).m
            (triggerChange env' (listenCheckpointEvents_match env m oldTs newTs).m d).1 →
      ids = sortStrings ((listenCheckpointEvents_match env m oldTs newTs).m.read
        (listenCheckpointEvents_match env m oldTs newTs).m.c.participants)) := by
  constructor
  · intro blob hb
    obtain ⟨m2, oldSt, newSt, diff1, oldAct, newAct, oldData, newData, -, a2, -, a4, -, a6, a7,
      -, -, -, -, hm, -⟩ := match_states env m oldTs newTs d h
    have hx := matchCheckpoint_blob env m2 oldTs newTs oldSt newSt diff1
    rw [← hm] at hx
    have hcs : callsSince m (listenCheckpointEvents_match env m oldTs newTs).m
        = callsSince m2 (listenCheckpointEvents_match env m oldTs newTs).m := by
      simp only [callsSince, a7]
    rw [hcs] at hb
    refine ⟨newAct, newData, a2, a4, ?_⟩
    rw [← a6]
    exact (hx.2 _ hb).1 blob rfl
  · intro cfg ids msg tw hs
    exact triggerChange_sign_ids env' _ d cfg ids msg tw hs

/-- A run of the amended C8 statement on the transition from height 29 to height 30. -/
theorem roster_blob_and_signers_witness :
    (listenCheckpointEvents_match demoEnv demo ts29 ts30).states = some demoDiff
    ∧ ∀ blob, Call.CreateMinersConfig blob
        ∈ callsSince demo (listenCheckpointEvents_match demoEnv demo ts29 ts30).m →
      ∃ newAct newData, demoEnv.StateGetActor ts30.key = .ok newAct
        ∧ demoEnv.cstGet newAct = .ok newData
        ∧ blob = minersConfig ts29.key newData.Miners :=
  ⟨by decide, (roster_blob_and_signers demoEnv demoEnv demo ts29 ts30 demoDiff (by decide)).1⟩

/-- C8 as stated fails: at the transition from height 29 to height 30 the roster blob
lists `A, B, D` while the signing round of the same checkpoint is run by `A, B, C`. -/
theorem roster_blob_differs_from_signers :
    (listenCheckpointEvents_match demoEnv demo ts29 ts30).states = some demoDiff
    ∧ Call.CreateMinersConfig (minersConfig [1] ["A", "B", "D"])
      ∈ callsSince demo demoAfterMatch
    ∧ Call.sign demoConfig ["A", "B", "C"] [2, 0, 232, 3, 0, 0, 0, 0, 0, 0, 34, 81, 32] [5]
      ∈ callsSince demoAfterMatch
          (listenCheckpointEvents_changeHandler demoEnv demoAfterMatch demoDiff).1
    ∧ ["A", "B", "D"] ≠ ["A", "B", "C"] := by
  decide

/-- C9, the code at the failing input: the upload of the roster fails inside
`matchCheckpoint`, yet `match` reports a change without error, the diff carries the
roster hash, and `triggerChange` starts `CreateCheckpoint` with that hash. -/
theorem match_drops_store_error :
    storeFailEnv.StoreMinersConfig "bucket" (hexEncodeToString [9]) = .error "store down"
    ∧ Call.StoreMinersConfig "bucket" (hexEncodeToString [9])
      ∈ callsSince demo demoAfterFailedStore
    ∧ (listenCheckpointEvents_match storeFailEnv demo ts29 ts30).out = .ok
    ∧ (listenCheckpointEvents_match storeFailEnv demo ts29 ts30).changed = true
    ∧ (listenCheckpointEvents_match storeFailEnv demo ts29 ts30).states = some demoDiff
    ∧ demoDiff.hash = some [9]
    ∧ Call.CreateCheckpoint [1] [9] ["C", "A", "B"]
      ∈ callsSince demoAfterFailedStore
          (triggerChange storeFailEnv demoAfterFailedStore demoDiff).1 := by
  refine ⟨rfl, by decide, by decide, by decide, by decide, by decide, by decide⟩

theorem hexDigit_mem (n : Nat) :
    hexDigit n ∈ ['0', '1', '2', '3', '4', '5', '6', '7', '8', '9', 'a', 'b', 'c', 'd', 'e', 'f'] := by
  unfold hexDigit
  by_cases h : n < 16
  · interval_cases n <;> simp
  · have h1 : 16 ≤ n := Nat.le_of_not_lt h
    simp [List.getD_eq_getElem?_getD, List.getElem?_eq_none, h1]

/-- C10: roster blob format.  The text that `matchCheckpoint` hands to
`CreateMinersConfig` is the hexadecimal encoding of the payload `oldTs.Key().Bytes()`
(lowercase digits, two per byte) followed by a newline, followed by each miner of
`newSt.Miners` followed by a newline, in list order, and nothing else. -/
theorem matchCheckpoint_roster_blob (env : Env) (m : Machine) (oldTs newTs : TipSet)
    (oldSt newSt : MpowerState) (diff : diffInfo) (blob : String)
    (h : Call.CreateMinersConfig blob
      ∈ callsSince m (matchCheckpoint env m oldTs newTs oldSt newSt diff).1) :
    blob = hexEncodeToString oldTs.key ++ "\n"
        ++ String.join ((m.read newSt.Miners).map (fun mi => mi ++ "\n"))
    ∧ (hexEncodeToString oldTs.key).data.length = 2 * oldTs.key.length
    ∧ ∀ ch ∈ (hexEncodeToString oldTs.key).data,
        ch ∈ ['0', '1', '2', '3', '4', '5', '6', '7', '8', '9', 'a', 'b', 'c', 'd', 'e', 'f'] := by
  have hx := matchCheckpoint_blob env m oldTs newTs oldSt newSt diff
  refine ⟨?_, ?_, ?_⟩
  · rw [(hx.2 _ h).1 blob rfl, minersConfig_eq]
  · simp only [hexEncodeToString]
    induction oldTs.key with
    | nil => simp
    | cons b bs ih => simp [List.flatMap_cons] at ih ⊢; omega
  · intro ch hch
    simp only [hexEncodeToString, List.mem_flatMap] at hch
    obtain ⟨b, -, hb⟩ := hch
    simp only [List.mem_cons, List.mem_singleton, List.not_mem_nil, or_false] at hb
    rcases hb with rfl | rfl <;> exact hexDigit_mem _

/-- A run of C10: the blob for payload `[1]` and miners `A, B, D`. -/
theorem matchCheckpoint_roster_blob_witness :
    Call.CreateMinersConfig "01\nA\nB\nD\n"
      ∈ callsSince demoStates
          (matchCheckpoint demoEnv demoStates ts29 ts30 ⟨some 1, []⟩ ⟨some 2, []⟩
            diffInfo.empty).1
    ∧ "01\nA\nB\nD\n" = hexEncodeToString ts29.key ++ "\n"
        ++ String.join ((demoStates.read (some 2)).map (fun mi => mi ++ "\n")) :=
  ⟨by decide,
    (matchCheckpoint_roster_blob demoEnv demoStates ts29 ts30 ⟨some 1, []⟩ ⟨some 2, []⟩
      diffInfo.empty "01\nA\nB\nD\n" (by decide)).1⟩

/-! ## Round trip of the roster blob -/

theorem string_join_data (l : List String) :
    (String.join l).data = l.flatMap (fun s => s.data) := by
  induction l with
  | nil => rfl
  | cons x xs ih => rw [string_join_cons, String.data_append, ih, List.flatMap_cons]

theorem linesOf_line (cur s rest : List Char) (h : '\n' ∉ s) :
    linesOf cur (s ++ '\n' :: rest) = String.mk (cur.reverse ++ s) :: linesOf [] rest := by
  induction s generalizing cur with
  | nil => simp [linesOf]
  | cons ch s ih =>
    have h1 : ch ≠ '\n' := fun e => h (by simp [e])
    have h2 : '\n' ∉ s := fun e => h (by simp [e])
    simp only [List.cons_append, linesOf, if_neg h1, List.append_eq]
    rw [ih (ch :: cur) h2]
    simp

theorem linesOf_lines (l : List String) (h : ∀ s ∈ l, '\n' ∉ s.data) :
    linesOf [] (l.flatMap (fun s => (s ++ "\n").data)) = l := by
  induction l with
  | nil => rfl
  | cons x xs ih =>
    have hx : '\n' ∉ x.data := h x (by simp)
    have hxs : ∀ s ∈ xs, '\n' ∉ s.data := fun s hs => h s (by simp [hs])
    rw [List.flatMap_cons, String.data_append]
    show linesOf [] ((x.data ++ ['\n']) ++ _) = _
    rw [List.append_assoc, List.singleton_append, linesOf_line [] x.data _ hx, ih hxs]
    simp

theorem fromHexChar_hexDigit (n : Nat) (h : n < 16) : fromHexChar (hexDigit n) = some n := by
  interval_cases n <;> decide

theorem hexDecodeChars_encode (cp : Bytes) (h : ∀ b ∈ cp, b < 256) :
    hexDecodeChars (hexEncodeToString cp).data = some cp := by
  induction cp with
  | nil => rfl
  | cons b bs ih =>
    have hb : b < 256 := h b (by simp)
    have hbs : ∀ x ∈ bs, x < 256 := fun x hx => h x (by simp [hx])
    have ih' := ih hbs
    simp only [hexEncodeToString, List.flatMap_cons] at ih' ⊢
    simp only [List.cons_append, List.nil_append, hexDecodeChars, List.append_eq]
    rw [fromHexChar_hexDigit _ (Nat.mod_lt _ (by decide)),
      fromHexChar_hexDigit _ (Nat.mod_lt _ (by decide)), ih']
    simp only
    have : b / 16 % 16 * 16 + b % 16 = b := by omega
    rw [this]

theorem hexEncode_no_newline (cp : Bytes) : '\n' ∉ (hexEncodeToString cp).data := by
  intro hmem
  simp only [hexEncodeToString, List.mem_flatMap] at hmem
  obtain ⟨b, -, hb⟩ := hmem
  simp only [List.mem_cons, List.mem_singleton, List.not_mem_nil, or_false] at hb
  have key : ∀ n, hexDigit n ≠ '\n' := by
    intro n e
    have := hexDigit_mem n
    rw [e] at this
    revert this
    decide
  rcases hb with e | e
  · exact key _ e.symm
  · exact key _ e.symm

/-- Reading back the blob that `matchCheckpoint` assembles gives the payload and the
identifiers, in the same order. -/
theorem parseRoster_minersConfig (cp : Bytes) (miners : List String)
    (hcp : ∀ b ∈ cp, b < 256) (hids : ∀ s ∈ miners, '\n' ∉ s.data) :
    parseRoster (minersConfig cp miners) = some (cp, miners) := by
  have hdata : (minersConfig cp miners).data
      = (hexEncodeToString cp).data ++ '\n' :: miners.flatMap (fun s => (s ++ "\n").data) := by
    rw [minersConfig_eq, String.data_append, String.data_append, string_join_data,
      List.flatMap_map, List.append_assoc]
    rfl
  unfold parseRoster
  rw [hdata, linesOf_line [] _ _ (hexEncode_no_newline cp), linesOf_lines miners hids]
  simp only [List.reverse_nil, List.nil_append]
  rw [hexDecodeChars_encode cp hcp]

theorem matchCheckpoint_hash (env : Env) (m : Machine) (oldTs newTs : TipSet)
    (oldSt newSt : MpowerState) (diff : diffInfo) (blob : String) (hash : Bytes)
    (h : Call.CreateMinersConfig blob
      ∈ callsSince m (matchCheckpoint env m oldTs newTs oldSt newSt diff).1)
    (hh : env.CreateMinersConfig blob = .ok hash) :
    (matchCheckpoint env m oldTs newTs oldSt newSt diff).2.1.hash = some hash := by
  have hb := ((matchCheckpoint_blob env m oldTs newTs oldSt newSt diff).2 _ h).1 blob rfl
  rw [hb] at hh
  simp only [matchCheckpoint] at h ⊢
  repeat' split
  all_goals first
    | rfl
    | simp_all [callsSince, Machine.log]

/-- C11 (amended): order of the roster blob.  The identifiers in the roster blob built
by `matchCheckpoint` appear in the order in which the actor stores its miner list; no
sorting is applied, so they are sorted exactly when that list is.  Two actor states that
hold the same miner list in the same order give, for the same payload, the same blob and
the same content hash. -/
theorem roster_blob_order (env : Env) (m : Machine) (oldTs newTs : TipSet)
    (oldSt newSt : MpowerState) (diff : diffInfo) (blob : String)
    (h : Call.CreateMinersConfig blob
      ∈ callsSince m (matchCheckpoint env m oldTs newTs oldSt newSt diff).1)
    (hcp : ∀ b ∈ oldTs.key, b < 256) (hids : ∀ s ∈ m.read newSt.Miners, '\n' ∉ s.data) :
    (∃ ids, parseRoster blob = some (oldTs.key, ids) ∧ ids = m.read newSt.Miners
      ∧ (ids.Sorted strLe ↔ (m.read newSt.Miners).Sorted strLe))
    ∧ ∀ (m' : Machine) (oldTs' newTs' : TipSet) (oldSt' newSt' : MpowerState)
        (diff' : diffInfo) (blob' : String),
        Call.CreateMinersConfig blob'
          ∈ callsSince m' (matchCheckpoint env m' oldTs' newTs' oldSt' newSt' diff').1 →
        oldTs'.key = oldTs.key → m'.read newSt'.Miners = m.read newSt.Miners →
        blob' = blob
        ∧ ∀ hash, env.CreateMinersConfig blob = .ok hash →
            (matchCheckpoint env m oldTs newTs oldSt newSt diff).2.1.hash = some hash
            ∧ (matchCheckpoint env m' oldTs' newTs' oldSt' newSt' diff').2.1.hash = some hash := by
  have hb := ((matchCheckpoint_blob env m oldTs newTs oldSt newSt diff).2 _ h).1 blob rfl
  constructor
  · refine ⟨m.read newSt.Miners, ?_, rfl, Iff.rfl⟩
    rw [hb]
    exact parseRoster_minersConfig _ _ hcp hids
  · intro m' oldTs' newTs' oldSt' newSt' diff' blob' h' hk hm
    have hb' := ((matchCheckpoint_blob env m' oldTs' newTs' oldSt' newSt' diff').2 _ h').1 blob' rfl
    have hbb : blob' = blob := by rw [hb', hb, hk, hm]
    refine ⟨hbb, fun hash hh => ⟨matchCheckpoint_hash _ _ _ _ _ _ _ _ _ h hh, ?_⟩⟩
    exact matchCheckpoint_hash _ _ _ _ _ _ _ _ _ h' (by rw [hbb]; exact hh)

/-- A run of the amended C11 statement: the stored list `C, A, B` reads back as
`C, A, B`. -/
theorem roster_blob_order_witness :
    Call.CreateMinersConfig "01\nC\nA\nB\n"
      ∈ callsSince demoStates
          (matchCheckpoint demoEnv demoStates ts29 ts30 ⟨some 0, []⟩ ⟨some 1, []⟩
            diffInfo.empty).1
    ∧ (∀ b ∈ ts29.key, b < 256)
    ∧ (∀ s ∈ demoStates.read (some 1), '\n' ∉ s.data)
    ∧ ∃ ids, parseRoster "01\nC\nA\nB\n" = some (ts29.key, ids)
        ∧ ids = demoStates.read (some 1)
        ∧ (ids.Sorted strLe ↔ (demoStates.read (some 1)).Sorted strLe) :=
  ⟨by decide, by decide, by decide,
    (roster_blob_order demoEnv demoStates ts29 ts30 ⟨some 0, []⟩ ⟨some 1, []⟩ diffInfo.empty
      "01\nC\nA\nB\n" (by decide) (by decide) (by decide)).1⟩

/-- C11 as stated fails: for the stored list `C, A, B` the identifiers of the blob are
not in sorted order, and the state that stores the same miners as `A, B, C` gives a
different blob. -/
theorem roster_blob_keeps_actor_order :
    Call.CreateMinersConfig "01\nC\nA\nB\n"
      ∈ callsSince demoStates
          (matchCheckpoint demoEnv demoStates ts29 ts30 ⟨some 0, []⟩ ⟨some 1, []⟩
            diffInfo.empty).1
    ∧ parseRoster "01\nC\nA\nB\n" = some ([1], ["C", "A", "B"])
    ∧ ["C", "A", "B"] ≠ sortStrings ["C", "A", "B"]
    ∧ Call.CreateMinersConfig "01\nA\nB\nC\n"
      ∈ callsSince demoStatesSorted
          (matchCheckpoint demoEnv demoStatesSorted ts29 ts30 ⟨some 0, []⟩ ⟨some 1, []⟩
            diffInfo.empty).1
    ∧ sortStrings (demoStatesSorted.read (some 1)) = sortStrings (demoStates.read (some 1))
    ∧ "01\nC\nA\nB\n" ≠ "01\nA\nB\nC\n" := by
  decide

/-- C12: roster round trip.  For every payload and every list of identifiers without
a newline character, reading back the blob that `matchCheckpoint` hands to
`CreateMinersConfig` (split at newlines, hex-decode the first line, the other lines are
the identifiers) returns the payload and the same identifiers in the same order; the
blob is a function of the payload and the list. -/
theorem roster_round_trip (cp : Bytes) (miners : List String)
    (hcp : ∀ b ∈ cp, b < 256) (hids : ∀ s ∈ miners, '\n' ∉ s.data) :
    parseRoster (minersConfig cp miners) = some (cp, miners)
    ∧ (∀ (env : Env) (m : Machine) (oldTs newTs : TipSet) (oldSt newSt : MpowerState)
        (diff : diffInfo) (blob : String),
        Call.CreateMinersConfig blob
          ∈ callsSince m (matchCheckpoint env m oldTs newTs oldSt newSt diff).1 →
        oldTs.key = cp → m.read newSt.Miners = miners →
        blob = minersConfig cp miners ∧ parseRoster blob = some (cp, miners)) := by
  refine ⟨parseRoster_minersConfig cp miners hcp hids, ?_⟩
  intro env m oldTs newTs oldSt newSt diff blob h hk hm
  have hb := ((matchCheckpoint_blob env m oldTs newTs oldSt newSt diff).2 _ h).1 blob rfl
  rw [hk, hm] at hb
  exact ⟨hb, by rw [hb]; exact parseRoster_minersConfig cp miners hcp hids⟩

/-- A run of C12: payload `[1]` and identifiers `A, B, D`. -/
theorem roster_round_trip_witness :
    (∀ b ∈ [1], b < 256) ∧ (∀ s ∈ ["A", "B", "D"], '\n' ∉ s.data)
    ∧ parseRoster (minersConfig [1] ["A", "B", "D"]) = some ([1], ["A", "B", "D"]) :=
  ⟨by decide, by decide,
    (roster_round_trip [1] ["A", "B", "D"] (by decide) (by decide)).1⟩

/-! ## The request and the output spent by `CreateCheckpoint` -/

theorem createRaw_render (ptxid : String) (index : Nat) (addr amount : String) (data : Bytes) :
    createRawTransactionPayload ptxid index addr amount data
      = renderCreateRawTransaction [(ptxid, index)]
          [.pay addr amount, .data (hexEncodeToString data)] := by
  apply String.ext
  simp only [createRawTransactionPayload, renderCreateRawTransaction, renderInput, renderOutput,
    List.map_cons, List.map_nil, String.intercalate, String.intercalate.go,
    String.data_append, List.append_assoc]
  rfl

theorem txout_spec (env : Env) (m m1 : Machine) (ids : List String) (u : SpentOutput)
    (h : CreateCheckpoint_txout env m ids = .next m1 u) :
    ((env.getTxOut m.c.cpconfig.BitcoinHost m.c.ptxid 0).2.head? = some 0x51
      ∧ u.index = 0
      ∧ u.value = (env.getTxOut m.c.cpconfig.BitcoinHost m.c.ptxid 0).1
      ∧ u.scriptPubkeyBytes = (env.getTxOut m.c.cpconfig.BitcoinHost m.c.ptxid 0).2)
    ∨ ((env.getTxOut m.c.cpconfig.BitcoinHost m.c.ptxid 0).2 ≠ []
      ∧ (env.getTxOut m.c.cpconfig.BitcoinHost m.c.ptxid 0).2.head? ≠ some 0x51
      ∧ u.index = 1
      ∧ u.value = (env.getTxOut m.c.cpconfig.BitcoinHost m.c.ptxid 1).1
      ∧ u.scriptPubkeyBytes = (env.getTxOut m.c.cpconfig.BitcoinHost m.c.ptxid 1).2) := by
  simp only [CreateCheckpoint_txout] at h
  split at h
  · cases h
  · rename_i value b0 rest heq
    split at h
    · rename_i hb
      cases h
      right
      rw [heq]
      exact ⟨by simp, by simpa using hb, rfl, rfl, rfl⟩
    · rename_i hb
      cases h
      left
      rw [heq]
      have : b0 = 0x51 := by simpa using hb
      exact ⟨by simp [this], rfl, rfl, rfl⟩

/-- The output that lines 697–708 select, in terms of the machine that leaves the
stretch of lines 668–708. -/
theorem spend_output (env : Env) (m m2 : Machine) (k : CheckpointKeys) (p : StrSlice)
    (u : SpentOutput) (h : CreateCheckpoint_spend env m k p = .next m2 u) :
    ((env.getTxOut m.c.cpconfig.BitcoinHost m2.c.ptxid 0).2.head? = some 0x51
      ∧ u.index = 0
      ∧ u.value = (env.getTxOut m.c.cpconfig.BitcoinHost m2.c.ptxid 0).1
      ∧ u.scriptPubkeyBytes = (env.getTxOut m.c.cpconfig.BitcoinHost m2.c.ptxid 0).2)
    ∨ ((env.getTxOut m.c.cpconfig.BitcoinHost m2.c.ptxid 0).2 ≠ []
      ∧ (env.getTxOut m.c.cpconfig.BitcoinHost m2.c.ptxid 0).2.head? ≠ some 0x51
      ∧ u.index = 1
      ∧ u.value = (env.getTxOut m.c.cpconfig.BitcoinHost m2.c.ptxid 1).1
      ∧ u.scriptPubkeyBytes = (env.getTxOut m.c.cpconfig.BitcoinHost m2.c.ptxid 1).2) := by
  simp only [CreateCheckpoint_spend] at h
  split at h
  · cases h
  · split at h
    · cases h
    · rename_i m3 u3 h3
      obtain ⟨-, p2, -⟩ := ptxid_frame env
        (Machine.log { c := m.c, mem := sortSlice m.mem p, trace := m.trace }
          (Call.addTaprootToWallet m.c.cpconfig.BitcoinHost (env.getTaprootScript m.c.pubkey)))
        k.taprootAddress
      rw [h3] at p2
      simp only [Stage.machine, Machine.log] at p2
      have hcfg : m3.c.cpconfig = m.c.cpconfig := by
        have := congrArg (fun c => c.cpconfig) p2
        simpa using this
      obtain ⟨-, q2, -⟩ := txout_frame env m3 (formIDSlice
        (Machine.read { c := m.c, mem := sortSlice m.mem p, trace := m.trace } p))
      rw [h] at q2
      simp only [Stage.machine] at q2
      have := txout_spec env m3 m2 _ u h
      rw [hcfg, ← q2] at this
      exact this

theorem spend_extends (env : Env) (m m2 : Machine) (k : CheckpointKeys) (p : StrSlice)
    (u : SpentOutput) (h : CreateCheckpoint_spend env m k p = .next m2 u) :
    Extends (fun c => c.isJsonRPC = false) m m2 ∧ m2.c.cpconfig = m.c.cpconfig
    ∧ (m.c.ptxid ≠ "" → m2.c.ptxid = m.c.ptxid) := by
  obtain ⟨-, f2, f3, calls, f4, f5⟩ := spend_frame env m k p
  rw [h] at f2 f3 f4
  simp only [Stage.machine] at f2 f3 f4
  refine ⟨extends_of_append _ _ _ calls f4 (fun c hc => (f5 c hc).1), ?_, f3⟩
  have := congrArg (fun c => c.cpconfig) f2
  simpa using this

/-- Every JSON-RPC request of lines 636–755 is the `createrawtransaction` request
for the output that was selected. -/
theorem prepare_requests (env : Env) (m : Machine) (cp data : Bytes) (p : StrSlice)
    (c : Call) (hc : c ∈ callsSince m (CreateCheckpoint_prepare env m cp data p).machine)
    (hj : c.isJsonRPC = true) :
    ∃ k m2 u, CreateCheckpoint_keys env m cp = .next m k
      ∧ CreateCheckpoint_spend env m k p = .next m2 u
      ∧ c = .jsonRPC m.c.cpconfig.BitcoinHost
          (createRawTransactionPayload m2.c.ptxid u.index k.newTaprootAddress
            (sprintf8f (u.value - m.c.cpconfig.Fee)) data) := by
  rcases prepare_cases env m cp data p with
    ⟨m1, out, hp, -, rfl | ⟨k, hk, hs⟩ | ⟨k, m2, u, hk, hs, hb⟩ | ⟨k, m2, u, m3, t, hk, hs, hb, hg⟩⟩
    | ⟨m4, k, m2, u, m3, t, r, hp, hk, hs, hb, hg⟩
  · rw [hp] at hc
    simp [Stage.machine, callsSince_self] at hc
  · obtain ⟨-, -, -, calls, f4, f5⟩ := spend_frame env m k p
    rw [hs] at f4
    simp only [Stage.machine] at f4
    rw [hp] at hc
    simp only [Stage.machine, callsSince_append m m1 calls f4] at hc
    rw [(f5 c hc).1] at hj
    cases hj
  all_goals
    obtain ⟨⟨e1, e2⟩, hcfg, -⟩ := spend_extends _ _ _ _ _ _ hs
    have hb1 := build_machine env m2 k u data
    rw [hb, hcfg] at hb1
    simp only [Stage.machine] at hb1
    refine ⟨k, m2, u, hk, hs, ?_⟩
  · rw [hp] at hc
    simp only [Stage.machine] at hc
    have htr : m1.trace = m.trace ++ (callsSince m m2 ++ [Call.jsonRPC m.c.cpconfig.BitcoinHost
        (createRawTransactionPayload m2.c.ptxid u.index k.newTaprootAddress
          (sprintf8f (u.value - m.c.cpconfig.Fee)) data)]) := by
      rw [hb1]; simp only [Machine.log]; rw [e1, List.append_assoc]
    rw [callsSince_append m _ _ htr] at hc
    rcases List.mem_append.1 hc with hc | hc
    · rw [e2 c hc] at hj; cases hj
    · exact List.mem_singleton.1 hc
  · rw [hp] at hc
    simp only [Stage.machine] at hc
    have htr3 : m3.trace = m.trace ++ (callsSince m m2 ++ [Call.jsonRPC m.c.cpconfig.BitcoinHost
        (createRawTransactionPayload m2.c.ptxid u.index k.newTaprootAddress
          (sprintf8f (u.value - m.c.cpconfig.Fee)) data)]) := by
      rw [hb1]; simp only [Machine.log]; rw [e1, List.append_assoc]
    rcases sign_exit _ _ _ _ _ _ _ hg with ⟨rfl, -⟩ | ⟨rfl, -⟩
    · rw [callsSince_append m _ _ htr3] at hc
      rcases List.mem_append.1 hc with hc | hc
      · rw [e2 c hc] at hj; cases hj
      · exact List.mem_singleton.1 hc
    · have htr4 : (m3.log (.sign k.taprootConfig u.ids t.hashedTx m3.c.tweakedValue)).trace =
          m.trace ++ (callsSince m m2 ++ [Call.jsonRPC m.c.cpconfig.BitcoinHost
            (createRawTransactionPayload m2.c.ptxid u.index k.newTaprootAddress
              (sprintf8f (u.value - m.c.cpconfig.Fee)) data)]
            ++ [Call.sign k.taprootConfig u.ids t.hashedTx m3.c.tweakedValue]) := by
        simp only [Machine.log]; rw [htr3]; simp
      rw [callsSince_append m _ _ htr4] at hc
      rcases List.mem_append.1 hc with hc | hc
      · rcases List.mem_append.1 hc with hc | hc
        · rw [e2 c hc] at hj; cases hj
        · exact List.mem_singleton.1 hc
      · rw [List.mem_singleton.1 hc] at hj; cases hj
  · rw [hp] at hc
    simp only [Stage.machine] at hc
    obtain ⟨rfl, -⟩ := sign_next _ _ _ _ _ _ _ hg
    have htr3 : m3.trace = m.trace ++ (callsSince m m2 ++ [Call.jsonRPC m.c.cpconfig.BitcoinHost
        (createRawTransactionPayload m2.c.ptxid u.index k.newTaprootAddress
          (sprintf8f (u.value - m.c.cpconfig.Fee)) data)]) := by
      rw [hb1]; simp only [Machine.log]; rw [e1, List.append_assoc]
    have htr4 : (m3.log (.sign k.taprootConfig u.ids t.hashedTx m3.c.tweakedValue)).trace =
        m.trace ++ (callsSince m m2 ++ [Call.jsonRPC m.c.cpconfig.BitcoinHost
          (createRawTransactionPayload m2.c.ptxid u.index k.newTaprootAddress
            (sprintf8f (u.value - m.c.cpconfig.Fee)) data)]
          ++ [Call.sign k.taprootConfig u.ids t.hashedTx m3.c.tweakedValue]) := by
      simp only [Machine.log]; rw [htr3]; simp
    rw [callsSince_append m _ _ htr4] at hc
    rcases List.mem_append.1 hc with hc | hc
    · rcases List.mem_append.1 hc with hc | hc
      · rw [e2 c hc] at hj; cases hj
      · exact List.mem_singleton.1 hc
    · rw [List.mem_singleton.1 hc] at hj; cases hj

/-- Every JSON-RPC request of `CreateCheckpoint` is the broadcast or the
`createrawtransaction` request for the output that was selected. -/
theorem CreateCheckpoint_requests (env : Env) (m : Machine) (cp data : Bytes) (p : StrSlice)
    (c : Call) (hc : c ∈ callsSince m (CreateCheckpoint env m cp data p).1)
    (hj : c.isJsonRPC = true) :
    (∃ rawtx, c = .jsonRPC m.c.cpconfig.BitcoinHost (sendRawTransactionPayload rawtx))
    ∨ ∃ k m2 u, CreateCheckpoint_keys env m cp = .next m k
      ∧ CreateCheckpoint_spend env m k p = .next m2 u
      ∧ c = .jsonRPC m.c.cpconfig.BitcoinHost
          (createRawTransactionPayload m2.c.ptxid u.index k.newTaprootAddress
            (sprintf8f (u.value - m.c.cpconfig.Fee)) data) := by
  obtain ⟨s1, s2, -⟩ := prepare_spec env m cp data p
  cases hp : CreateCheckpoint_prepare env m cp data p with
  | exit m1 out =>
    rw [prepare_machine_of_exit _ _ _ _ _ _ _ hp] at hc
    have := prepare_requests env m cp data p c (by rw [hp]; exact hc) hj
    exact Or.inr this
  | next m4 s =>
    rw [hp] at s1 s2
    simp only [Stage.machine] at s1 s2
    have hhost : m4.c.cpconfig.BitcoinHost = m.c.cpconfig.BitcoinHost := by
      have := congrArg (fun c => c.cpconfig.BitcoinHost) s2
      simpa using this
    have htr : (CreateCheckpoint env m cp data p).1.trace = m.trace ++ (callsSince m m4 ++
        [Call.jsonRPC m.c.cpconfig.BitcoinHost (sendRawTransactionPayload
          (env.prepareWitnessRawTransaction s.t.rawTransaction s.r))]) := by
      rw [prepare_machine_of_next _ _ _ _ _ _ _ hp, commit_trace, s1, hhost, List.append_assoc]
    rw [callsSince_append m _ _ htr] at hc
    rcases List.mem_append.1 hc with hc | hc
    · exact Or.inr (prepare_requests env m cp data p c (by rw [hp]; exact hc) hj)
    · exact Or.inl ⟨_, List.mem_singleton.1 hc⟩

theorem GenerateNewKeys_fields (env : Env) (m : Machine) (p : StrSlice) :
    { (GenerateNewKeys env m p).1.c with
        newTaprootConfig := m.c.newTaprootConfig
        newDKGComplete := m.c.newDKGComplete
        newKey := m.c.newKey } = m.c := by
  simp only [GenerateNewKeys]
  repeat' split
  all_goals rfl

theorem triggerChange_keys_cursor (env : Env) (m : Machine) (diff : diffInfo) :
    (triggerChange_keys env m diff).1.c.ptxid = m.c.ptxid
    ∧ (triggerChange_keys env m diff).1.c.cpconfig = m.c.cpconfig
    ∧ (triggerChange_keys env m diff).1.c.pubkey = m.c.pubkey
    ∧ (triggerChange_keys env m diff).1.c.tweakedValue = m.c.tweakedValue := by
  unfold triggerChange_keys
  split
  · have h := GenerateNewKeys_fields env
      (m.log (.GenerateNewKeys (m.read diff.newMiners))) diff.newMiners
    have e1 := congrArg (fun c => c.ptxid) h
    have e2 := congrArg (fun c => c.cpconfig) h
    have e3 := congrArg (fun c => c.pubkey) h
    have e4 := congrArg (fun c => c.tweakedValue) h
    exact ⟨e1, e2, e3, e4⟩
  · exact ⟨rfl, rfl, rfl, rfl⟩

/-- The calls of a run of `triggerChange` that reaches `CreateCheckpoint`, split at
the start of `CreateCheckpoint`. -/
theorem triggerChange_calls (env : Env) (m : Machine) (diff : diffInfo) (c : Call)
    (hc : c ∈ callsSince m (triggerChange env m diff).1)
    (hd : c.isDKG = false) (hs : c.isCheckpointStart = false)
    (hg : ∀ ps, c ≠ .GenerateNewKeys ps) :
    ∃ cp hash, diff.cp = some cp ∧ diff.hash = some hash
      ∧ (triggerChange_keys env m diff).2 = .ok
      ∧ c ∈ callsSince
          ((triggerChange_keys env m diff).1.log (.CreateCheckpoint cp hash
            ((triggerChange_keys env m diff).1.read (triggerChange_keys env m diff).1.c.participants)))
          (CreateCheckpoint env
            ((triggerChange_keys env m diff).1.log (.CreateCheckpoint cp hash
              ((triggerChange_keys env m diff).1.read
                (triggerChange_keys env m diff).1.c.participants)))
            cp hash (triggerChange_keys env m diff).1.c.participants).1 := by
  have hkeys : Extends (fun c => c.isDKG = true ∨ ∃ ps, c = .GenerateNewKeys ps)
      m (triggerChange_keys env m diff).1 := by
    unfold triggerChange_keys
    split
    · obtain ⟨-, -, -, g4⟩ := GenerateNewKeys_frame env
        (m.log (.GenerateNewKeys (m.read diff.newMiners))) diff.newMiners
      refine extends_trans _ m (m.log (.GenerateNewKeys (m.read diff.newMiners))) _ ?_ ?_
      · exact extends_of_append _ _ _ [_] rfl (by simp)
      · exact extends_mono _ _ _ _ (fun c hc => Or.inl hc) g4
    · exact extends_of_append _ _ _ [] (by simp) (by simp)
  have hno : c ∉ callsSince m (triggerChange_keys env m diff).1 := by
    intro hmem
    have hor : c.isDKG = true ∨ ∃ ps, c = .GenerateNewKeys ps := hkeys.2 c hmem
    rcases hor with h | ⟨ps, h⟩
    · rw [hd] at h; cases h
    · exact hg ps h
  unfold triggerChange at hc
  simp only at hc
  split at hc
  · exact absurd hc hno
  · rename_i hok
    split at hc
    · rename_i cp hash hcp hhash
      refine ⟨cp, hash, hcp, hhash, by simpa using hok, ?_⟩
      have hx := CreateCheckpoint_extends env
        ((triggerChange_keys env m diff).1.log (.CreateCheckpoint cp hash
          ((triggerChange_keys env m diff).1.read (triggerChange_keys env m diff).1.c.participants)))
        cp hash (triggerChange_keys env m diff).1.c.participants
      have hlog : Extends (fun c => c.isCheckpointStart = true)
          (triggerChange_keys env m diff).1
          ((triggerChange_keys env m diff).1.log (.CreateCheckpoint cp hash
            ((triggerChange_keys env m diff).1.read
              (triggerChange_keys env m diff).1.c.participants))) :=
        extends_of_append _ _ _ [_] rfl (by simp [Call.isCheckpointStart])
      rw [callsSince_trans _ _ m _ _ (extends_trans _ _ _ _
        (extends_mono _ (fun _ => True) _ _ (fun _ _ => trivial) hkeys)
        (extends_mono _ (fun _ => True) _ _ (fun _ _ => trivial) hlog)) hx] at hc
      rcases List.mem_append.1 hc with hc | hc
      · rw [callsSince_trans _ _ m _ _ hkeys hlog] at hc
        rcases List.mem_append.1 hc with hc | hc
        · exact absurd hc hno
        · have hst : c.isCheckpointStart = true := hlog.2 c hc
          rw [hs] at hst; cases hst
      · exact hc
    · exact absurd hc hno

/-- C13: content of the `createrawtransaction` request.  For every diff consumed by
`triggerChange`, a JSON-RPC request issued during the run is either the broadcast or
the `createrawtransaction` request of a diff that carries a payload and a roster hash;
that request has exactly one input, the previous txid (`ptxid`, resolved from the wallet
when it was empty) with the selected output index, and exactly two outputs: the first
pays the new taproot address, the second is a data output whose text is the
hexadecimal encoding of the roster hash of the diff, not of the payload. -/
theorem triggerChange_raw_transaction (env : Env) (m : Machine) (diff : diffInfo)
    (host payload : String)
    (h : Call.jsonRPC host payload ∈ callsSince m (triggerChange env m diff).1) :
    (∃ rawtx, payload = sendRawTransactionPayload rawtx)
    ∨ ∃ cp hash ptx idx addr amt key,
        diff.cp = some cp ∧ diff.hash = some hash
        ∧ payload = renderCreateRawTransaction [(ptx, idx)]
            [.pay addr amt, .data (hexEncodeToString hash)]
        ∧ (m.c.ptxid ≠ "" → ptx = m.c.ptxid)
        ∧ (m.c.ptxid = "" →
            ∃ a, env.walletGetTxidFromAddress m.c.cpconfig.BitcoinHost a = .ok ptx)
        ∧ (((env.getTxOut m.c.cpconfig.BitcoinHost ptx 0).2.head? = some 0x51 ∧ idx = 0)
          ∨ ((env.getTxOut m.c.cpconfig.BitcoinHost ptx 0).2.head? ≠ some 0x51 ∧ idx = 1))
        ∧ env.pubkeyToTapprootAddress (env.genCheckpointPublicKeyTaproot key cp) = .ok addr := by
  obtain ⟨cp, hash, hcp, hhash, -, hc⟩ := triggerChange_calls env m diff _ h rfl rfl
    (fun ps e => by cases e)
  obtain ⟨c1, c2, -, -⟩ := triggerChange_keys_cursor env m diff
  rcases CreateCheckpoint_requests env _ cp hash _ _ hc rfl with ⟨rawtx, e⟩ | ⟨k, m2, u, hk, hs, e⟩
  · left
    injection e with _ hpay
    exact ⟨rawtx, hpay⟩
  · right
    injection e with _ hpay
    obtain ⟨-, -, -, -, hshort, haddr, -⟩ := keys_next _ _ _ _ _ hk
    obtain ⟨-, hcfg, hptx⟩ := spend_extends _ _ _ _ _ _ hs
    obtain ⟨-, hwal⟩ := spend_next _ _ _ _ _ _ hs
    have hout := spend_output _ _ _ _ _ _ hs
    simp only [Machine.log] at hptx hwal hout hcfg
    rw [c1] at hptx hwal
    rw [c2] at hwal hout
    refine ⟨cp, hash, m2.c.ptxid, u.index, k.newTaprootAddress,
      sprintf8f (u.value - (triggerChange_keys env m diff).1.c.cpconfig.Fee), k.pubkey, hcp, hhash, ?_,
      hptx, fun h0 => ⟨_, hwal h0⟩, ?_, ?_⟩
    · rw [hpay, createRaw_render]
      rfl
    · rcases hout with ⟨h1, h2, -⟩ | ⟨-, h1, h2, -⟩
      · exact Or.inl ⟨h1, h2⟩
      · exact Or.inr ⟨h1, h2⟩
    · rw [← hshort]; exact haddr

/-- A run of C13: the request of a checkpoint with payload `[1]` and roster hash `[9]`. -/
theorem triggerChange_raw_transaction_witness :
    Call.jsonRPC "btc"
        (createRawTransactionPayload "aa" 0 "bcrt1p020301" "0.00000000" [9])
      ∈ callsSince demo (triggerChange demoEnv demo checkpointDiff).1
    ∧ ((∃ rawtx, createRawTransactionPayload "aa" 0 "bcrt1p020301" "0.00000000" [9]
          = sendRawTransactionPayload rawtx)
      ∨ ∃ cp hash ptx idx addr amt key,
        checkpointDiff.cp = some cp ∧ checkpointDiff.hash = some hash
        ∧ createRawTransactionPayload "aa" 0 "bcrt1p020301" "0.00000000" [9]
            = renderCreateRawTransaction [(ptx, idx)]
              [.pay addr amt, .data (hexEncodeToString hash)]
        ∧ (demo.c.ptxid ≠ "" → ptx = demo.c.ptxid)
        ∧ (demo.c.ptxid = "" →
            ∃ a, demoEnv.walletGetTxidFromAddress demo.c.cpconfig.BitcoinHost a = .ok ptx)
        ∧ (((demoEnv.getTxOut demo.c.cpconfig.BitcoinHost ptx 0).2.head? = some 0x51 ∧ idx = 0)
          ∨ ((demoEnv.getTxOut demo.c.cpconfig.BitcoinHost ptx 0).2.head? ≠ some 0x51
              ∧ idx = 1))
        ∧ demoEnv.pubkeyToTapprootAddress (demoEnv.genCheckpointPublicKeyTaproot key cp)
            = .ok addr) :=
  ⟨by decide, triggerChange_raw_transaction demoEnv demo checkpointDiff "btc" _ (by decide)⟩

/-- The output that `CreateCheckpoint` spends once it has fetched one: output 0 of the
previous txid if the script `getTxOut` returns for index 0 begins with `0x51`, and
output 1, with the value and the script returned for index 1, if that script is not
empty and begins with another byte; that index is the `vout` of the
`createrawtransaction` request, that value is the one the fee is deducted from, and
that value, converted, and that script make up the spent-output bytes given to the
signature hash. -/
theorem CreateCheckpoint_output_index (env : Env) (m : Machine) (cp data : Bytes)
    (p : StrSlice) (k : CheckpointKeys) (m2 : Machine) (u : SpentOutput)
    (hk : CreateCheckpoint_keys env m cp = .next m k)
    (hs : CreateCheckpoint_spend env m k p = .next m2 u) :
    (((env.getTxOut m.c.cpconfig.BitcoinHost m2.c.ptxid 0).2.head? = some 0x51
        ∧ u.index = 0
        ∧ u.value = (env.getTxOut m.c.cpconfig.BitcoinHost m2.c.ptxid 0).1
        ∧ u.scriptPubkeyBytes = (env.getTxOut m.c.cpconfig.BitcoinHost m2.c.ptxid 0).2)
      ∨ ((env.getTxOut m.c.cpconfig.BitcoinHost m2.c.ptxid 0).2 ≠ []
        ∧ (env.getTxOut m.c.cpconfig.BitcoinHost m2.c.ptxid 0).2.head? ≠ some 0x51
        ∧ u.index = 1
        ∧ u.value = (env.getTxOut m.c.cpconfig.BitcoinHost m2.c.ptxid 1).1
        ∧ u.scriptPubkeyBytes = (env.getTxOut m.c.cpconfig.BitcoinHost m2.c.ptxid 1).2))
    ∧ (∀ c ∈ callsSince m (CreateCheckpoint env m cp data p).1, c.isJsonRPC = true →
        (∃ rawtx, c = .jsonRPC m.c.cpconfig.BitcoinHost (sendRawTransactionPayload rawtx))
        ∨ c = .jsonRPC m.c.cpconfig.BitcoinHost
            (createRawTransactionPayload m2.c.ptxid u.index k.newTaprootAddress
              (sprintf8f (u.value - m.c.cpconfig.Fee)) data))
    ∧ (∀ m3 t, CreateCheckpoint_build env m2 k u data = .next m3 t →
        ∃ tx, hexDecodeString t.rawTransaction = .ok tx
          ∧ env.TaprootSignatureHash tx
              (putUint64LE (env.uint64OfValue u.value) ++ [34] ++ u.scriptPubkeyBytes) 0x00
            = .ok t.hashedTx) := by
  refine ⟨spend_output _ _ _ _ _ _ hs, ?_, ?_⟩
  · intro c hc hj
    rcases CreateCheckpoint_requests env m cp data p c hc hj with h | ⟨k', m2', u', hk', hs', e⟩
    · exact Or.inl h
    · right
      rw [hk] at hk'
      cases hk'
      rw [hs] at hs'
      cases hs'
      exact e
  · intro m3 t hb
    simp only [CreateCheckpoint_build] at hb
    repeat' split at hb
    all_goals first
      | (cases hb; done)
      | (cases hb; exact ⟨_, ‹_›, ‹_›⟩)

/-- A run of the fallback: output 0 is not a taproot output and its script is not
empty, so output 1 is spent. -/
theorem CreateCheckpoint_output_index_witness :
    CreateCheckpoint_keys fallbackEnv demo [1] = .next demo demoKeys
    ∧ CreateCheckpoint_spend fallbackEnv demo demoKeys (some 0)
        = .next demoAfterFallback fallbackSpent
    ∧ (((fallbackEnv.getTxOut "btc" "aa" 0).2.head? = some 0x51 ∧ fallbackSpent.index = 0
        ∧ fallbackSpent.value = (fallbackEnv.getTxOut "btc" "aa" 0).1
        ∧ fallbackSpent.scriptPubkeyBytes = (fallbackEnv.getTxOut "btc" "aa" 0).2)
      ∨ ((fallbackEnv.getTxOut "btc" "aa" 0).2 ≠ []
        ∧ (fallbackEnv.getTxOut "btc" "aa" 0).2.head? ≠ some 0x51
        ∧ fallbackSpent.index = 1
        ∧ fallbackSpent.value = (fallbackEnv.getTxOut "btc" "aa" 1).1
        ∧ fallbackSpent.scriptPubkeyBytes = (fallbackEnv.getTxOut "btc" "aa" 1).2)) :=
  ⟨rfl, rfl,
    (CreateCheckpoint_output_index fallbackEnv demo [1] [0xab] (some 0) demoKeys
      demoAfterFallback fallbackSpent rfl rfl).1⟩

/-- C14: the fallback to output 1 is missed when the script of output 0 is empty.  The
script that `getTxOut` returns for index 0 is empty, so it does not begin with `0x51`;
`CreateCheckpoint` does not go on to output 1: the test of the first byte panics, no
`getTxOut` call for index 1 and no `createrawtransaction` request is made.  With a
script at index 0 that is not empty and begins with `0x6a`, the same node does fetch
output 1 and spends it. -/
theorem CreateCheckpoint_empty_script_no_fallback :
    ((emptyScriptEnv.getTxOut "btc" "aa" 0).2 = []
      ∧ (emptyScriptEnv.getTxOut "btc" "aa" 0).2.head? ≠ some 0x51)
    ∧ (CreateCheckpoint emptyScriptEnv demo [1] [0xab] (some 0)).2
        = .panic "index out of range"
    ∧ Call.getTxOut "btc" "aa" 0
        ∈ callsSince demo (CreateCheckpoint emptyScriptEnv demo [1] [0xab] (some 0)).1
    ∧ Call.getTxOut "btc" "aa" 1
        ∉ callsSince demo (CreateCheckpoint emptyScriptEnv demo [1] [0xab] (some 0)).1
    ∧ (∀ c ∈ callsSince demo (CreateCheckpoint emptyScriptEnv demo [1] [0xab] (some 0)).1,
        c.isJsonRPC = false)
    ∧ ((fallbackEnv.getTxOut "btc" "aa" 0).2.head? = some 0x6a
      ∧ Call.getTxOut "btc" "aa" 1
          ∈ callsSince demo (CreateCheckpoint fallbackEnv demo [1] [0xab] (some 0)).1
      ∧ Call.jsonRPC "btc"
            (createRawTransactionPayload "aa" 1 "bcrt1p020301" "0.00000000" [0xab])
          ∈ callsSince demo (CreateCheckpoint fallbackEnv demo [1] [0xab] (some 0)).1) := by
  decide

/-! ## Key generation -/

theorem lexLe_antisymm : ∀ a b : List Char, lexLe a b = true → lexLe b a = true → a = b
  | [], [] => fun _ _ => rfl
  | [], _ :: _ => by simp [lexLe]
  | _ :: _, [] => by simp [lexLe]
  | a :: as, b :: bs => by
    intro h1 h2
    simp only [lexLe] at h1 h2
    split at h1
    · split at h2
      · omega
      · split at h2
        · omega
        · cases h2
    · split at h1
      · split at h2
        · omega
        · split at h2
          · have hab : a = b := by
              apply Char.ext
              apply UInt32.ext
              assumption
            rw [hab, lexLe_antisymm as bs h1 h2]
          · cases h2
      · cases h1

theorem sortStrings_of_perm (l1 l2 : List String) (h : l1.Perm l2) :
    sortStrings l1 = sortStrings l2 := by
  haveI : IsAntisymm String strLe :=
    ⟨fun a b h1 h2 => String.ext (lexLe_antisymm a.data b.data h1 h2)⟩
  exact List.eq_of_perm_of_sorted
    (((sortStrings_perm l1).trans h).trans (sortStrings_perm l2).symm)
    (sortStrings_sorted l1) (sortStrings_sorted l2)

theorem join_injective_of_length (n : Nat) (hn : 0 < n) :
    ∀ l1 l2 : List String, (∀ s ∈ l1, s.length = n) → (∀ s ∈ l2, s.length = n) →
      String.join l1 = String.join l2 → l1 = l2
  | [], [], _, _, _ => rfl
  | [], y :: ys, _, h2, h => by
    have hy : y.length = n := h2 y (by simp)
    have := congrArg (fun s : String => s.data.length) h
    simp only [string_join_data, List.flatMap_cons, List.flatMap_nil, List.length_nil,
      List.length_append] at this
    have hy' : y.data.length = n := hy
    omega
  | x :: xs, [], h1, _, h => by
    have hx : x.length = n := h1 x (by simp)
    have := congrArg (fun s : String => s.data.length) h
    simp only [string_join_data, List.flatMap_cons, List.flatMap_nil, List.length_nil,
      List.length_append] at this
    have hx' : x.data.length = n := hx
    omega
  | x :: xs, y :: ys, h1, h2, h => by
    have hx : x.data.length = n := h1 x (by simp)
    have hy : y.data.length = n := h2 y (by simp)
    have hd := congrArg (fun s : String => s.data) h
    simp only [string_join_data, List.flatMap_cons] at hd
    obtain ⟨e1, e2⟩ := List.append_inj hd (by rw [hx, hy])
    have hxy : x = y := String.ext e1
    have hrest : String.join xs = String.join ys := by
      apply String.ext
      rw [string_join_data, string_join_data]
      exact e2
    rw [hxy, join_injective_of_length n hn xs ys (fun s hs => h1 s (by simp [hs]))
      (fun s hs => h2 s (by simp [hs])) hrest]

/-- The calls of `GenerateNewKeys`: the keygen round over the sorted participants, with
threshold half their number plus one and their concatenation as session identifier,
and possibly the announcement of the key. -/
theorem GenerateNewKeys_calls (env : Env) (m : Machine) (p : StrSlice) (c : Call)
    (hc : c ∈ callsSince m (GenerateNewKeys env m p).1) :
    c = .keygen m.c.hostID (formIDSlice (readSlice (sortSlice m.mem p) p))
          ((readSlice (sortSlice m.mem p) p).length / 2 + 1)
          (String.join (readSlice (sortSlice m.mem p) p))
    ∨ ∃ msg, c = .MpoolPushMessage msg := by
  simp only [GenerateNewKeys] at hc
  repeat' split at hc
  all_goals
    simp only [callsSince, Machine.log, Machine.read, List.append_assoc, List.drop_left,
      List.drop_length, List.not_mem_nil, List.mem_cons, List.singleton_append,
      List.mem_singleton, or_false] at hc
  all_goals first
    | (rcases hc with rfl | rfl
       · exact Or.inl rfl
       · exact Or.inr ⟨_, rfl⟩)
    | (rw [hc]; exact Or.inl rfl)

theorem GenerateNewKeys_aborted (env : Env) (m : Machine) (p : StrSlice) (e : String)
    (h : env.keygenTaproot m.c.hostID (formIDSlice (readSlice (sortSlice m.mem p) p))
          ((readSlice (sortSlice m.mem p) p).length / 2 + 1)
          (String.join (readSlice (sortSlice m.mem p) p)) = .aborted e) :
    (GenerateNewKeys env m p).2 = .error e ∧ (GenerateNewKeys env m p).1.c = m.c := by
  simp [GenerateNewKeys, Machine.read, Machine.log, h]

theorem GenerateNewKeys_otherType (env : Env) (m : Machine) (p : StrSlice)
    (h : env.keygenTaproot m.c.hostID (formIDSlice (readSlice (sortSlice m.mem p) p))
          ((readSlice (sortSlice m.mem p) p).length / 2 + 1)
          (String.join (readSlice (sortSlice m.mem p) p)) = .result .otherType) :
    (GenerateNewKeys env m p).2 = .error "state change propagated is the wrong type"
    ∧ (GenerateNewKeys env m p).1.c = { m.c with newTaprootConfig := none } := by
  simp [GenerateNewKeys, Machine.read, Machine.log, h]

theorem GenerateNewKeys_keygen_call (env : Env) (m : Machine) (p : StrSlice)
    (id : String) (ids : List String) (t : Nat) (sid : String)
    (h : Call.keygen id ids t sid ∈ callsSince m (GenerateNewKeys env m p).1) :
    id = m.c.hostID ∧ ids = sortStrings (m.read p) ∧ t = (m.read p).length / 2 + 1
    ∧ sid = String.join (sortStrings (m.read p)) := by
  rcases GenerateNewKeys_calls env m p _ h with e | ⟨msg, e⟩
  · injection e with e1 e2 e3 e4
    rw [readSlice_sortSlice_self] at e2 e3 e4
    refine ⟨e1, ?_, ?_, e4⟩
    · rw [e2, formIDSlice, sortStrings_idem]; rfl
    · rw [e3, (sortStrings_perm _).length_eq]; rfl
  · cases e

theorem GenerateNewKeys_runs_keygen (env : Env) (m : Machine) (p : StrSlice)
    (h : ∀ e, env.keygenTaproot m.c.hostID (sortStrings (m.read p))
          ((m.read p).length / 2 + 1) (String.join (sortStrings (m.read p)))
        ≠ .handlerError e) :
    Call.keygen m.c.hostID (sortStrings (m.read p)) ((m.read p).length / 2 + 1)
        (String.join (sortStrings (m.read p)))
      ∈ callsSince m (GenerateNewKeys env m p).1 := by
  have e1 : readSlice (sortSlice m.mem p) p = sortStrings (readSlice m.mem p) :=
    readSlice_sortSlice_self _ _
  have e2 : formIDSlice (sortStrings (readSlice m.mem p)) = sortStrings (readSlice m.mem p) :=
    sortStrings_idem _
  have e3 : (sortStrings (readSlice m.mem p)).length = (readSlice m.mem p).length :=
    (sortStrings_perm _).length_eq
  simp only [GenerateNewKeys, Machine.read, Machine.log, e1, e2, e3] at h ⊢
  repeat' split
  all_goals first
    | (rename_i e hk; exact absurd hk (h e))
    | simp [callsSince]

/-- C15: threshold arithmetic.  For every non-empty participant list of length `n`,
every keygen round that `GenerateNewKeys` starts is given the threshold
`t = n / 2 + 1` (integer division), such a round is started unless the protocol
handler cannot be created, and `t ≤ n` and `n < 2 * t`. -/
theorem GenerateNewKeys_threshold (env : Env) (m : Machine) (p : StrSlice)
    (hne : m.read p ≠ []) :
    (∀ id ids t sid, Call.keygen id ids t sid ∈ callsSince m (GenerateNewKeys env m p).1 →
        t = (m.read p).length / 2 + 1 ∧ ids.length = (m.read p).length)
    ∧ ((∀ e, env.keygenTaproot m.c.hostID (sortStrings (m.read p))
            ((m.read p).length / 2 + 1) (String.join (sortStrings (m.read p)))
          ≠ .handlerError e) →
        ∃ ids sid, Call.keygen m.c.hostID ids ((m.read p).length / 2 + 1) sid
          ∈ callsSince m (GenerateNewKeys env m p).1)
    ∧ (m.read p).length / 2 + 1 ≤ (m.read p).length
    ∧ (m.read p).length < 2 * ((m.read p).length / 2 + 1) := by
  have hpos : 0 < (m.read p).length := List.length_pos.2 hne
  refine ⟨?_, ?_, by omega, by omega⟩
  · intro id ids t sid h
    obtain ⟨-, h2, h3, -⟩ := GenerateNewKeys_keygen_call env m p id ids t sid h
    exact ⟨h3, by rw [h2, (sortStrings_perm _).length_eq]⟩
  · intro h
    exact ⟨_, _, GenerateNewKeys_runs_keygen env m p h⟩

/-- A run of C15: the roster `C, A, B` of three participants gets the threshold 2. -/
theorem GenerateNewKeys_threshold_witness :
    demo.read (some 0) ≠ []
    ∧ Call.keygen "A" ["A", "B", "C"] 2 "ABC"
        ∈ callsSince demo (GenerateNewKeys demoEnv demo (some 0)).1
    ∧ (2 = (demo.read (some 0)).length / 2 + 1
        ∧ ["A", "B", "C"].length = (demo.read (some 0)).length)
    ∧ (demo.read (some 0)).length / 2 + 1 ≤ (demo.read (some 0)).length
    ∧ (demo.read (some 0)).length < 2 * ((demo.read (some 0)).length / 2 + 1) :=
  ⟨by decide, by decide,
    (GenerateNewKeys_threshold demoEnv demo (some 0) (by decide)).1 "A" ["A", "B", "C"] 2 "ABC"
      (by decide),
    (GenerateNewKeys_threshold demoEnv demo (some 0) (by decide)).2.2⟩

theorem sortStrings_join_injective (n : Nat) (hn : 0 < n) (l1 l2 : List String)
    (h1 : ∀ s ∈ l1, s.length = n) (h2 : ∀ s ∈ l2, s.length = n)
    (h : String.join (sortStrings l1) = String.join (sortStrings l2)) : l1.Perm l2 := by
  have e : sortStrings l1 = sortStrings l2 :=
    join_injective_of_length n hn _ _
      (fun s hs => h1 s ((sortStrings_perm l1).mem_iff.1 hs))
      (fun s hs => h2 s ((sortStrings_perm l2).mem_iff.1 hs)) h
  exact ((sortStrings_perm l1).symm.trans (e ▸ List.Perm.refl _)).trans (sortStrings_perm l2)

/-- C16 (amended): keygen session identifier.  The session identifier that
`GenerateNewKeys` gives to the keygen round is the concatenation, without separator,
of the lexicographically sorted participant identifiers; it is the same for every
permutation of one participant list; and for two participant lists whose identifiers
all have one common non-zero length and that differ as sets, the session identifiers
differ.  Without the common length the identifiers of different sets can coincide. -/
theorem GenerateNewKeys_session (env : Env) (m : Machine) (p : StrSlice)
    (id : String) (ids : List String) (t : Nat) (sid : String)
    (h : Call.keygen id ids t sid ∈ callsSince m (GenerateNewKeys env m p).1) :
    sid = String.join (sortStrings (m.read p))
    ∧ ∀ (env2 : Env) (m2 : Machine) (p2 : StrSlice) (id2 : String) (ids2 : List String)
        (t2 : Nat) (sid2 : String),
        Call.keygen id2 ids2 t2 sid2 ∈ callsSince m2 (GenerateNewKeys env2 m2 p2).1 →
        ((m2.read p2).Perm (m.read p) → sid2 = sid)
        ∧ ∀ n, 0 < n → (∀ s ∈ m.read p, s.length = n) → (∀ s ∈ m2.read p2, s.length = n) →
            (∃ s, ¬ (s ∈ m.read p ↔ s ∈ m2.read p2)) → sid2 ≠ sid := by
  obtain ⟨-, -, -, hs⟩ := GenerateNewKeys_keygen_call env m p id ids t sid h
  refine ⟨hs, ?_⟩
  intro env2 m2 p2 id2 ids2 t2 sid2 h2
  obtain ⟨-, -, -, hs2⟩ := GenerateNewKeys_keygen_call env2 m2 p2 id2 ids2 t2 sid2 h2
  constructor
  · intro hp
    rw [hs, hs2, sortStrings_of_perm _ _ hp]
  · intro n hn h1 h2 ⟨s, hne⟩ e
    rw [hs, hs2] at e
    exact hne (sortStrings_join_injective n hn _ _ h1 h2 e.symm).mem_iff

/-- A run of the amended C16 statement: the roster `C, A, B` has the session identifier
`ABC`, and the roster `A, B, D` a different one. -/
theorem GenerateNewKeys_session_witness :
    Call.keygen "A" ["A", "B", "C"] 2 "ABC"
        ∈ callsSince demo (GenerateNewKeys demoEnv demo (some 0)).1
    ∧ "ABC" = String.join (sortStrings (demo.read (some 0)))
    ∧ Call.keygen "A" ["A", "B", "D"] 2 "ABD"
        ∈ callsSince demoStates (GenerateNewKeys demoEnv demoStates (some 2)).1
    ∧ "ABD" ≠ "ABC" :=
  ⟨by decide,
    (GenerateNewKeys_session demoEnv demo (some 0) "A" ["A", "B", "C"] 2 "ABC" (by decide)).1,
    by decide,
    ((GenerateNewKeys_session demoEnv demo (some 0) "A" ["A", "B", "C"] 2 "ABC" (by decide)).2
      demoEnv demoStates (some 2) "A" ["A", "B", "D"] 2 "ABD" (by decide)).2 1 (by decide)
      (by decide) (by decide) ⟨"C", by decide⟩⟩

/-- C16 as stated fails: the participant lists `ab, c` and `a, bc` differ as sets, and
`GenerateNewKeys` gives both keygen rounds the session identifier `abc`. -/
theorem GenerateNewKeys_session_collision :
    callsSince splitA (GenerateNewKeys demoEnv splitA (some 0)).1
      = [Call.keygen "A" ["ab", "c"] 2 "abc"]
    ∧ callsSince splitB (GenerateNewKeys demoEnv splitB (some 0)).1
      = [Call.keygen "A" ["a", "bc"] 2 "abc"]
    ∧ "ab" ∈ splitA.read (some 0) ∧ "ab" ∉ splitB.read (some 0) := by
  decide

theorem GenerateNewKeys_no_result (env : Env) (m : Machine) (p : StrSlice) (e : String)
    (h : env.keygenTaproot m.c.hostID (sortStrings (m.read p))
          ((m.read p).length / 2 + 1) (String.join (sortStrings (m.read p))) = .aborted e) :
    (GenerateNewKeys env m p).2 = .error e ∧ (GenerateNewKeys env m p).1.c = m.c := by
  apply GenerateNewKeys_aborted
  rw [readSlice_sortSlice_self, formIDSlice, sortStrings_idem, (sortStrings_perm _).length_eq]
  exact h

theorem GenerateNewKeys_wrong_type (env : Env) (m : Machine) (p : StrSlice)
    (h : env.keygenTaproot m.c.hostID (sortStrings (m.read p))
          ((m.read p).length / 2 + 1) (String.join (sortStrings (m.read p)))
        = .result .otherType) :
    (GenerateNewKeys env m p).2 = .error "state change propagated is the wrong type"
    ∧ (GenerateNewKeys env m p).1.c = { m.c with newTaprootConfig := none } := by
  apply GenerateNewKeys_otherType
  rw [readSlice_sortSlice_self, formIDSlice, sortStrings_idem, (sortStrings_perm _).length_eq]
  exact h

/-- When the key generation of `triggerChange` fails, `triggerChange` stops there: it
returns the error and `CreateCheckpoint` is not started. -/
theorem triggerChange_keys_failed (env : Env) (m : Machine) (diff : diffInfo)
    (hne : m.read diff.newMiners ≠ []) (e : String)
    (h : (GenerateNewKeys env (m.log (.GenerateNewKeys (m.read diff.newMiners)))
            diff.newMiners).2 = .error e) :
    (triggerChange env m diff).2.2 = .error e
    ∧ (triggerChange env m diff).1
        = (GenerateNewKeys env (m.log (.GenerateNewKeys (m.read diff.newMiners)))
            diff.newMiners).1
    ∧ ∀ cp data ps, Call.CreateCheckpoint cp data ps ∉ callsSince m (triggerChange env m diff).1 := by
  have hk : triggerChange_keys env m diff
      = GenerateNewKeys env (m.log (.GenerateNewKeys (m.read diff.newMiners))) diff.newMiners := by
    unfold triggerChange_keys
    rw [if_pos (List.length_pos.2 hne)]
  obtain ⟨-, -, -, k4⟩ := triggerChange_keys_frame env m diff
  have h1 : (triggerChange env m diff).1 = (triggerChange_keys env m diff).1 := by
    simp [triggerChange, hk, h]
  refine ⟨by simp [triggerChange, hk, h], by rw [h1, hk], ?_⟩
  intro cp data ps hc
  rw [h1] at hc
  have hst : (Call.CreateCheckpoint cp data ps).isCheckpointStart = false := (k4.2 _ hc).2
  simp [Call.isCheckpointStart] at hst

/-- C17 (amended): failure of the key generation.  If the keygen round of
`GenerateNewKeys` produces no result, `GenerateNewKeys` returns that error and leaves
`newTaprootConfig` as it was before the call (a share pending from an earlier key
generation stays pending); if the round produces a result of the wrong type, it returns
the error "state change propagated is the wrong type" and `newTaprootConfig` is absent
afterwards.  In both cases `taprootConfig` is unchanged and `triggerChange` returns the
same error without starting `CreateCheckpoint`. -/
theorem triggerChange_keygen_failure (env : Env) (m : Machine) (diff : diffInfo)
    (hne : m.read diff.newMiners ≠ [])
    (hfail : (∃ e, env.keygenTaproot m.c.hostID (sortStrings (m.read diff.newMiners))
            ((m.read diff.newMiners).length / 2 + 1)
            (String.join (sortStrings (m.read diff.newMiners))) = .aborted e)
        ∨ env.keygenTaproot m.c.hostID (sortStrings (m.read diff.newMiners))
            ((m.read diff.newMiners).length / 2 + 1)
            (String.join (sortStrings (m.read diff.newMiners))) = .result .otherType) :
    (∀ e, env.keygenTaproot m.c.hostID (sortStrings (m.read diff.newMiners))
            ((m.read diff.newMiners).length / 2 + 1)
            (String.join (sortStrings (m.read diff.newMiners))) = .aborted e →
        (GenerateNewKeys env m diff.newMiners).2 = .error e
        ∧ (GenerateNewKeys env m diff.newMiners).1.c.newTaprootConfig = m.c.newTaprootConfig
        ∧ (triggerChange env m diff).2.2 = .error e
        ∧ (triggerChange env m diff).1.c.newTaprootConfig = m.c.newTaprootConfig)
    ∧ (env.keygenTaproot m.c.hostID (sortStrings (m.read diff.newMiners))
            ((m.read diff.newMiners).length / 2 + 1)
            (String.join (sortStrings (m.read diff.newMiners))) = .result .otherType →
        (GenerateNewKeys env m diff.newMiners).2
          = .error "state change propagated is the wrong type"
        ∧ (GenerateNewKeys env m diff.newMiners).1.c.newTaprootConfig = none
        ∧ (triggerChange env m diff).2.2 = .error "state change propagated is the wrong type"
        ∧ (triggerChange env m diff).1.c.newTaprootConfig = none)
    ∧ (GenerateNewKeys env m diff.newMiners).1.c.taprootConfig = m.c.taprootConfig
    ∧ (triggerChange env m diff).1.c.taprootConfig = m.c.taprootConfig
    ∧ ∀ cp data ps,
        Call.CreateCheckpoint cp data ps ∉ callsSince m (triggerChange env m diff).1 := by
  have hA : ∀ e, env.keygenTaproot m.c.hostID (sortStrings (m.read diff.newMiners))
            ((m.read diff.newMiners).length / 2 + 1)
            (String.join (sortStrings (m.read diff.newMiners))) = .aborted e →
        ((GenerateNewKeys env m diff.newMiners).2 = .error e
        ∧ (GenerateNewKeys env m diff.newMiners).1.c.newTaprootConfig = m.c.newTaprootConfig
        ∧ (triggerChange env m diff).2.2 = .error e
        ∧ (triggerChange env m diff).1.c.newTaprootConfig = m.c.newTaprootConfig)
        ∧ (triggerChange env m diff).1.c.taprootConfig = m.c.taprootConfig
        ∧ ∀ cp data ps,
            Call.CreateCheckpoint cp data ps ∉ callsSince m (triggerChange env m diff).1 := by
    intro e he
    obtain ⟨a1, a2⟩ := GenerateNewKeys_no_result env m diff.newMiners e he
    obtain ⟨b1, b2⟩ := GenerateNewKeys_no_result env
      (m.log (.GenerateNewKeys (m.read diff.newMiners))) diff.newMiners e he
    obtain ⟨t1, t2, t3⟩ := triggerChange_keys_failed env m diff hne e b1
    refine ⟨⟨a1, by rw [a2], t1, by rw [t2, b2]; rfl⟩, by rw [t2, b2]; rfl, t3⟩
  have hB : env.keygenTaproot m.c.hostID (sortStrings (m.read diff.newMiners))
            ((m.read diff.newMiners).length / 2 + 1)
            (String.join (sortStrings (m.read diff.newMiners))) = .result .otherType →
        ((GenerateNewKeys env m diff.newMiners).2
          = .error "state change propagated is the wrong type"
        ∧ (GenerateNewKeys env m diff.newMiners).1.c.newTaprootConfig = none
        ∧ (triggerChange env m diff).2.2 = .error "state change propagated is the wrong type"
        ∧ (triggerChange env m diff).1.c.newTaprootConfig = none)
        ∧ (triggerChange env m diff).1.c.taprootConfig = m.c.taprootConfig
        ∧ ∀ cp data ps,
            Call.CreateCheckpoint cp data ps ∉ callsSince m (triggerChange env m diff).1 := by
    intro he
    obtain ⟨a1, a2⟩ := GenerateNewKeys_wrong_type env m diff.newMiners he
    obtain ⟨b1, b2⟩ := GenerateNewKeys_wrong_type env
      (m.log (.GenerateNewKeys (m.read diff.newMiners))) diff.newMiners he
    obtain ⟨t1, t2, t3⟩ := triggerChange_keys_failed env m diff hne _ b1
    refine ⟨⟨a1, by rw [a2], t1, by rw [t2, b2]⟩, by rw [t2, b2]; rfl, t3⟩
  refine ⟨fun e he => (hA e he).1, fun he => (hB he).1,
    (GenerateNewKeys_frame env m diff.newMiners).2.2.1, ?_, ?_⟩
  · rcases hfail with ⟨e, he⟩ | he
    · exact (hA e he).2.1
    · exact (hB he).2.1
  · rcases hfail with ⟨e, he⟩ | he
    · exact (hA e he).2.2
    · exact (hB he).2.2

/-- A run of the amended C17 statement: the keygen round aborts while a share is
pending; the error is returned and the pending share is still there. -/
theorem triggerChange_keygen_failure_witness :
    demoPending.read rosterDiff.newMiners ≠ []
    ∧ dkgAbortEnv.keygenTaproot demoPending.c.hostID
        (sortStrings (demoPending.read rosterDiff.newMiners))
        ((demoPending.read rosterDiff.newMiners).length / 2 + 1)
        (String.join (sortStrings (demoPending.read rosterDiff.newMiners)))
      = .aborted "dkg abort"
    ∧ (GenerateNewKeys dkgAbortEnv demoPending rosterDiff.newMiners).2 = .error "dkg abort"
    ∧ (GenerateNewKeys dkgAbortEnv demoPending rosterDiff.newMiners).1.c.newTaprootConfig
        = demoPending.c.newTaprootConfig
    ∧ (triggerChange dkgAbortEnv demoPending rosterDiff).2.2 = .error "dkg abort"
    ∧ (triggerChange dkgAbortEnv demoPending rosterDiff).1.c.newTaprootConfig
        = demoPending.c.newTaprootConfig :=
  ⟨by decide, rfl,
    (triggerChange_keygen_failure dkgAbortEnv demoPending rosterDiff (by decide)
      (Or.inl ⟨"dkg abort", rfl⟩)).1 "dkg abort" rfl⟩

/-- C17 as stated fails: the keygen round produces no result, `GenerateNewKeys` and
`triggerChange` return the error, and the pending new share is not absent afterwards. -/
theorem GenerateNewKeys_failure_keeps_pending_share :
    dkgAbortEnv.keygenTaproot "A" ["A", "B", "C"] 2 "ABC" = .aborted "dkg abort"
    ∧ callsSince demoPending (GenerateNewKeys dkgAbortEnv demoPending (some 0)).1
        = [Call.keygen "A" ["A", "B", "C"] 2 "ABC"]
    ∧ (GenerateNewKeys dkgAbortEnv demoPending (some 0)).2 = .error "dkg abort"
    ∧ (GenerateNewKeys dkgAbortEnv demoPending (some 0)).1.c.newTaprootConfig
        = some demoConfig
    ∧ (triggerChange dkgAbortEnv demoPending rosterDiff).2.2 = .error "dkg abort"
    ∧ (triggerChange dkgAbortEnv demoPending rosterDiff).1.c.newTaprootConfig
        = some demoConfig :=
  ⟨rfl, by decide, by decide, by decide, by decide, by decide⟩

/-! ## The watcher -/

/-- What `matchCheckpoint` does for a node without a current share whose new share is
pending, when a checkpoint is due. -/
theorem matchCheckpoint_promote (env : Env) (m : Machine) (oldTs newTs : TipSet)
    (oldSt newSt : MpowerState) (diff : diffInfo) (cfg : TaprootConfig)
    (hdue : newTs.height.tmod checkpointFrequency = 0 ∧ 0 < (m.read oldSt.Miners).length)
    (ht : m.c.taprootConfig = none) (hn : m.c.newTaprootConfig = some cfg) :
    matchCheckpoint env m oldTs newTs oldSt newSt diff
      = ({ m with c := { m.c with
            taprootConfig := some cfg
            tweakedValue := env.hashTweakedValue cfg.PublicKey
              (env.hashMerkleRoot cfg.PublicKey oldTs.key)
            pubkey := env.genCheckpointPublicKeyTaproot cfg.PublicKey oldTs.key
            newTaprootConfig := none
            participants := newSt.Miners
            newDKGComplete := false } },
          { diff with cp := some oldTs.key }, true, .ok) := by
  have hg : newTs.height.tmod checkpointFrequency = 0 ∧ 0 < (m.read oldSt.Miners).length
      ∧ (m.c.taprootConfig ≠ none ∨ m.c.newTaprootConfig ≠ none) :=
    ⟨hdue.1, hdue.2, Or.inr (by rw [hn]; simp)⟩
  simp only [matchCheckpoint]
  rw [if_pos hg]
  simp only [ht, hn]

/-- C18: promotion of an observer, without signing.  When a checkpoint is due while
`taprootConfig` is absent and `newTaprootConfig` is present with public key `P`, after
`matchCheckpoint` the field `taprootConfig` holds the former `newTaprootConfig`,
`newTaprootConfig` is absent, `tweakedValue = hashTweakedValue(P, hashMerkleRoot(P, cp))`,
`pubkey = genCheckpointPublicKeyTaproot(P, cp)`, `participants` is the miner list of the
new actor state and `newDKGComplete` is false; no call is made; the diff carries the
payload and, as before, no roster hash, so `triggerChange` does not start
`CreateCheckpoint` for it. -/
theorem matchCheckpoint_observer_promotion (env : Env) (m : Machine) (oldTs newTs : TipSet)
    (oldSt newSt : MpowerState) (diff : diffInfo) (cfg : TaprootConfig)
    (hdue : newTs.height.tmod checkpointFrequency = 0 ∧ 0 < (m.read oldSt.Miners).length)
    (ht : m.c.taprootConfig = none) (hn : m.c.newTaprootConfig = some cfg)
    (hh : diff.hash = none) :
    (matchCheckpoint env m oldTs newTs oldSt newSt diff).1.c.taprootConfig = some cfg
    ∧ (matchCheckpoint env m oldTs newTs oldSt newSt diff).1.c.newTaprootConfig = none
    ∧ (matchCheckpoint env m oldTs newTs oldSt newSt diff).1.c.tweakedValue
        = env.hashTweakedValue cfg.PublicKey (env.hashMerkleRoot cfg.PublicKey oldTs.key)
    ∧ (matchCheckpoint env m oldTs newTs oldSt newSt diff).1.c.pubkey
        = env.genCheckpointPublicKeyTaproot cfg.PublicKey oldTs.key
    ∧ (matchCheckpoint env m oldTs newTs oldSt newSt diff).1.c.participants = newSt.Miners
    ∧ (matchCheckpoint env m oldTs newTs oldSt newSt diff).1.read
          (matchCheckpoint env m oldTs newTs oldSt newSt diff).1.c.participants
        = m.read newSt.Miners
    ∧ (matchCheckpoint env m oldTs newTs oldSt newSt diff).1.c.newDKGComplete = false
    ∧ callsSince m (matchCheckpoint env m oldTs newTs oldSt newSt diff).1 = []
    ∧ (matchCheckpoint env m oldTs newTs oldSt newSt diff).2.2 = (true, .ok)
    ∧ (matchCheckpoint env m oldTs newTs oldSt newSt diff).2.1.cp = some oldTs.key
    ∧ (matchCheckpoint env m oldTs newTs oldSt newSt diff).2.1.hash = none
    ∧ ∀ (env2 : Env) (m2 : Machine) (cp data : Bytes) (ps : List String),
        Call.CreateCheckpoint cp data ps
          ∉ callsSince m2
              (triggerChange env2 m2 (matchCheckpoint env m oldTs newTs oldSt newSt diff).2.1).1 := by
  rw [matchCheckpoint_promote env m oldTs newTs oldSt newSt diff cfg hdue ht hn]
  refine ⟨rfl, rfl, rfl, rfl, rfl, rfl, rfl, callsSince_self m, rfl, rfl, hh, ?_⟩
  intro env2 m2 cp data ps hc
  exact (triggerChange_starts_checkpoint env2 m2 _ cp data ps hc).2 hh

/-- A run of C18: the node `D` is promoted at the transition from height 29 to 30. -/
theorem matchCheckpoint_observer_promotion_witness :
    (ts30.height.tmod checkpointFrequency = 0 ∧ 0 < (demoObserver.read (some 1)).length)
    ∧ demoObserver.c.taprootConfig = none
    ∧ demoObserver.c.newTaprootConfig = some demoConfig
    ∧ diffInfo.empty.hash = none
    ∧ (matchCheckpoint demoEnv demoObserver ts29 ts30 ⟨some 1, []⟩ ⟨some 2, []⟩
        diffInfo.empty).1.c.taprootConfig = some demoConfig
    ∧ (matchCheckpoint demoEnv demoObserver ts29 ts30 ⟨some 1, []⟩ ⟨some 2, []⟩
        diffInfo.empty).1.c.newTaprootConfig = none :=
  ⟨by decide, rfl, rfl, rfl,
    (matchCheckpoint_observer_promotion demoEnv demoObserver ts29 ts30 ⟨some 1, []⟩
      ⟨some 2, []⟩ diffInfo.empty demoConfig (by decide) rfl rfl rfl).1,
    (matchCheckpoint_observer_promotion demoEnv demoObserver ts29 ts30 ⟨some 1, []⟩
      ⟨some 2, []⟩ diffInfo.empty demoConfig (by decide) rfl rfl rfl).2.1⟩

/-- The coordinator fields `matchCheckpoint` leaves alone whatever it does. -/
theorem matchCheckpoint_fields (env : Env) (m : Machine) (oldTs newTs : TipSet)
    (oldSt newSt : MpowerState) (diff : diffInfo) :
    { (matchCheckpoint env m oldTs newTs oldSt newSt diff).1.c with
        taprootConfig := m.c.taprootConfig
        tweakedValue := m.c.tweakedValue
        pubkey := m.c.pubkey
        newTaprootConfig := m.c.newTaprootConfig
        participants := m.c.participants
        newDKGComplete := m.c.newDKGComplete } = m.c
    ∧ (matchCheckpoint env m oldTs newTs oldSt newSt diff).1.mem = m.mem := by
  simp only [matchCheckpoint]
  repeat' split
  all_goals exact ⟨rfl, rfl⟩

/-- Outside the promotion of an observer, `matchCheckpoint` changes no coordinator
field. -/
theorem matchCheckpoint_same (env : Env) (m : Machine) (oldTs newTs : TipSet)
    (oldSt newSt : MpowerState) (diff : diffInfo)
    (h : ¬ (newTs.height.tmod checkpointFrequency = 0 ∧ 0 < (m.read oldSt.Miners).length
        ∧ m.c.taprootConfig = none ∧ m.c.newTaprootConfig ≠ none)) :
    (matchCheckpoint env m oldTs newTs oldSt newSt diff).1.c = m.c := by
  simp only [matchCheckpoint]
  split
  · rename_i hg
    split
    · rename_i ht
      split
      · rfl
      · rename_i newCfg hn
        exact absurd ⟨hg.1, hg.2.1, ht, by rw [hn]; simp⟩ h
    · repeat' split
      all_goals rfl
  · rfl

/-- C19 (amended): what the match step of the watcher changes.  The match step is not a
pure producer.  `matchNewConfig` fills in the new roster of the diff and, when it
reports a change, also sets `newParticipants` to the miner list of the new actor state;
it changes no other coordinator field.  `matchCheckpoint` fills in the payload and the
roster hash of the diff and changes no coordinator field, except when a checkpoint is
due while `taprootConfig` is absent and `newTaprootConfig` is present: then it assigns
`taprootConfig`, `newTaprootConfig`, `pubkey`, `tweakedValue`, `participants` and
`newDKGComplete`, and nothing else.  Neither step changes `ptxid` or the stored
rosters. -/
theorem match_step_frame (env : Env) (m : Machine) (oldTs newTs : TipSet)
    (oldSt newSt : MpowerState) (diff : diffInfo) :
    { (matchNewConfig env m oldTs newTs oldSt newSt diff).1.c with
        newParticipants := m.c.newParticipants } = m.c
    ∧ ((matchNewConfig env m oldTs newTs oldSt newSt diff).2.2.1 = true →
        (matchNewConfig env m oldTs newTs oldSt newSt diff).1.c.newParticipants = newSt.Miners)
    ∧ ((matchNewConfig env m oldTs newTs oldSt newSt diff).2.2.1 = false →
        (matchNewConfig env m oldTs newTs oldSt newSt diff).1.c = m.c)
    ∧ (matchNewConfig env m oldTs newTs oldSt newSt diff).1.mem = m.mem
    ∧ (¬ (newTs.height.tmod checkpointFrequency = 0 ∧ 0 < (m.read oldSt.Miners).length
          ∧ m.c.taprootConfig = none ∧ m.c.newTaprootConfig ≠ none) →
        (matchCheckpoint env m oldTs newTs oldSt newSt diff).1.c = m.c)
    ∧ { (matchCheckpoint env m oldTs newTs oldSt newSt diff).1.c with
          taprootConfig := m.c.taprootConfig
          tweakedValue := m.c.tweakedValue
          pubkey := m.c.pubkey
          newTaprootConfig := m.c.newTaprootConfig
          participants := m.c.participants
          newDKGComplete := m.c.newDKGComplete } = m.c
    ∧ (matchCheckpoint env m oldTs newTs oldSt newSt diff).1.c.ptxid = m.c.ptxid
    ∧ (matchCheckpoint env m oldTs newTs oldSt newSt diff).1.c.newParticipants
        = m.c.newParticipants
    ∧ (matchCheckpoint env m oldTs newTs oldSt newSt diff).1.mem = m.mem := by
  obtain ⟨f1, f2⟩ := matchCheckpoint_fields env m oldTs newTs oldSt newSt diff
  refine ⟨?_, ?_, ?_, (matchNewConfig_frame env m oldTs newTs oldSt newSt diff).2.1,
    matchCheckpoint_same env m oldTs newTs oldSt newSt diff, f1,
    congrArg (fun c => c.ptxid) f1, congrArg (fun c => c.newParticipants) f1, f2⟩
  · simp only [matchNewConfig]
    repeat' split
    all_goals rfl
  · simp only [matchNewConfig]
    repeat' split
    all_goals simp
  · simp only [matchNewConfig]
    repeat' split
    all_goals simp

/-- A run of the amended C19 statement: at the transition from height 29 to 30 the
signer `demoStates`, which holds a current share, is left unchanged by
`matchCheckpoint`. -/
theorem match_step_frame_witness :
    ¬ (ts30.height.tmod checkpointFrequency = 0 ∧ 0 < (demoStates.read (some 1)).length
        ∧ demoStates.c.taprootConfig = none ∧ demoStates.c.newTaprootConfig ≠ none)
    ∧ (matchCheckpoint demoEnv demoStates ts29 ts30 ⟨some 1, []⟩ ⟨some 2, []⟩
        diffInfo.empty).1.c = demoStates.c :=
  ⟨by decide,
    (match_step_frame demoEnv demoStates ts29 ts30 ⟨some 1, []⟩ ⟨some 2, []⟩
      diffInfo.empty).2.2.2.2.1 (by decide)⟩

/-- C19 as stated fails: `matchNewConfig` changes `newParticipants`, and
`matchCheckpoint` changes `taprootConfig`, `newTaprootConfig`, `pubkey`, `tweakedValue`,
`participants` and `newDKGComplete` of a node whose new share is pending. -/
theorem match_step_mutates_coordinator :
    (demoStates.c.newParticipants = none
      ∧ (matchNewConfig demoEnv demoStates ts29 ts30 ⟨some 1, []⟩ ⟨some 2, []⟩
          diffInfo.empty).1.c.newParticipants = some 2)
    ∧ (demoObserver.c.taprootConfig = none
      ∧ (matchCheckpoint demoEnv demoObserver ts29 ts30 ⟨some 1, []⟩ ⟨some 2, []⟩
          diffInfo.empty).1.c.taprootConfig = some demoConfig)
    ∧ (demoObserver.c.newTaprootConfig = some demoConfig
      ∧ (matchCheckpoint demoEnv demoObserver ts29 ts30 ⟨some 1, []⟩ ⟨some 2, []⟩
          diffInfo.empty).1.c.newTaprootConfig = none)
    ∧ (demoObserver.c.pubkey = [4]
      ∧ (matchCheckpoint demoEnv demoObserver ts29 ts30 ⟨some 1, []⟩ ⟨some 2, []⟩
          diffInfo.empty).1.c.pubkey = [2, 3, 1])
    ∧ (demoObserver.c.tweakedValue = [5]
      ∧ (matchCheckpoint demoEnv demoObserver ts29 ts30 ⟨some 1, []⟩ ⟨some 2, []⟩
          diffInfo.empty).1.c.tweakedValue = [2, 2, 3, 1, 2, 3, 1])
    ∧ (demoObserver.c.participants = none
      ∧ (matchCheckpoint demoEnv demoObserver ts29 ts30 ⟨some 1, []⟩ ⟨some 2, []⟩
          diffInfo.empty).1.c.participants = some 2)
    ∧ (demoObserver.c.newDKGComplete = true
      ∧ (matchCheckpoint demoEnv demoObserver ts29 ts30 ⟨some 1, []⟩ ⟨some 2, []⟩
          diffInfo.empty).1.c.newDKGComplete = false) :=
  ⟨by decide, ⟨rfl, rfl⟩, ⟨rfl, rfl⟩, by decide, by decide, by decide, by decide⟩

/-- C20: emission of the new roster.  Starting from a diff without new roster,
`matchNewConfig` reports a change if and only if `sameStringSlice` is false for the two
miner lists and the identifier of this node occurs in the new miner list; in that case,
and only then, the new roster of the diff is set, to the miner list of the new state.
In every other case it reports no change and the diff is as before, its new roster
unset.  It never returns an error. -/
theorem matchNewConfig_emission (env : Env) (m : Machine) (oldTs newTs : TipSet)
    (oldSt newSt : MpowerState) (diff : diffInfo) (h : diff.newMiners = none) :
    ((matchNewConfig env m oldTs newTs oldSt newSt diff).2.2.1 = true ↔
      (env.sameStringSlice (m.read oldSt.Miners) (m.read newSt.Miners) = false
        ∧ m.c.hostID ∈ m.read newSt.Miners))
    ∧ ((matchNewConfig env m oldTs newTs oldSt newSt diff).2.1.newMiners ≠ none ↔
      (env.sameStringSlice (m.read oldSt.Miners) (m.read newSt.Miners) = false
        ∧ m.c.hostID ∈ m.read newSt.Miners))
    ∧ ((matchNewConfig env m oldTs newTs oldSt newSt diff).2.2.1 = true →
        (matchNewConfig env m oldTs newTs oldSt newSt diff).2.1
          = { diff with newMiners := newSt.Miners })
    ∧ ((matchNewConfig env m oldTs newTs oldSt newSt diff).2.2.1 = false →
        (matchNewConfig env m oldTs newTs oldSt newSt diff).2.1 = diff
        ∧ (matchNewConfig env m oldTs newTs oldSt newSt diff).2.1.newMiners = none)
    ∧ (matchNewConfig env m oldTs newTs oldSt newSt diff).2.2.2 = .ok := by
  simp only [matchNewConfig]
  split
  · rename_i hs
    simp [hs, h]
  · rename_i hs
    have hs2 : env.sameStringSlice (m.read oldSt.Miners) (m.read newSt.Miners) = false := by
      simpa using hs
    split
    · rename_i hm
      have hne : newSt.Miners ≠ none := by
        intro e
        rw [e] at hm
        simp [Machine.read, readSlice] at hm
      simp [hs2, hm, hne]
    · rename_i hm
      simp [hs2, hm, h]

/-- A run of C20: the roster changes from `C, A, B` to `A, B, D` and the node `A` is in
the new one. -/
theorem matchNewConfig_emission_witness :
    diffInfo.empty.newMiners = none
    ∧ (demoEnv.sameStringSlice (demoStates.read (some 1)) (demoStates.read (some 2)) = false
        ∧ demoStates.c.hostID ∈ demoStates.read (some 2))
    ∧ (matchNewConfig demoEnv demoStates ts29 ts30 ⟨some 1, []⟩ ⟨some 2, []⟩
        diffInfo.empty).2.2.1 = true
    ∧ (matchNewConfig demoEnv demoStates ts29 ts30 ⟨some 1, []⟩ ⟨some 2, []⟩
        diffInfo.empty).2.1 = { diffInfo.empty with newMiners := some 2 } :=
  ⟨rfl, by decide,
    (matchNewConfig_emission demoEnv demoStates ts29 ts30 ⟨some 1, []⟩ ⟨some 2, []⟩
      diffInfo.empty rfl).1.2 (by decide),
    (matchNewConfig_emission demoEnv demoStates ts29 ts30 ⟨some 1, []⟩ ⟨some 2, []⟩
      diffInfo.empty rfl).2.2.1 (by decide)⟩

/-! ## Frame of `CreateCheckpoint` and of `triggerChange` -/

/-- The fields the last stretch of `CreateCheckpoint` never assigns, and what it does
to the shares and to the flag `newDKGComplete`. -/
theorem commit_fields (env : Env) (m : Machine) (cp : Bytes) (k : CheckpointKeys) (t : RawTx)
    (r : Bytes) :
    (CreateCheckpoint_commit env m cp k t r).1.c.hostID = m.c.hostID
    ∧ (CreateCheckpoint_commit env m cp k t r).1.c.newKey = m.c.newKey
    ∧ (CreateCheckpoint_commit env m cp k t r).1.c.synced = m.c.synced
    ∧ (CreateCheckpoint_commit env m cp k t r).1.c.cpconfig = m.c.cpconfig
    ∧ ((CreateCheckpoint_commit env m cp k t r).1.c.taprootConfig = m.c.taprootConfig
        ∨ ∃ cfg, m.c.newTaprootConfig = some cfg
            ∧ (CreateCheckpoint_commit env m cp k t r).1.c.taprootConfig = some cfg)
    ∧ (((CreateCheckpoint_commit env m cp k t r).1.c.newTaprootConfig = m.c.newTaprootConfig
          ∧ (CreateCheckpoint_commit env m cp k t r).1.c.newDKGComplete = m.c.newDKGComplete)
        ∨ ((CreateCheckpoint_commit env m cp k t r).1.c.newTaprootConfig = none
          ∧ (CreateCheckpoint_commit env m cp k t r).1.c.newDKGComplete = false))
    ∧ (m.c.newTaprootConfig = none →
        (CreateCheckpoint_commit env m cp k t r).1.c.taprootConfig = m.c.taprootConfig
        ∧ (CreateCheckpoint_commit env m cp k t r).1.c.newTaprootConfig = none) := by
  simp only [CreateCheckpoint_commit, CreateCheckpoint_rotate, Machine.log]
  repeat' split
  all_goals simp_all

/-- The fields `CreateCheckpoint` never assigns, and what it does to the shares and to
the flag `newDKGComplete`, whichever way it ends. -/
theorem CreateCheckpoint_fields (env : Env) (m : Machine) (cp data : Bytes) (p : StrSlice) :
    (CreateCheckpoint env m cp data p).1.c.hostID = m.c.hostID
    ∧ (CreateCheckpoint env m cp data p).1.c.newKey = m.c.newKey
    ∧ (CreateCheckpoint env m cp data p).1.c.synced = m.c.synced
    ∧ (CreateCheckpoint env m cp data p).1.c.cpconfig = m.c.cpconfig
    ∧ ((CreateCheckpoint env m cp data p).1.c.taprootConfig = m.c.taprootConfig
        ∨ ∃ cfg, m.c.newTaprootConfig = some cfg
            ∧ (CreateCheckpoint env m cp data p).1.c.taprootConfig = some cfg)
    ∧ (((CreateCheckpoint env m cp data p).1.c.newTaprootConfig = m.c.newTaprootConfig
          ∧ (CreateCheckpoint env m cp data p).1.c.newDKGComplete = m.c.newDKGComplete)
        ∨ ((CreateCheckpoint env m cp data p).1.c.newTaprootConfig = none
          ∧ (CreateCheckpoint env m cp data p).1.c.newDKGComplete = false))
    ∧ (m.c.newTaprootConfig = none →
        (CreateCheckpoint env m cp data p).1.c.taprootConfig = m.c.taprootConfig
        ∧ (CreateCheckpoint env m cp data p).1.c.newTaprootConfig = none) := by
  obtain ⟨-, s2, -⟩ := prepare_spec env m cp data p
  cases hp : CreateCheckpoint_prepare env m cp data p with
  | exit m1 out =>
    rw [prepare_machine_of_exit _ _ _ _ _ _ _ hp]
    rw [hp] at s2
    simp only [Stage.machine] at s2
    have e1 : m1.c.hostID = m.c.hostID := congrArg (fun c => c.hostID) s2
    have e2 : m1.c.newKey = m.c.newKey := congrArg (fun c => c.newKey) s2
    have e3 : m1.c.synced = m.c.synced := congrArg (fun c => c.synced) s2
    have e4 : m1.c.cpconfig = m.c.cpconfig := congrArg (fun c => c.cpconfig) s2
    have e5 : m1.c.taprootConfig = m.c.taprootConfig := congrArg (fun c => c.taprootConfig) s2
    have e6 : m1.c.newTaprootConfig = m.c.newTaprootConfig :=
      congrArg (fun c => c.newTaprootConfig) s2
    have e7 : m1.c.newDKGComplete = m.c.newDKGComplete :=
      congrArg (fun c => c.newDKGComplete) s2
    exact ⟨e1, e2, e3, e4, Or.inl e5, Or.inl ⟨e6, e7⟩, fun h => ⟨e5, by rw [e6, h]⟩⟩
  | next m4 s =>
    rw [prepare_machine_of_next _ _ _ _ _ _ _ hp]
    rw [hp] at s2
    simp only [Stage.machine] at s2
    have e1 : m4.c.hostID = m.c.hostID := congrArg (fun c => c.hostID) s2
    have e2 : m4.c.newKey = m.c.newKey := congrArg (fun c => c.newKey) s2
    have e3 : m4.c.synced = m.c.synced := congrArg (fun c => c.synced) s2
    have e4 : m4.c.cpconfig = m.c.cpconfig := congrArg (fun c => c.cpconfig) s2
    have e5 : m4.c.taprootConfig = m.c.taprootConfig := congrArg (fun c => c.taprootConfig) s2
    have e6 : m4.c.newTaprootConfig = m.c.newTaprootConfig :=
      congrArg (fun c => c.newTaprootConfig) s2
    have e7 : m4.c.newDKGComplete = m.c.newDKGComplete :=
      congrArg (fun c => c.newDKGComplete) s2
    obtain ⟨c1, c2, c3, c4, c5, c6, c7⟩ := commit_fields env m4 cp s.k s.t s.r
    rw [e1] at c1
    rw [e2] at c2
    rw [e3] at c3
    rw [e4] at c4
    rw [e5, e6] at c5
    rw [e6, e7] at c6
    rw [e5, e6] at c7
    exact ⟨c1, c2, c3, c4, c5, c6, c7⟩

/-- The fields `triggerChange` never assigns, and what it does to the current share. -/
theorem triggerChange_fields (env : Env) (m : Machine) (diff : diffInfo) :
    (triggerChange env m diff).1.c.hostID = m.c.hostID
    ∧ (triggerChange env m diff).1.c.synced = m.c.synced
    ∧ (m.c.taprootConfig ≠ none → (triggerChange env m diff).1.c.taprootConfig ≠ none) := by
  obtain ⟨-, k2, -, -⟩ := triggerChange_keys_frame env m diff
  have hk : (triggerChange_keys env m diff).1.c.hostID = m.c.hostID
      ∧ (triggerChange_keys env m diff).1.c.synced = m.c.synced := by
    unfold triggerChange_keys
    split
    · have h := GenerateNewKeys_fields env
        (m.log (.GenerateNewKeys (m.read diff.newMiners))) diff.newMiners
      exact ⟨congrArg (fun c => c.hostID) h, congrArg (fun c => c.synced) h⟩
    · exact ⟨rfl, rfl⟩
  unfold triggerChange
  simp only
  split
  · exact ⟨hk.1, hk.2, fun h => by rw [k2]; exact h⟩
  · split
    · rename_i cp hash hcp hhash
      obtain ⟨f1, -, f3, -, f5, -, -⟩ := CreateCheckpoint_fields env
        ((triggerChange_keys env m diff).1.log (.CreateCheckpoint cp hash
          ((triggerChange_keys env m diff).1.read (triggerChange_keys env m diff).1.c.participants)))
        cp hash (triggerChange_keys env m diff).1.c.participants
      refine ⟨f1.trans hk.1, f3.trans hk.2, fun h => ?_⟩
      rcases f5 with f5 | ⟨cfg, -, f5⟩
      · rw [f5]
        exact fun e => h (k2 ▸ e)
      · rw [f5]
        simp
    · exact ⟨hk.1, hk.2, fun h => by rw [k2]; exact h⟩

/-- C30: the inspection of the script is not total.  When `getTxOut` returns an empty
script for output 0, the test of its first byte is an access out of range and
`CreateCheckpoint` panics; and when the script of output 0 does not start with `0x51`,
output 1 is taken without looking at its script: here it starts with `0x6a`, the
`createrawtransaction` request spends it and the run ends without error. -/
theorem CreateCheckpoint_script_inspection :
    ((emptyScriptEnv.getTxOut "btc" "aa" 0).2 = []
      ∧ callsSince demo (CreateCheckpoint emptyScriptEnv demo [1] [9] (some 0)).1
          = [.addTaprootToWallet "btc" "512004", .getTxOut "btc" "aa" 0]
      ∧ (CreateCheckpoint emptyScriptEnv demo [1] [9] (some 0)).2
          = .panic "index out of range")
    ∧ ((noTaprootEnv.getTxOut "btc" "aa" 1).2.head? = some 0x6a
      ∧ Call.getTxOut "btc" "aa" 1
          ∈ callsSince demo (CreateCheckpoint noTaprootEnv demo [1] [9] (some 0)).1
      ∧ Call.jsonRPC "btc" (createRawTransactionPayload "aa" 1 "bcrt1p020301" "0.00001000" [9])
          ∈ callsSince demo (CreateCheckpoint noTaprootEnv demo [1] [9] (some 0)).1
      ∧ (CreateCheckpoint noTaprootEnv demo [1] [9] (some 0)).2 = .ok) := by
  decide

/-- C22 (amended): a participant that leaves the roster keeps its share.  For a node
that holds a share, has no new share pending and is absent from the new roster,
`matchNewConfig` reports no change and leaves the state and the diff as they are, so no
key generation is started for it; `matchCheckpoint` leaves the state as it is; and after
`triggerChange` on a diff without new roster, whether the checkpoint succeeds or not,
`taprootConfig` still holds the same share and `newTaprootConfig` is absent.  A
successful `CreateCheckpoint` of a node whose `newDKGComplete` is set leaves
`participants` equal to the former `newParticipants`. -/
theorem leaving_participant_share (env : Env) (m : Machine) (oldTs newTs : TipSet)
    (oldSt newSt : MpowerState) (cfg : TaprootConfig)
    (hshare : m.c.taprootConfig = some cfg) (hnew : m.c.newTaprootConfig = none)
    (hleft : m.c.hostID ∉ m.read newSt.Miners) :
    matchNewConfig env m oldTs newTs oldSt newSt diffInfo.empty = (m, diffInfo.empty, false, .ok)
    ∧ (∀ diff, (matchCheckpoint env m oldTs newTs oldSt newSt diff).1.c = m.c
        ∧ (matchCheckpoint env m oldTs newTs oldSt newSt diff).2.1.newMiners = diff.newMiners)
    ∧ (∀ d : diffInfo, d.newMiners = none →
        (triggerChange env m d).1.c.taprootConfig = some cfg
        ∧ (triggerChange env m d).1.c.newTaprootConfig = none)
    ∧ ∀ (env2 : Env) (m2 : Machine) (cp data : Bytes) (p : StrSlice),
        m2.c.newDKGComplete = true → (CreateCheckpoint env2 m2 cp data p).2 = .ok →
        (CreateCheckpoint env2 m2 cp data p).1.c.participants = m2.c.newParticipants := by
  refine ⟨?_, ?_, ?_, ?_⟩
  · simp only [matchNewConfig]
    rw [if_neg hleft]
    split <;> rfl
  · intro diff
    refine ⟨matchCheckpoint_same env m oldTs newTs oldSt newSt diff ?_, ?_⟩
    · rintro ⟨-, -, h3, -⟩
      rw [hshare] at h3
      cases h3
    · simp only [matchCheckpoint]
      repeat' split
      all_goals rfl
  · intro d hd
    have hk : triggerChange_keys env m d = (m, .ok) := by
      unfold triggerChange_keys
      rw [hd]
      rfl
    unfold triggerChange
    simp only [hk]
    repeat' split
    · rename_i h
      exact absurd rfl h
    · rename_i cp hash hcp hhash
      obtain ⟨-, -, -, -, -, -, f7⟩ := CreateCheckpoint_fields env
        (m.log (.CreateCheckpoint cp hash (m.read m.c.participants))) cp hash m.c.participants
      obtain ⟨g1, g2⟩ := f7 hnew
      exact ⟨g1.trans hshare, g2⟩
    · exact ⟨hshare, hnew⟩
  · intro env2 m2 cp data p hdkg hok
    obtain ⟨m4, s, newtxid, -, -, hm, hc⟩ := CreateCheckpoint_ok env2 m2 cp data p hok
    have e1 : m4.c.newDKGComplete = m2.c.newDKGComplete :=
      congrArg (fun c => c.newDKGComplete) hc
    have e2 : m4.c.newParticipants = m2.c.newParticipants :=
      congrArg (fun c => c.newParticipants) hc
    rw [hm]
    rw [← e2]
    cases hn : m4.c.newTaprootConfig <;>
      simp [CreateCheckpoint_rotate, hn, e1, hdkg]

/-- A run of the amended C22 statement: the signer `C`, absent from the new roster
`A, B, D` held at address 2, still holds its share after the checkpoint at height 30. -/
theorem leaving_participant_share_witness :
    leavingStates.c.taprootConfig = some demoConfig
    ∧ leavingStates.c.newTaprootConfig = none
    ∧ leavingStates.read (some 2) = ["A", "B", "D"]
    ∧ leavingStates.c.hostID ∉ leavingStates.read (some 2)
    ∧ (triggerChange demoEnv leavingStates checkpointDiff).1.c.taprootConfig = some demoConfig
    ∧ (triggerChange demoEnv leavingStates checkpointDiff).1.c.newTaprootConfig = none :=
  ⟨rfl, rfl, rfl, by decide,
    (leaving_participant_share demoEnv leavingStates ts29 ts30 ⟨some 1, []⟩ ⟨some 2, []⟩
      demoConfig rfl rfl (by decide)).2.2.1 checkpointDiff rfl⟩

/-- C22 as stated fails: the signer `C` holds a share and is absent from the new roster
`A, B, D`.  The transition from height 29 to 30 gives it a diff without new roster; the
checkpoint for that diff succeeds; afterwards the share is still present, and
`participants` is the old roster `A, B, C`, not `newParticipants`. -/
theorem leaving_participant_keeps_share_and_roster :
    (listenCheckpointEvents_match demoEnv leaving ts29 ts30).states = some checkpointDiff
    ∧ (listenCheckpointEvents_match demoEnv leaving ts29 ts30).m.c = leaving.c
    ∧ "C" ∉ ["A", "B", "D"]
    ∧ (triggerChange demoEnv (listenCheckpointEvents_match demoEnv leaving ts29 ts30).m
        checkpointDiff).2.2 = .ok
    ∧ (triggerChange demoEnv (listenCheckpointEvents_match demoEnv leaving ts29 ts30).m
        checkpointDiff).1.c.taprootConfig = some demoConfig
    ∧ (triggerChange demoEnv (listenCheckpointEvents_match demoEnv leaving ts29 ts30).m
        checkpointDiff).1.c.participants = some 0
    ∧ (triggerChange demoEnv (listenCheckpointEvents_match demoEnv leaving ts29 ts30).m
        checkpointDiff).1.read (some 0) = ["A", "B", "C"]
    ∧ (triggerChange demoEnv (listenCheckpointEvents_match demoEnv leaving ts29 ts30).m
        checkpointDiff).1.c.newParticipants = none := by
  decide

/-! ## The synced gate and the states the module can reach -/

theorem synced_next_synced (env : Env) (m m1 : Machine) (newTs : TipSet) (u : Unit)
    (h : listenCheckpointEvents_synced env m newTs = .next m1 u) : m1.c.synced = true := by
  simp only [listenCheckpointEvents_synced] at h
  repeat' split at h
  all_goals first
    | (cases h; done)
    | (cases h; rfl)
    | (cases h
       rename_i hs
       simpa using hs)

theorem states_fields (env : Env) (m : Machine) (oldTs newTs : TipSet) :
    (listenCheckpointEvents_states env m oldTs newTs).machine.c = m.c := by
  simp only [listenCheckpointEvents_states]
  repeat' split
  all_goals rfl

theorem matchNewConfig_fields (env : Env) (m : Machine) (oldTs newTs : TipSet)
    (oldSt newSt : MpowerState) (diff : diffInfo) :
    { (matchNewConfig env m oldTs newTs oldSt newSt diff).1.c with
        newParticipants := m.c.newParticipants } = m.c := by
  simp only [matchNewConfig]
  repeat' split
  all_goals rfl

/-- A roster hash is put into the diff only by a node that holds a share. -/
theorem matchCheckpoint_hash_set (env : Env) (m : Machine) (oldTs newTs : TipSet)
    (oldSt newSt : MpowerState) (diff : diffInfo) (h : diff.hash = none)
    (hh : (matchCheckpoint env m oldTs newTs oldSt newSt diff).2.1.hash ≠ none) :
    m.c.taprootConfig ≠ none := by
  simp only [matchCheckpoint] at hh
  repeat' split at hh
  all_goals first
    | exact absurd h hh
    | simp_all

/-- In the model the read of `newTaprootConfig.PublicKey` in the promotion branch is
the only place where `matchCheckpoint` can panic, and the guard of line 409 excludes
it. -/
theorem matchCheckpoint_no_panic (env : Env) (m : Machine) (oldTs newTs : TipSet)
    (oldSt newSt : MpowerState) (diff : diffInfo) (e : String) :
    (matchCheckpoint env m oldTs newTs oldSt newSt diff).2.2.2 ≠ .panic e := by
  simp only [matchCheckpoint]
  split
  · rename_i hg
    split
    · rename_i ht
      split
      · rename_i hn
        rcases hg.2.2 with h | h
        · exact absurd ht h
        · exact absurd hn h
      · simp
    · repeat' split
      all_goals simp
  · simp

/-- What a run of `match` does to the flag `synced` and to the current share. -/
theorem match_fields (env : Env) (m : Machine) (oldTs newTs : TipSet) :
    (m.c.synced = true → (listenCheckpointEvents_match env m oldTs newTs).m.c.synced = true)
    ∧ (m.c.taprootConfig ≠ none →
        (listenCheckpointEvents_match env m oldTs newTs).m.c.taprootConfig ≠ none) := by
  cases hg : listenCheckpointEvents_synced env m newTs with
  | exit m1 out =>
    have e := synced_exit _ _ _ _ _ hg
    simp only [listenCheckpointEvents_match, hg]
    rw [e]
    exact ⟨id, id⟩
  | next m1 u =>
    obtain ⟨-, -, g3, -⟩ := synced_frame _ _ _ _ _ hg
    have g5 := synced_next_synced _ _ _ _ _ hg
    have sf := states_fields env m1 oldTs newTs
    cases hs : listenCheckpointEvents_states env m1 oldTs newTs with
    | exit m2 out =>
      rw [hs] at sf
      simp only [Stage.machine] at sf
      simp only [listenCheckpointEvents_match, hg, hs]
      rw [sf]
      exact ⟨fun _ => g5, fun h => by rw [g3]; exact h⟩
    | next m2 pr =>
      obtain ⟨oldSt, newSt⟩ := pr
      rw [hs] at sf
      simp only [Stage.machine] at sf
      obtain ⟨-, -, n3, -, -, -, n7⟩ :=
        matchNewConfig_frame env m2 oldTs newTs oldSt newSt diffInfo.empty
      have nf := matchNewConfig_fields env m2 oldTs newTs oldSt newSt diffInfo.empty
      have ns : (matchNewConfig env m2 oldTs newTs oldSt newSt diffInfo.empty).1.c.synced
          = m2.c.synced := congrArg (fun c => c.synced) nf
      obtain ⟨cf, -⟩ := matchCheckpoint_fields env
        (matchNewConfig env m2 oldTs newTs oldSt newSt diffInfo.empty).1 oldTs newTs oldSt newSt
        (matchNewConfig env m2 oldTs newTs oldSt newSt diffInfo.empty).2.1
      have cs : (matchCheckpoint env
          (matchNewConfig env m2 oldTs newTs oldSt newSt diffInfo.empty).1 oldTs newTs oldSt newSt
          (matchNewConfig env m2 oldTs newTs oldSt newSt diffInfo.empty).2.1).1.c.synced
          = (matchNewConfig env m2 oldTs newTs oldSt newSt diffInfo.empty).1.c.synced :=
        congrArg (fun c => c.synced) cf
      have hm : (listenCheckpointEvents_match env m oldTs newTs).m
          = (matchCheckpoint env
              (matchNewConfig env m2 oldTs newTs oldSt newSt diffInfo.empty).1 oldTs newTs
              oldSt newSt
              (matchNewConfig env m2 oldTs newTs oldSt newSt diffInfo.empty).2.1).1 := by
        simp only [listenCheckpointEvents_match, hg, hs]
        rw [if_neg (by rw [n7]; simp)]
        split <;> rfl
      rw [hm]
      refine ⟨fun _ => by rw [cs, ns, sf]; exact g5, fun h => ?_⟩
      have h3 : (matchNewConfig env m2 oldTs newTs oldSt newSt diffInfo.empty).1.c.taprootConfig
          ≠ none := by
        rw [n3, sf, g3]
        exact h
      rw [matchCheckpoint_same _ _ _ _ _ _ _ (fun hc => h3 hc.2.2.1)]
      exact h3

/-- A diff that `match` returns with a roster hash comes from a node that holds a
share, and the node still holds it when `match` returns. -/
theorem match_hash_share (env : Env) (m : Machine) (oldTs newTs : TipSet) (d : diffInfo)
    (h : (listenCheckpointEvents_match env m oldTs newTs).states = some d)
    (hh : d.hash ≠ none) :
    (listenCheckpointEvents_match env m oldTs newTs).m.c.taprootConfig ≠ none := by
  obtain ⟨m2, oldSt, newSt, diff1, -, -, -, -, -, -, -, -, -, -, -, -, -, -, d1, d2, d3⟩ :=
    match_states env m oldTs newTs d h
  rw [d3] at hh
  have h2 := matchCheckpoint_hash_set env m2 oldTs newTs oldSt newSt diff1 d1 hh
  rw [d2, matchCheckpoint_same _ _ _ _ _ _ _ (fun hc => h2 hc.2.2.1)]
  exact h2

theorem NewCheckpointSub_share_start (boot : Boot) (synced : Bool)
    (taprootConfig : Option TaprootConfig) (minerSigners : List String)
    (h : NewCheckpointSub_share boot = .ok (synced, taprootConfig, minerSigners)) :
    synced = boot.shareFile ∧ (taprootConfig ≠ none ↔ boot.shareFile = true) := by
  simp only [NewCheckpointSub_share] at h
  repeat' split at h
  all_goals first
    | (cases h; done)
    | (cases h
       simp_all)

theorem NewCheckpointSub_start (boot : Boot) (m : Machine) (h : NewCheckpointSub boot = .ok m) :
    m.c.synced = boot.shareFile ∧ (m.c.taprootConfig ≠ none ↔ boot.shareFile = true)
    ∧ m.c.newTaprootConfig = none ∧ m.c.newDKGComplete = false ∧ m.trace = [] := by
  simp only [NewCheckpointSub] at h
  repeat' split at h
  all_goals first
    | (cases h; done)
    | (obtain ⟨s1, s2⟩ := NewCheckpointSub_share_start boot _ _ _ (by assumption)
       cases h
       exact ⟨s1, s2, rfl, rfl, rfl⟩)

theorem watch_machine (env : Env) (s : Sys) (oldTs newTs : TipSet) :
    (s.watch env oldTs newTs).m = (listenCheckpointEvents_match env s.m oldTs newTs).m := by
  simp only [Sys.watch]
  repeat' split
  all_goals rfl

theorem watch_emitted (env : Env) (s : Sys) (oldTs newTs : TipSet) (d : diffInfo)
    (h : d ∈ (s.watch env oldTs newTs).emitted) :
    d ∈ s.emitted ∨ (listenCheckpointEvents_match env s.m oldTs newTs).states = some d := by
  simp only [Sys.watch] at h
  split at h
  · rename_i d1 hd
    split at h
    · rcases List.mem_append.1 h with h | h
      · exact Or.inl h
      · rw [List.mem_singleton.1 h]
        exact Or.inr hd
    · exact Or.inl h
  · exact Or.inl h

/-- An unsynced node whose host does not report its last active sync at the height of
the new tipset is stopped at the gate: `match` returns at once, with the machine as
it was. -/
theorem synced_gate_closed (env : Env) (m : Machine) (newTs : TipSet)
    (hs : m.c.synced = false)
    (hnot : ∀ acts, env.SyncState = .ok acts →
      ¬ (0 < acts.length ∧ acts.getLast? = some newTs.height)) :
    ∃ out, listenCheckpointEvents_synced env m newTs = .exit m out := by
  simp only [listenCheckpointEvents_synced]
  cases h : env.SyncState with
  | error e => exact ⟨_, rfl⟩
  | ok acts =>
    simp only
    rw [if_pos hs, if_neg (hnot acts h)]
    exact ⟨_, rfl⟩

/-- C21 (amended): the synced gate.  A node that is not synced emits no diff for a
transition observed while the active-sync list of the host is empty or its last
worker is not at the height of the new tipset: `match` returns no change and no
state-change value and leaves the module as it was.  A node that is synced stays
synced through every run of `match` and of the handler.  `NewCheckpointSub` starts a
node unsynced exactly when there is no share file; a node started with a share file
is synced from the start, so the gate does not apply to it. -/
theorem match_synced_gate (env : Env) (s : Sys) (oldTs newTs : TipSet) :
    (s.m.c.synced = false →
      (∀ acts, env.SyncState = .ok acts →
        ¬ (0 < acts.length ∧ acts.getLast? = some newTs.height)) →
      (listenCheckpointEvents_match env s.m oldTs newTs).changed = false
      ∧ (listenCheckpointEvents_match env s.m oldTs newTs).states = none
      ∧ s.watch env oldTs newTs = s)
    ∧ (s.m.c.synced = true →
        (s.watch env oldTs newTs).m.c.synced = true
        ∧ ∀ d, (s.handle env d).m.c.synced = true)
    ∧ (∀ (boot : Boot) (m0 : Machine), NewCheckpointSub boot = .ok m0 →
        m0.c.synced = boot.shareFile
        ∧ (m0.c.taprootConfig ≠ none ↔ boot.shareFile = true)) := by
  refine ⟨?_, ?_, ?_⟩
  · intro hs hnot
    obtain ⟨out, hg⟩ := synced_gate_closed env s.m newTs hs hnot
    refine ⟨?_, ?_, ?_⟩
    · simp only [listenCheckpointEvents_match, hg]
    · simp only [listenCheckpointEvents_match, hg]
    · simp only [Sys.watch, listenCheckpointEvents_match, hg]
  · intro hs
    refine ⟨?_, fun d => ?_⟩
    · rw [watch_machine]
      exact (match_fields env s.m oldTs newTs).1 hs
    · have h := (triggerChange_fields env s.m d).2.1
      exact h.trans hs
  · intro boot m0 h
    obtain ⟨h1, h2, -⟩ := NewCheckpointSub_start boot m0 h
    exact ⟨h1, h2⟩

/-- A run of the amended C21 statement: the node `D`, started without share file, is
not synced; with an empty active-sync list `match` returns no diff. -/
theorem match_synced_gate_witness :
    bootedObserver.c.synced = false
    ∧ (∀ acts, noSyncEnv.SyncState = .ok acts →
        ¬ (0 < acts.length ∧ acts.getLast? = some ts30.height))
    ∧ (listenCheckpointEvents_match noSyncEnv bootedObserver ts29 ts30).changed = false
    ∧ (listenCheckpointEvents_match noSyncEnv bootedObserver ts29 ts30).states = none :=
  ⟨rfl, fun acts h => by cases h; simp,
    ((match_synced_gate noSyncEnv ⟨bootedObserver, []⟩ ts29 ts30).1 rfl
      (fun acts h => by cases h; simp)).1,
    ((match_synced_gate noSyncEnv ⟨bootedObserver, []⟩ ts29 ts30).1 rfl
      (fun acts h => by cases h; simp)).2.1⟩

/-- C21 as stated fails: the node `A` is started with a share file, so
`NewCheckpointSub` returns it synced; while the active-sync list of the host is empty,
`match` returns a change and a diff for the transition from height 29 to 30. -/
theorem match_emits_before_sync :
    (demoBoot.shareFile = true ∧ NewCheckpointSub demoBoot = .ok booted
      ∧ booted.c.synced = true)
    ∧ noSyncEnv.SyncState = .ok []
    ∧ (listenCheckpointEvents_match noSyncEnv booted ts29 ts30).changed = true
    ∧ (listenCheckpointEvents_match noSyncEnv booted ts29 ts30).states = some demoDiff :=
  ⟨⟨rfl, rfl, rfl⟩, rfl, by decide, by decide⟩

/-- With a current share present, the first stretch of `CreateCheckpoint` can only
panic at the read of `newTaprootConfig.PublicKey`. -/
theorem keys_panic (env : Env) (m m1 : Machine) (cp : Bytes) (e : String)
    (ht : m.c.taprootConfig ≠ none)
    (h : CreateCheckpoint_keys env m cp = .exit m1 (.panic e)) :
    m.c.newDKGComplete = true ∧ m.c.newTaprootConfig = none := by
  simp only [CreateCheckpoint_keys] at h
  repeat' split at h
  all_goals first
    | (cases h; done)
    | (rename_i hn; exact absurd hn ht)
    | (rename_i hc; exact hc)

/-- Every diff with a roster hash that `match` has returned so far was returned by a
node that holds a share, and the node holds a share now. -/
theorem reachable_share (s : Sys) (h : Reachable s) :
    ∀ d ∈ s.emitted, d.hash ≠ none → s.m.c.taprootConfig ≠ none := by
  induction h with
  | start boot m h => intro d hd; cases hd
  | watch env s oldTs newTs _ ih =>
    intro d hd hh
    rw [watch_machine]
    rcases watch_emitted env s oldTs newTs d hd with h1 | h1
    · exact (match_fields env s.m oldTs newTs).2 (ih d h1 hh)
    · exact match_hash_share env s.m oldTs newTs d h1 hh
  | handle env s d0 _ hd0 ih =>
    intro d hd hh
    exact (triggerChange_fields env s.m d0).2.2 (ih d hd hh)

/-- C28: a share is never dereferenced while absent.  In every state reachable from
`NewCheckpointSub` through runs of `match` and of the handler: (a) `matchCheckpoint`
never panics, so its promotion branch reads `newTaprootConfig.PublicKey` only when
`newTaprootConfig` is present; (b) when `triggerChange` starts `CreateCheckpoint` for a
diff that `match` returned, the diff carries a roster hash and `taprootConfig` is
present, before the call and when `CreateCheckpoint` starts, so a panic of its first
stretch could only come from the read of `newTaprootConfig.PublicKey`; (c) once
`taprootConfig` is present it is present after every further run of `match` and of the
handler. -/
theorem share_not_dereferenced_absent (s : Sys) (h : Reachable s) :
    (∀ (env : Env) (oldTs newTs : TipSet) (oldSt newSt : MpowerState) (diff : diffInfo)
        (e : String), (matchCheckpoint env s.m oldTs newTs oldSt newSt diff).2.2.2 ≠ .panic e)
    ∧ (∀ (env : Env) (d : diffInfo), d ∈ s.emitted →
        ∀ (cp data : Bytes) (ps : List String),
          Call.CreateCheckpoint cp data ps ∈ callsSince s.m (triggerChange env s.m d).1 →
          d.hash ≠ none ∧ s.m.c.taprootConfig ≠ none
          ∧ (triggerChange_keys env s.m d).1.c.taprootConfig ≠ none
          ∧ ∀ (m1 : Machine) (e : String),
              CreateCheckpoint_keys env
                  ((triggerChange_keys env s.m d).1.log (.CreateCheckpoint cp data ps)) cp
                = .exit m1 (.panic e) →
              (triggerChange_keys env s.m d).1.c.newDKGComplete = true
              ∧ (triggerChange_keys env s.m d).1.c.newTaprootConfig = none)
    ∧ (s.m.c.taprootConfig ≠ none →
        ∀ (env : Env),
          (∀ oldTs newTs, (s.watch env oldTs newTs).m.c.taprootConfig ≠ none)
          ∧ ∀ d, (s.handle env d).m.c.taprootConfig ≠ none) := by
  refine ⟨?_, ?_, ?_⟩
  · intro env oldTs newTs oldSt newSt diff e
    exact matchCheckpoint_no_panic env s.m oldTs newTs oldSt newSt diff e
  · intro env d hd cp data ps hc
    have hh := (triggerChange_starts_checkpoint env s.m d cp data ps hc).2
    have ht := reachable_share s h d hd hh
    have hk : (triggerChange_keys env s.m d).1.c.taprootConfig ≠ none := by
      rw [(triggerChange_keys_frame env s.m d).2.1]
      exact ht
    refine ⟨hh, ht, hk, ?_⟩
    intro m1 e hp
    exact keys_panic env
      ((triggerChange_keys env s.m d).1.log (.CreateCheckpoint cp data ps)) m1 cp e hk hp
  · intro ht env
    refine ⟨fun oldTs newTs => ?_, fun d => ?_⟩
    · rw [watch_machine]
      exact (match_fields env s.m oldTs newTs).2 ht
    · exact (triggerChange_fields env s.m d).2.2 ht

/-- A run of C28: the node `A` started with a share file; after `match` on the
transition from height 29 to 30 the handler starts `CreateCheckpoint` for the diff
returned, and the share is present. -/
theorem share_not_dereferenced_absent_witness :
    Reachable (bootedSys.watch demoEnv ts29 ts30)
    ∧ demoDiff ∈ (bootedSys.watch demoEnv ts29 ts30).emitted
    ∧ Call.CreateCheckpoint [1] [9] ["A", "B", "C"]
        ∈ callsSince (bootedSys.watch demoEnv ts29 ts30).m
            (triggerChange demoEnv (bootedSys.watch demoEnv ts29 ts30).m demoDiff).1
    ∧ demoDiff.hash ≠ none
    ∧ (bootedSys.watch demoEnv ts29 ts30).m.c.taprootConfig ≠ none :=
  ⟨Reachable.watch demoEnv bootedSys ts29 ts30 (Reachable.start demoBoot booted rfl),
    by decide, by decide,
    ((share_not_dereferenced_absent (bootedSys.watch demoEnv ts29 ts30)
      (Reachable.watch demoEnv bootedSys ts29 ts30 (Reachable.start demoBoot booted rfl))).2.1
      demoEnv demoDiff (by decide) [1] [9] ["A", "B", "C"] (by decide)).1,
    ((share_not_dereferenced_absent (bootedSys.watch demoEnv ts29 ts30)
      (Reachable.watch demoEnv bootedSys ts29 ts30 (Reachable.start demoBoot booted rfl))).2.1
      demoEnv demoDiff (by decide) [1] [9] ["A", "B", "C"] (by decide)).2.1⟩

/-- C29: the new-key-ready invariant is broken by the wrong-type exit of
`GenerateNewKeys`.  The node `A` comes out of `NewCheckpointSub`; a first key
generation succeeds and sets `newDKGComplete`; a second key generation returns a
result of the wrong type: `GenerateNewKeys` returns an error, `newTaprootConfig` is
absent and `newDKGComplete` is still set.  The next `CreateCheckpoint` panics at the
read of `newTaprootConfig.PublicKey`. -/
theorem new_key_ready_broken :
    NewCheckpointSub demoBoot = .ok booted
    ∧ ((GenerateNewKeys demoEnv booted (some 0)).2 = .ok
      ∧ (GenerateNewKeys demoEnv booted (some 0)).1.c.newDKGComplete = true
      ∧ (GenerateNewKeys demoEnv booted (some 0)).1.c.newTaprootConfig ≠ none)
    ∧ ((GenerateNewKeys wrongTypeEnv (GenerateNewKeys demoEnv booted (some 0)).1 (some 0)).2
        = .error "state change propagated is the wrong type"
      ∧ (GenerateNewKeys wrongTypeEnv
          (GenerateNewKeys demoEnv booted (some 0)).1 (some 0)).1.c.newDKGComplete = true
      ∧ (GenerateNewKeys wrongTypeEnv
          (GenerateNewKeys demoEnv booted (some 0)).1 (some 0)).1.c.newTaprootConfig = none)
    ∧ (CreateCheckpoint demoEnv
        (GenerateNewKeys wrongTypeEnv (GenerateNewKeys demoEnv booted (some 0)).1 (some 0)).1
        [1] [9] (some 0)).2 = .panic "nil pointer dereference" :=
  ⟨rfl, by decide, by decide, by decide⟩

/-! ## The wait for the first transaction -/

/-- The loop is still running as long as no call has reported the transaction. -/
theorem wait_not_yet (benv : BuildEnv) (host : String) (publickey cidBytes : Bytes) :
    ∀ (fuel calls : Nat),
      (∀ j, calls ≤ j → j < calls + fuel →
        (benv.CheckIfFirstTxHasBeenSent j host publickey cidBytes).1 = false) →
      BuildCheckpointingSub_wait benv host publickey cidBytes fuel calls = none
  | 0, _, _ => rfl
  | fuel + 1, calls, h => by
    simp only [BuildCheckpointingSub_wait]
    rw [if_neg (by rw [h calls (Nat.le_refl _) (by omega)]; simp)]
    exact wait_not_yet benv host publickey cidBytes fuel (calls + 1)
      (fun j h1 h2 => h j (by omega) (by omega))

/-- The loop ends at the first call that reports the transaction, whatever fuel is
left over. -/
theorem wait_first (benv : BuildEnv) (host : String) (publickey cidBytes : Bytes) (k : Nat)
    (hk : (benv.CheckIfFirstTxHasBeenSent k host publickey cidBytes).1 = true) :
    ∀ (fuel calls : Nat), calls ≤ k → k < calls + fuel →
      (∀ j, calls ≤ j → j < k →
        (benv.CheckIfFirstTxHasBeenSent j host publickey cidBytes).1 = false) →
      BuildCheckpointingSub_wait benv host publickey cidBytes fuel calls
        = some ((benv.CheckIfFirstTxHasBeenSent k host publickey cidBytes).2.1, k + 1)
  | 0, calls, h1, h2, _ => by omega
  | fuel + 1, calls, h1, h2, h => by
    simp only [BuildCheckpointingSub_wait]
    by_cases hc : calls = k
    · subst hc
      rw [if_pos hk]
    · rw [if_neg (by rw [h calls (Nat.le_refl _) (by omega)]; simp)]
      exact wait_first benv host publickey cidBytes k hk fuel (calls + 1) (by omega) (by omega)
        (fun j h3 h4 => h j (by omega) h4)

/-- When the loop ends, its last call is the first that reported the transaction, and
the txid is the one reported by that call. -/
theorem wait_result (benv : BuildEnv) (host : String) (publickey cidBytes : Bytes) :
    ∀ (fuel calls : Nat) (txid : String) (n : Nat),
      BuildCheckpointingSub_wait benv host publickey cidBytes fuel calls = some (txid, n) →
      calls < n ∧ n ≤ calls + fuel
      ∧ benv.CheckIfFirstTxHasBeenSent (n - 1) host publickey cidBytes
          = (true, txid, (benv.CheckIfFirstTxHasBeenSent (n - 1) host publickey cidBytes).2.2)
      ∧ ∀ j, calls ≤ j → j < n - 1 →
          (benv.CheckIfFirstTxHasBeenSent j host publickey cidBytes).1 = false
  | 0, _, _, _, h => by cases h
  | fuel + 1, calls, txid, n, h => by
    simp only [BuildCheckpointingSub_wait] at h
    split at h
    · rename_i hv
      cases h
      refine ⟨by omega, by omega, ?_, fun j h1 h2 => by omega⟩
      simp only [Nat.add_sub_cancel]
      rw [← hv]
    · rename_i hv
      obtain ⟨r1, r2, r3, r4⟩ := wait_result benv host publickey cidBytes fuel (calls + 1) txid n h
      refine ⟨by omega, by omega, r3, fun j h1 h2 => ?_⟩
      by_cases hj : j = calls
      · rw [hj]
        simpa using hv
      · exact r4 j (by omega) h2

theorem latest_ptxid (benv : BuildEnv) (m : Machine) (publickey cidBytes : Bytes) :
    (BuildCheckpointingSub_latest benv m publickey cidBytes).1.c.ptxid = m.c.ptxid := by
  simp only [BuildCheckpointingSub_latest]
  repeat' split
  all_goals rfl

theorem rest_ptxid (env : Env) (benv : BuildEnv) (m : Machine) (publickey cidBytes : Bytes) :
    (BuildCheckpointingSub_rest env benv m publickey cidBytes).c.ptxid = m.c.ptxid := by
  have hl := latest_ptxid benv m publickey cidBytes
  simp only [BuildCheckpointingSub_rest]
  split
  · rename_i m1 heq
    rw [heq] at hl
    exact hl
  · rename_i m1 heq
    rw [heq] at hl
    split
    · exact hl
    · exact hl

theorem init_cpconfig (env : Env) (benv : BuildEnv) (m : Machine) (cfg : TaprootConfig)
    (cidBytes : Bytes) :
    (BuildCheckpointingSub_init env benv m cfg cidBytes).1.c.cpconfig = m.c.cpconfig := by
  simp only [BuildCheckpointingSub_init, BuildCheckpointingSub_first, Machine.log]
  repeat' split
  all_goals rfl

/-- How `BuildCheckpointingSub` runs once it has reached the wait for the first
transaction. -/
theorem BuildCheckpointingSub_reaches_wait (env : Env) (benv : BuildEnv) (m : Machine)
    (cfg : TaprootConfig) (ts : TipSet) (publickey : Bytes) (fuel : Nat)
    (hping : benv.bitcoindPing m.c.cpconfig.BitcoinHost = true)
    (hgen : benv.ChainGetGenesis = .ok ts)
    (hkey : hexDecodeString m.c.cpconfig.PublicKey = .ok publickey)
    (hshare : m.c.taprootConfig = some cfg)
    (hinit : (BuildCheckpointingSub_init env benv m cfg ts.key).2 = .ok) :
    BuildCheckpointingSub env benv fuel m
      = match BuildCheckpointingSub_wait benv m.c.cpconfig.BitcoinHost publickey ts.key fuel 0 with
        | none => none
        | some (txid, calls) =>
          some (BuildCheckpointingSub_rest env benv
            { (BuildCheckpointingSub_init env benv m cfg ts.key).1 with
              c := { (BuildCheckpointingSub_init env benv m cfg ts.key).1.c with ptxid := txid } }
            publickey ts.key, calls, .ok) := by
  have hc := init_cpconfig env benv m cfg ts.key
  simp only [BuildCheckpointingSub, hping, hgen, hkey, hshare]
  rw [if_neg (by simp)]
  cases hi : BuildCheckpointingSub_init env benv m cfg ts.key with
  | mk m2 out =>
    rw [hi] at hinit hc
    simp only at hinit hc
    subst hinit
    simp only [hc]

/-- C23 (amended): the wait for the first transaction is not bounded.  For a node with
a share whose start-up reaches the wait, `BuildCheckpointingSub` calls
`CheckIfFirstTxHasBeenSent` until a call reports the transaction: if call number `k`
(counting from 0) is the first to report it, the wait ends after exactly `k + 1` calls
and the txid reported by that call is recorded as `ptxid`; if no call ever reports it,
the wait is still running after any number of calls. -/
theorem BuildCheckpointingSub_polling (env : Env) (benv : BuildEnv) (m : Machine)
    (cfg : TaprootConfig) (ts : TipSet) (publickey : Bytes)
    (hping : benv.bitcoindPing m.c.cpconfig.BitcoinHost = true)
    (hgen : benv.ChainGetGenesis = .ok ts)
    (hkey : hexDecodeString m.c.cpconfig.PublicKey = .ok publickey)
    (hshare : m.c.taprootConfig = some cfg)
    (hinit : (BuildCheckpointingSub_init env benv m cfg ts.key).2 = .ok) :
    (∀ k : Nat,
      (benv.CheckIfFirstTxHasBeenSent k m.c.cpconfig.BitcoinHost publickey ts.key).1 = true →
      (∀ j, j < k →
        (benv.CheckIfFirstTxHasBeenSent j m.c.cpconfig.BitcoinHost publickey ts.key).1 = false) →
      ∀ fuel, k < fuel →
        ∃ m1, BuildCheckpointingSub env benv fuel m = some (m1, k + 1, .ok)
          ∧ m1.c.ptxid
            = (benv.CheckIfFirstTxHasBeenSent k m.c.cpconfig.BitcoinHost publickey ts.key).2.1)
    ∧ ((∀ j, (benv.CheckIfFirstTxHasBeenSent j m.c.cpconfig.BitcoinHost publickey ts.key).1
          = false) →
        ∀ fuel, BuildCheckpointingSub env benv fuel m = none)
    ∧ (∀ fuel m1 calls out, BuildCheckpointingSub env benv fuel m = some (m1, calls, out) →
        out = .ok ∧ 0 < calls
        ∧ (benv.CheckIfFirstTxHasBeenSent (calls - 1) m.c.cpconfig.BitcoinHost publickey
            ts.key).1 = true
        ∧ m1.c.ptxid = (benv.CheckIfFirstTxHasBeenSent (calls - 1) m.c.cpconfig.BitcoinHost
            publickey ts.key).2.1
        ∧ ∀ j, j < calls - 1 →
            (benv.CheckIfFirstTxHasBeenSent j m.c.cpconfig.BitcoinHost publickey ts.key).1
              = false) := by
  refine ⟨?_, ?_, ?_⟩
  · intro k hk hbefore fuel hf
    rw [BuildCheckpointingSub_reaches_wait env benv m cfg ts publickey fuel hping hgen hkey
      hshare hinit]
    rw [wait_first benv _ publickey ts.key k hk fuel 0 (Nat.zero_le _) (by omega)
      (fun j _ h2 => hbefore j h2)]
    exact ⟨_, rfl, rest_ptxid _ _ _ _ _⟩
  · intro hnever fuel
    rw [BuildCheckpointingSub_reaches_wait env benv m cfg ts publickey fuel hping hgen hkey
      hshare hinit]
    rw [wait_not_yet benv _ publickey ts.key fuel 0 (fun j _ _ => hnever j)]
  · intro fuel m1 calls out h
    rw [BuildCheckpointingSub_reaches_wait env benv m cfg ts publickey fuel hping hgen hkey
      hshare hinit] at h
    cases hw : BuildCheckpointingSub_wait benv m.c.cpconfig.BitcoinHost publickey ts.key fuel 0 with
    | none =>
      rw [hw] at h
      cases h
    | some r =>
      obtain ⟨txid, n⟩ := r
      rw [hw] at h
      simp only [Option.some.injEq, Prod.mk.injEq] at h
      obtain ⟨h1, h2, h3⟩ := h
      obtain ⟨w1, -, w3, w4⟩ := wait_result benv _ publickey ts.key fuel 0 txid n hw
      subst h2
      refine ⟨h3.symm, w1, by rw [w3], ?_, fun j hj => w4 j (Nat.zero_le _) hj⟩
      rw [← h1, rest_ptxid, w3]

/-- A run of the amended C23 statement: the Bitcoin node reports the first transaction
from the third call on; the wait of the node `A` ends after three calls and records
the txid `f00d`. -/
theorem BuildCheckpointingSub_polling_witness :
    thirdCallEnv.bitcoindPing booted.c.cpconfig.BitcoinHost = true
    ∧ thirdCallEnv.ChainGetGenesis = .ok ⟨0, [0]⟩
    ∧ hexDecodeString booted.c.cpconfig.PublicKey = .ok []
    ∧ booted.c.taprootConfig = some bootConfig
    ∧ (BuildCheckpointingSub_init demoEnv thirdCallEnv booted bootConfig [0]).2 = .ok
    ∧ ∃ m1, BuildCheckpointingSub demoEnv thirdCallEnv 5 booted = some (m1, 3, .ok)
        ∧ m1.c.ptxid = "f00d" :=
  ⟨rfl, rfl, rfl, rfl, by decide,
    (BuildCheckpointingSub_polling demoEnv thirdCallEnv booted bootConfig ⟨0, [0]⟩ []
      rfl rfl rfl rfl (by decide)).1 2 (by decide) (by decide) 5 (by decide)⟩

/-- C23 as stated fails: with a Bitcoin node that never reports the first transaction,
the wait of the node `A`, which holds a share, is still running after any number of
calls of `CheckIfFirstTxHasBeenSent`. -/
theorem BuildCheckpointingSub_wait_unbounded :
    booted.c.taprootConfig = some bootConfig
    ∧ (∀ calls, (neverEnv.CheckIfFirstTxHasBeenSent calls "btc" [] [0]).1 = false)
    ∧ (∀ fuel, BuildCheckpointingSub_wait neverEnv "btc" [] [0] fuel 0 = none)
    ∧ ∀ fuel, BuildCheckpointingSub demoEnv neverEnv fuel booted = none := by
  refine ⟨rfl, fun _ => rfl, fun fuel => ?_, fun fuel => ?_⟩
  · exact wait_not_yet neverEnv "btc" [] [0] fuel 0 (fun _ _ _ => rfl)
  · rw [BuildCheckpointingSub_reaches_wait demoEnv neverEnv booted bootConfig ⟨0, [0]⟩ [] fuel
      rfl rfl rfl rfl (by decide)]
    rw [show booted.c.cpconfig.BitcoinHost = "btc" from rfl,
      wait_not_yet neverEnv "btc" [] [0] fuel 0 (fun _ _ _ => rfl)]

end Checkpointing

namespace Submgr

theorem checkpointPeriod_max (h : Host) (p : SubnetParams) :
    (if p.CheckpointPeriod < h.MinCheckpointPeriod p.Alg then h.MinCheckpointPeriod p.Alg
      else p.CheckpointPeriod) = max p.CheckpointPeriod (h.MinCheckpointPeriod p.Alg) := by
  split
  · rw [max_eq_right (by omega)]
  · rw [max_eq_left (by omega)]

/-- The events of `AddSubnet`: none, or the constructor parameters followed by at most
one message; the parameters are built exactly when the three checks pass. -/
theorem AddSubnet_events (h : Host) (p : SubnetParams) :
    ((AddSubnet h (some p)).1 = [] ∧ ∃ e, (AddSubnet h (some p)).2 = .error e)
    ∨ (p.FinalityThreshold < max p.CheckpointPeriod (h.MinCheckpointPeriod p.Alg)
      ∧ (∃ api, h.getAPI p.Parent = some api) ∧ ¬ (p.Alg = h.Mir ∧ p.MinValidators = 0)
      ∧ ∃ rest, (AddSubnet h (some p)).1
          = Event.SerializeParams
              { NetworkName := h.NetName
                MinMinerStake := p.Stake
                Name := p.Name
                Consensus := p.Alg
                CheckpointPeriod := max p.CheckpointPeriod (h.MinCheckpointPeriod p.Alg)
                FinalityThreshold := p.FinalityThreshold
                DelegMiner := p.DelegMiner
                MinValidators := p.MinValidators } :: rest
        ∧ ∀ e ∈ rest, ∃ api msg, e = Event.MpoolPushMessage api msg) := by
  cases hapi : h.getAPI p.Parent with
  | none =>
    left
    simp only [AddSubnet, hapi]
    exact ⟨trivial, _, rfl⟩
  | some api =>
    by_cases hge : p.FinalityThreshold ≥ max p.CheckpointPeriod (h.MinCheckpointPeriod p.Alg)
    · left
      simp only [AddSubnet, hapi, checkpointPeriod_max, if_pos hge]
      exact ⟨trivial, _, rfl⟩
    · by_cases hmir : p.Alg = h.Mir ∧ p.MinValidators = 0
      · left
        simp only [AddSubnet, hapi, checkpointPeriod_max, if_neg hge, if_pos hmir]
        exact ⟨trivial, _, rfl⟩
      · right
        refine ⟨by omega, ⟨api, rfl⟩, hmir, ?_⟩
        simp only [AddSubnet, hapi, checkpointPeriod_max, if_neg hge, if_neg hmir]
        repeat' split
        all_goals exact ⟨_, rfl, by simp⟩

/-- C24: validation of the subnet parameters.  Whenever `AddSubnet` builds the
constructor parameters of the subnet actor, the `CheckpointPeriod` it writes is the
maximum of `params.CheckpointPeriod` and `MinCheckpointPeriod(alg)`, hence not below
the minimum, the `FinalityThreshold` it writes is that of the parameters, and it is
strictly less than that `CheckpointPeriod`.  Whenever `FinalityThreshold` is not less
than that value, `AddSubnet` returns an error without sending a message.  With a
threshold below it, a parent API and no Mir subnet without validators, the constructor
parameters are built. -/
theorem AddSubnet_checkpoint_period (h : Host) (params : Option SubnetParams) :
    (∀ addp, Event.SerializeParams addp ∈ (AddSubnet h params).1 →
      ∃ p, params = some p
        ∧ addp.CheckpointPeriod = max p.CheckpointPeriod (h.MinCheckpointPeriod p.Alg)
        ∧ h.MinCheckpointPeriod p.Alg ≤ addp.CheckpointPeriod
        ∧ addp.FinalityThreshold = p.FinalityThreshold
        ∧ p.FinalityThreshold < addp.CheckpointPeriod)
    ∧ (∀ p, params = some p →
        p.FinalityThreshold ≥ max p.CheckpointPeriod (h.MinCheckpointPeriod p.Alg) →
        (∃ e, (AddSubnet h params).2 = .error e) ∧ (AddSubnet h params).1 = [])
    ∧ (∀ p api, params = some p → h.getAPI p.Parent = some api →
        p.FinalityThreshold < max p.CheckpointPeriod (h.MinCheckpointPeriod p.Alg) →
        ¬ (p.Alg = h.Mir ∧ p.MinValidators = 0) →
        ∃ addp, Event.SerializeParams addp ∈ (AddSubnet h params).1) := by
  refine ⟨?_, ?_, ?_⟩
  · intro addp hmem
    cases params with
    | none => simp [AddSubnet] at hmem
    | some p =>
      refine ⟨p, rfl, ?_⟩
      rcases AddSubnet_events h p with ⟨h1, -⟩ | ⟨hlt, -, -, rest, h1, h2⟩
      · rw [h1] at hmem
        cases hmem
      · rw [h1] at hmem
        rcases List.mem_cons.1 hmem with e | e
        · cases e
          exact ⟨rfl, le_max_right _ _, rfl, hlt⟩
        · obtain ⟨api, msg, e2⟩ := h2 _ e
          cases e2
  · intro p hp hge
    subst hp
    rcases AddSubnet_events h p with ⟨h1, h2⟩ | ⟨hlt, -⟩
    · exact ⟨h2, h1⟩
    · omega
  · intro p api hp hapi hlt hmir
    subst hp
    rcases AddSubnet_events h p with ⟨h1, -⟩ | ⟨-, -, -, rest, h1, -⟩
    · exfalso
      simp only [AddSubnet, hapi, checkpointPeriod_max, if_neg (not_le.2 hlt), if_neg hmir] at h1
      repeat' split at h1
      all_goals simp at h1
    · exact ⟨_, by rw [h1]; exact List.mem_cons_self _ _⟩

/-- A run of C24: a checkpoint period of 5 with a minimum of 10 is written as 10; the
finality threshold 4 is below it. -/
theorem AddSubnet_checkpoint_period_witness :
    Event.SerializeParams
        ⟨"/root", 1, "a", 1, 10, 4, "", 0⟩ ∈ (AddSubnet demoHost (some demoParams)).1
    ∧ ∃ p, some demoParams = some p
        ∧ (10 : Int) = max p.CheckpointPeriod (demoHost.MinCheckpointPeriod p.Alg)
        ∧ demoHost.MinCheckpointPeriod p.Alg ≤ 10
        ∧ (4 : Int) = p.FinalityThreshold
        ∧ p.FinalityThreshold < 10 :=
  ⟨by decide,
    (AddSubnet_checkpoint_period demoHost (some demoParams)).1
      ⟨"/root", 1, "a", 1, 10, 4, "", 0⟩ (by decide)⟩

/-- C25: the validator address in `JoinSubnet`.  The comment in the code says the
validator address is optional for Mir, but `JoinSubnet` rejects an empty address for a
Mir subnet with the error "Mir validator address must be specified", before any
message is sent.  For a Mir subnet a non-empty address is accepted; for another
consensus a non-empty address is rejected as not supported and an empty one is
accepted. -/
theorem JoinSubnet_mir_empty_address_rejected :
    demoHost.cstGet "rootAPI" "/root/mir" = .ok ⟨demoHost.Mir⟩
    ∧ JoinSubnet demoHost "f1abc" 1 "/root/mir" ""
        = ([], .error "Mir validator address must be specified")
    ∧ JoinSubnet demoHost "f1abc" 1 "/root/mir" "/ip4/127.0.0.1/tcp/10000"
        = ([.MpoolPushMessage "rootAPI" ⟨"/root/mir", "f1abc", 1, 2, [1]⟩], .ok "cid")
    ∧ JoinSubnet demoHost "f1abc" 1 "/root/a" "/ip4/127.0.0.1/tcp/10000"
        = ([], .error "validator address is not supported")
    ∧ JoinSubnet demoHost "f1abc" 1 "/root/a" ""
        = ([.MpoolPushMessage "rootAPI" ⟨"/root/a", "f1abc", 1, 2, [1]⟩], .ok "cid") :=
  ⟨rfl, rfl, rfl, rfl, rfl⟩

end Submgr

namespace AtomicReplace

theorem lookup_filter_ne (k j : String) (h : j ≠ k) :
    ∀ l : List (String × Cid), (l.filter fun e => e.1 ≠ k).lookup j = l.lookup j
  | [] => rfl
  | (a, b) :: l => by
    by_cases ha : a = k
    · have hja : ¬ (j == a) = true := by
        rw [beq_iff_eq, ha]
        exact h
      simp only [List.filter, ha, ne_eq, not_true_eq_false, decide_False, List.lookup]
      rw [lookup_filter_ne k j h l]
      simp [← ha, hja]
    · simp only [List.filter, ha, ne_eq, not_false_eq_true, decide_True, List.lookup]
      rw [lookup_filter_ne k j h l]

theorem get_set_self (o : Owners) (k : String) (v : Cid) : (o.set k v).get k = v := by
  simp [Owners.get, Owners.set, List.lookup]

theorem get_set_ne (o : Owners) (k j : String) (v : Cid) (h : j ≠ k) :
    (o.set k v).get j = o.get j := by
  have hjk : ¬ (j == k) = true := by
    rw [beq_iff_eq]
    exact h
  simp only [Owners.get, Owners.set, List.lookup]
  simp only [hjk]
  rw [lookup_filter_ne k j h o.M]

/-- C26: `Replace` swaps ownership.  For an unlocked state (the validation of package
`atomic` passes for every state whose `Lock` flag is not set), `Replace` called by `c`
with address `a` commits a state in which the entry of `c` is the former entry of `a`
and the entry of `a` the former entry of `c` (an absent key reading as the undefined
cid), every other key reads as before and the state is still unlocked; a second
`Replace` with the same `c` and `a` restores the entries of `c` and `a`. -/
theorem Replace_swaps (at_ : Atomic) (st : ReplaceState) (c a : String)
    (hlock : st.Owners.Lock = false)
    (hv : ∀ s : LockedState, s.Lock = false → at_.ValidateIfLocked s = none) :
    ∃ st1 st2, Replace at_ st c a = .ok st1 ∧ Replace at_ st1 c a = .ok st2
      ∧ st1.Owners.S.get c = st.Owners.S.get a
      ∧ st1.Owners.S.get a = st.Owners.S.get c
      ∧ (∀ k, k ≠ c → k ≠ a → st1.Owners.S.get k = st.Owners.S.get k)
      ∧ st1.Owners.Lock = false
      ∧ st2.Owners.S.get c = st.Owners.S.get c
      ∧ st2.Owners.S.get a = st.Owners.S.get a
      ∧ (∀ k, k ≠ c → k ≠ a → st2.Owners.S.get k = st.Owners.S.get k) := by
  have swap : ∀ o : Owners,
      (((o.set c (o.get a)).set a (o.get c)).get c = o.get a)
      ∧ (((o.set c (o.get a)).set a (o.get c)).get a = o.get c)
      ∧ ∀ k, k ≠ c → k ≠ a → ((o.set c (o.get a)).set a (o.get c)).get k = o.get k := by
    intro o
    refine ⟨?_, get_set_self _ _ _, fun k h1 h2 => ?_⟩
    · by_cases hca : c = a
      · rw [hca, get_set_self]
      · rw [get_set_ne _ _ _ _ hca, get_set_self]
    · rw [get_set_ne _ _ _ _ h2, get_set_ne _ _ _ _ h1]
  have run : ∀ s : ReplaceState, s.Owners.Lock = false →
      Replace at_ s c a = .ok { s with Owners := { s.Owners with
        S := (s.Owners.S.set c (s.Owners.S.get a)).set a (s.Owners.S.get c) } } := by
    intro s hs
    simp only [Replace, ValidateLockedState, hv s.Owners hs]
  obtain ⟨s1, s2, s3⟩ := swap st.Owners.S
  obtain ⟨t1, t2, t3⟩ := swap ((st.Owners.S.set c (st.Owners.S.get a)).set a (st.Owners.S.get c))
  refine ⟨_, _, run st hlock, run _ hlock, s1, s2, s3, hlock, ?_, ?_, ?_⟩
  · exact t1.trans s2
  · exact t2.trans s1
  · intro k h1 h2
    exact (t3 k h1 h2).trans (s3 k h1 h2)

/-- A run of C26: `alice` replaces with `dave`, who owns nothing. -/
theorem Replace_swaps_witness :
    demoState.Owners.Lock = false
    ∧ (∀ s : LockedState, s.Lock = false → demoAtomic.ValidateIfLocked s = none)
    ∧ ∃ st1 st2, Replace demoAtomic demoState "alice" "dave" = .ok st1
      ∧ Replace demoAtomic st1 "alice" "dave" = .ok st2
      ∧ st1.Owners.S.get "alice" = demoState.Owners.S.get "dave"
      ∧ st1.Owners.S.get "dave" = demoState.Owners.S.get "alice"
      ∧ (∀ k, k ≠ "alice" → k ≠ "dave" → st1.Owners.S.get k = demoState.Owners.S.get k)
      ∧ st1.Owners.Lock = false
      ∧ st2.Owners.S.get "alice" = demoState.Owners.S.get "alice"
      ∧ st2.Owners.S.get "dave" = demoState.Owners.S.get "dave"
      ∧ (∀ k, k ≠ "alice" → k ≠ "dave" → st2.Owners.S.get k = demoState.Owners.S.get k) :=
  ⟨rfl, fun s hs => by simp [demoAtomic, hs],
    Replace_swaps demoAtomic demoState "alice" "dave" rfl
      (fun s hs => by simp [demoAtomic, hs])⟩

end AtomicReplace

namespace Hierarchical

theorem commonParent_eq_self : ∀ (a b : List String), a <+: b → commonParent a b = a
  | [], _, _ => by cases ‹List String› <;> rfl
  | x :: as, [], h => by
    have := h.length_le
    simp at this
  | x :: as, y :: bs, h => by
    rw [List.cons_prefix_cons] at h
    obtain ⟨hxy, htl⟩ := h
    simp only [commonParent, hxy, if_true]
    rw [commonParent_eq_self as bs htl]

theorem commonParent_prefix_left : ∀ (a b : List String), commonParent a b <+: a
  | [], _ => by cases ‹List String› <;> simp [commonParent]
  | x :: as, [] => by simp [commonParent]
  | x :: as, y :: bs => by
    simp only [commonParent]
    split
    · rw [List.cons_prefix_cons]
      exact ⟨rfl, commonParent_prefix_left as bs⟩
    · exact List.nil_prefix

theorem commonParent_prefix_right : ∀ (a b : List String), commonParent a b <+: b
  | [], _ => by cases ‹List String› <;> simp [commonParent]
  | x :: as, [] => by simp [commonParent]
  | x :: as, y :: bs => by
    simp only [commonParent]
    split
    · rename_i hxy
      rw [List.cons_prefix_cons]
      exact ⟨hxy, commonParent_prefix_right as bs⟩
    · exact List.nil_prefix

/-- C27: direction of a cross-net message.  `IsBottomUp src dst` is false when `src`
is `dst` or an ancestor of `dst` (its components are a prefix of those of `dst`) and
true in every other case, that is, exactly when `src` lies strictly below the closest
common ancestor of the two; the four cases of `TestBottomUp` come out as the test
expects. -/
theorem IsBottomUp_direction (src dst : String) :
    (components src <+: components dst → IsBottomUp src dst = false)
    ∧ (IsBottomUp src dst = true ↔ ¬ components src <+: components dst)
    ∧ (IsBottomUp src dst = true ↔
        (commonParent (components src) (components dst)).length < (components src).length)
    ∧ IsBottomUp "/root/a" "/root/a/b" = false
    ∧ IsBottomUp "/root/c/a" "/root/a/b" = true
    ∧ IsBottomUp "/root/c/a/d" "/root/c/a/e" = true
    ∧ IsBottomUp "/root/c/a" "/root/c/b" = true := by
  have key : IsBottomUp src dst = true ↔ ¬ components src <+: components dst := by
    simp only [IsBottomUp, decide_eq_true_eq]
    constructor
    · intro hlt hp
      rw [commonParent_eq_self _ _ hp] at hlt
      exact Nat.lt_irrefl _ hlt
    · intro hnp
      have hle := (commonParent_prefix_left (components src) (components dst)).length_le
      rcases Nat.lt_or_ge (commonParent (components src) (components dst)).length
          (components src).length with h | h
      · exact h
      · exfalso
        apply hnp
        have heq : commonParent (components src) (components dst) = components src :=
          (commonParent_prefix_left _ _).eq_of_length (Nat.le_antisymm hle h)
        rw [← heq]
        exact commonParent_prefix_right _ _
  refine ⟨fun hp => ?_, key, by simp [IsBottomUp], by decide, by decide, by decide, by decide⟩
  cases hb : IsBottomUp src dst with
  | false => rfl
  | true => exact absurd hp (key.1 hb)

/-- A run of C27: `/root/a` is an ancestor of `/root/a/b`. -/
theorem IsBottomUp_direction_witness :
    components "/root/a" <+: components "/root/a/b"
    ∧ IsBottomUp "/root/a" "/root/a/b" = false :=
  ⟨by decide, (IsBottomUp_direction "/root/a" "/root/a/b").1 (by decide)⟩

end Hierarchical
